import Mathlib

/-!
Traffic controller for a four-way intersection (STM32F4).

A shallow embedding of `main.c`, `GPIO.c` and `GPIO.h`.

* Machine integers are natural numbers; a store to a `uint8_t` or `uint32_t`
  object is followed by an explicit reduction modulo `2^8` or `2^32`.
* `rand()` is a stream `rnd : Nat → Nat` of non-negative results; the state
  counts how many results have been consumed.
* The memory-mapped registers of port A are fields of the state.  A store to
  `BSRR` acts on the output data register as the port hardware does.
* The state carries a trace of what the program did that is visible from
  outside: every `GPIO_WritePin`, every `ms_delay`, and the calls that the
  main loop makes to the traffic model.
-/

namespace Traffic

/-! ## Constants of `GPIO.h` -/

def GPIO_NUMBER : Nat := 16

def GPIO_PIN_0 : Nat := 0x0001
def GPIO_PIN_1 : Nat := 0x0002
def GPIO_PIN_2 : Nat := 0x0004
def GPIO_PIN_3 : Nat := 0x0008
def GPIO_PIN_4 : Nat := 0x0010
def GPIO_PIN_5 : Nat := 0x0020
def GPIO_PIN_6 : Nat := 0x0040
def GPIO_PIN_7 : Nat := 0x0080
def GPIO_PIN_8 : Nat := 0x0100
def GPIO_PIN_9 : Nat := 0x0200
def GPIO_PIN_10 : Nat := 0x0400
def GPIO_PIN_11 : Nat := 0x0800
def GPIO_PIN_12 : Nat := 0x1000
def GPIO_PIN_13 : Nat := 0x2000
def GPIO_PIN_14 : Nat := 0x4000
def GPIO_PIN_15 : Nat := 0x8000

def GPIO_MODE_OUTPUT_PP : Nat := 0x00000001
def GPIO_SPEED_FREQ_LOW : Nat := 0x00000000
def GPIO_NOPULL : Nat := 0x00000000

/-- The enumeration `GPIO_PinState`. -/
inductive GPIO_PinState where
  | GPIO_PIN_RESET
  | GPIO_PIN_SET
deriving DecidableEq, Repr

/-- The structure `GPIO_InitTypeDef`; every field is a `uint32_t`. -/
structure GPIO_InitTypeDef where
  Pin : Nat
  Mode : Nat
  Pull : Nat
  Speed : Nat
  Alternate : Nat
deriving DecidableEq, Repr

/-! ## Constants of `main.c` -/

def NORTH_SOUTH : Int := 0
def EAST_WEST : Int := 1

def RED : Int := 0
def YELLOW : Int := 1
def GREEN : Int := 2

def TRAFFIC_LOW : Nat := 5
def TRAFFIC_HIGH : Nat := 15
def MAX_TRAFFIC : Nat := 30

def GREEN_TIME : Nat := 5000
def YELLOW_TIME : Nat := 2000
def RED_TIME : Nat := 7000
def EXTENDED_TIME : Nat := 15000

def N_RED_PIN : Nat := GPIO_PIN_0
def N_YELLOW_PIN : Nat := GPIO_PIN_1
def N_GREEN_PIN : Nat := GPIO_PIN_2
def S_RED_PIN : Nat := GPIO_PIN_3
def S_YELLOW_PIN : Nat := GPIO_PIN_4
def S_GREEN_PIN : Nat := GPIO_PIN_5
def E_RED_PIN : Nat := GPIO_PIN_6
def E_YELLOW_PIN : Nat := GPIO_PIN_7
def E_GREEN_PIN : Nat := GPIO_PIN_8
def W_RED_PIN : Nat := GPIO_PIN_9
def W_YELLOW_PIN : Nat := GPIO_PIN_10
def W_GREEN_PIN : Nat := GPIO_PIN_11

def NS_RED_PINS : Nat := N_RED_PIN ||| S_RED_PIN
def NS_YELLOW_PINS : Nat := N_YELLOW_PIN ||| S_YELLOW_PIN
def NS_GREEN_PINS : Nat := N_GREEN_PIN ||| S_GREEN_PIN

def EW_RED_PINS : Nat := E_RED_PIN ||| W_RED_PIN
def EW_YELLOW_PINS : Nat := E_YELLOW_PIN ||| W_YELLOW_PIN
def EW_GREEN_PINS : Nat := E_GREEN_PIN ||| W_GREEN_PIN

def NS_LOAD_LED_PIN : Nat := GPIO_PIN_12
def EW_LOAD_LED_PIN : Nat := GPIO_PIN_13
def BOTH_LOAD_LED_PIN : Nat := GPIO_PIN_14

/-- The pin mask that `setup_gpio` configures and `clear_all_lights` resets. -/
def ALL_PINS : Nat :=
  N_RED_PIN ||| N_YELLOW_PIN ||| N_GREEN_PIN |||
  S_RED_PIN ||| S_YELLOW_PIN ||| S_GREEN_PIN |||
  E_RED_PIN ||| E_YELLOW_PIN ||| E_GREEN_PIN |||
  W_RED_PIN ||| W_YELLOW_PIN ||| W_GREEN_PIN |||
  NS_LOAD_LED_PIN ||| EW_LOAD_LED_PIN ||| BOTH_LOAD_LED_PIN

/-! ## State -/

/-- The registers of a GPIO port that the program touches (`GPIO_TypeDef`).
`ODR` is the output data register: bit `p` is the level of pin `p`. -/
structure GPIO_TypeDef where
  MODER : Nat
  OTYPER : Nat
  OSPEEDR : Nat
  PUPDR : Nat
  ODR : Nat
deriving DecidableEq, Repr

/-- The ports that `GPIO_Init` tells apart: `GPIOA`, `GPIOB`, any other. -/
inductive Port where
  | GPIOA
  | GPIOB
  | other (n : Nat)
deriving DecidableEq, Repr

/-- What the program does that can be seen from outside, in program order. -/
inductive Event where
  /-- The main loop calls `generate_traffic`. -/
  | call_generate_traffic
  /-- The main loop calls `update_load_indicators`. -/
  | call_update_load_indicators
  /-- The main loop calls `process_traffic_movement(direction)`. -/
  | call_process_traffic_movement (direction : Int)
  /-- A `GPIO_WritePin`: the value stored to `BSRR` and the output data
  register after the store. -/
  | write (bsrr : Nat) (odr : Nat)
  /-- A call `ms_delay(ms)` at source line `line` of `main.c`, with the output
  data register and the two traffic counts at that moment. -/
  | delay (line : Nat) (ms : Nat) (odr : Nat) (ns : Nat) (ew : Nat)
deriving DecidableEq, Repr

/-- The state of the program: the two global counters, the registers of
`GPIOA`, `RCC->AHB1ENR`, the number of `rand()` results consumed, and the
trace. -/
structure State where
  ns_traffic_count : Nat
  ew_traffic_count : Nat
  gpioa : GPIO_TypeDef
  ahb1enr : Nat
  k : Nat
  trace : List Event
deriving DecidableEq, Repr

/-! ## `GPIO.c` -/

/-- The port hardware (not part of the repository): a store of `v` to `BSRR`
sets the pins named in bits 0-15 of `v` and resets the pins named in bits
16-31; a pin named in both halves is set. -/
def BSRR_store (v : Nat) (odr : Nat) : Nat :=
  (odr ^^^ (odr &&& (v >>> 16))) ||| (v &&& 0xFFFF)

/-- The value `GPIO_WritePin` stores to `BSRR`. -/
def GPIO_WritePin_value (GPIO_Pin : Nat) (PinState : GPIO_PinState) : Nat :=
  match PinState with
  | GPIO_PinState.GPIO_PIN_SET => GPIO_Pin
  | GPIO_PinState.GPIO_PIN_RESET => (GPIO_Pin <<< 16) % 2 ^ 32

/-- `GPIO_WritePin(GPIOx, GPIO_Pin, PinState)` on the registers of the port. -/
def GPIO_WritePin (g : GPIO_TypeDef) (GPIO_Pin : Nat) (PinState : GPIO_PinState) :
    GPIO_TypeDef :=
  { g with ODR := BSRR_store (GPIO_WritePin_value GPIO_Pin PinState) g.ODR }

/-- The body of the `for` loop of `GPIO_Init` at one `position`. -/
def GPIO_Init_position (ini : GPIO_InitTypeDef) (g : GPIO_TypeDef) (position : Nat) :
    GPIO_TypeDef :=
  let ioposition := (1 <<< position) % 2 ^ 32
  if ini.Pin &&& ioposition ≠ 0 then
    let clear2 := 0xFFFFFFFF ^^^ ((0x3 <<< (position * 2)) % 2 ^ 32)
    let clear1 := 0xFFFFFFFF ^^^ ((1 <<< position) % 2 ^ 32)
    let moder := g.MODER &&& clear2
    let moder := moder ||| (((ini.Mode &&& 0x3) <<< (position * 2)) % 2 ^ 32)
    let otyper := g.OTYPER &&& clear1
    let otyper := otyper ||| ((((ini.Mode >>> 4) &&& 0x1) <<< position) % 2 ^ 32)
    let ospeedr := g.OSPEEDR &&& clear2
    let ospeedr := ospeedr ||| (((ini.Speed &&& 0x3) <<< (position * 2)) % 2 ^ 32)
    let pupdr := g.PUPDR &&& clear2
    let pupdr := pupdr ||| (((ini.Pull &&& 0x3) <<< (position * 2)) % 2 ^ 32)
    { g with MODER := moder, OTYPER := otyper, OSPEEDR := ospeedr, PUPDR := pupdr }
  else g

/-- The loop `for (position = 0; position < GPIO_NUMBER; position++)`: the
body at each position from 0 to 15, in this order. -/
def GPIO_Init_loop (ini : GPIO_InitTypeDef) (g : GPIO_TypeDef) : GPIO_TypeDef :=
  (List.range GPIO_NUMBER).foldl (GPIO_Init_position ini) g

/-- `GPIO_Init(GPIOx, GPIO_Init)` on `RCC->AHB1ENR` and the registers of the
port `GPIOx`. -/
def GPIO_Init (port : Port) (ini : GPIO_InitTypeDef) (ahb1enr : Nat) (g : GPIO_TypeDef) :
    Nat × GPIO_TypeDef :=
  let ahb1enr :=
    match port with
    | Port.GPIOA => ahb1enr ||| ((1 <<< 0) % 2 ^ 32)
    | Port.GPIOB => ahb1enr ||| ((1 <<< 1) % 2 ^ 32)
    | Port.other _ => ahb1enr
  (ahb1enr, GPIO_Init_loop ini g)

/-! ## `main.c` -/

/-- A `GPIO_WritePin(GPIOA, ...)` made by the program: the registers change
and the store is recorded in the trace. -/
def writePinA (GPIO_Pin : Nat) (PinState : GPIO_PinState) (s : State) : State :=
  let g := GPIO_WritePin s.gpioa GPIO_Pin PinState
  { s with gpioa := g,
           trace := s.trace ++ [Event.write (GPIO_WritePin_value GPIO_Pin PinState) g.ODR] }

/-- `ms_delay(ms)` called at source line `line`: nothing changes but time; the
call is recorded in the trace. -/
def ms_delay (line : Nat) (ms : Nat) (s : State) : State :=
  { s with trace := s.trace ++
      [Event.delay line ms s.gpioa.ODR s.ns_traffic_count s.ew_traffic_count] }

/-- Records a call made by the main loop. -/
def record (e : Event) (s : State) : State :=
  { s with trace := s.trace ++ [e] }

/-- `clear_all_lights()`. -/
def clear_all_lights (s : State) : State :=
  writePinA ALL_PINS GPIO_PinState.GPIO_PIN_RESET s

/-- `setup_gpio()`. -/
def setup_gpio (s : State) : State :=
  let gpio : GPIO_InitTypeDef :=
    { Pin := ALL_PINS, Mode := GPIO_MODE_OUTPUT_PP, Pull := GPIO_NOPULL,
      Speed := GPIO_SPEED_FREQ_LOW, Alternate := 0 }
  let r := GPIO_Init Port.GPIOA gpio s.ahb1enr s.gpioa
  clear_all_lights { s with ahb1enr := r.1, gpioa := r.2 }

/-- `set_traffic_light(direction, color)`. -/
def set_traffic_light (direction : Int) (color : Int) (s : State) : State :=
  let pins : Nat × Nat × Nat :=
    if direction = NORTH_SOUTH then (NS_RED_PINS, NS_YELLOW_PINS, NS_GREEN_PINS)
    else (EW_RED_PINS, EW_YELLOW_PINS, EW_GREEN_PINS)
  let red_pins := pins.1
  let yellow_pins := pins.2.1
  let green_pins := pins.2.2
  let s := writePinA (red_pins ||| yellow_pins ||| green_pins) GPIO_PinState.GPIO_PIN_RESET s
  if color = RED then
    writePinA red_pins GPIO_PinState.GPIO_PIN_SET s
  else if color = YELLOW then
    writePinA yellow_pins GPIO_PinState.GPIO_PIN_SET s
  else if color = GREEN then
    writePinA green_pins GPIO_PinState.GPIO_PIN_SET s
  else s

/-- `generate_traffic()`: two `rand()` results are consumed, the first for
north-south; each `+=` stores to a `uint8_t`. -/
def generate_traffic (rnd : Nat → Nat) (s : State) : State :=
  let ns_new_traffic := rnd s.k % 3
  let ns := (s.ns_traffic_count + ns_new_traffic) % 256
  let ns := if ns > MAX_TRAFFIC then MAX_TRAFFIC else ns
  let ew_new_traffic := rnd (s.k + 1) % 3
  let ew := (s.ew_traffic_count + ew_new_traffic) % 256
  let ew := if ew > MAX_TRAFFIC then MAX_TRAFFIC else ew
  { s with ns_traffic_count := ns, ew_traffic_count := ew, k := s.k + 2 }

/-- `process_traffic_movement(direction)`: `cars_moving` is an `int`, the
`-=` is computed in `int` and stored to a `uint8_t`. -/
def process_traffic_movement (rnd : Nat → Nat) (direction : Int) (s : State) : State :=
  if direction = NORTH_SOUTH ∧ s.ns_traffic_count > 0 then
    let cars_moving : Int := ((rnd s.k % 4 : Nat) : Int)
    let cars_moving : Int :=
      if cars_moving > (s.ns_traffic_count : Int) then (s.ns_traffic_count : Int)
      else cars_moving
    { s with ns_traffic_count := (((s.ns_traffic_count : Int) - cars_moving) % 256).toNat,
             k := s.k + 1 }
  else if direction = EAST_WEST ∧ s.ew_traffic_count > 0 then
    let cars_moving : Int := ((rnd s.k % 4 : Nat) : Int)
    let cars_moving : Int :=
      if cars_moving > (s.ew_traffic_count : Int) then (s.ew_traffic_count : Int)
      else cars_moving
    { s with ew_traffic_count := (((s.ew_traffic_count : Int) - cars_moving) % 256).toNat,
             k := s.k + 1 }
  else s

/-- `is_traffic_low(direction)`; the result is a `uint8_t`. -/
def is_traffic_low (direction : Int) (s : State) : Nat :=
  if direction = NORTH_SOUTH then
    (if s.ns_traffic_count ≤ TRAFFIC_LOW then 1 else 0)
  else
    (if s.ew_traffic_count ≤ TRAFFIC_LOW then 1 else 0)

/-- `update_load_indicators()`. -/
def update_load_indicators (s : State) : State :=
  let s :=
    if s.ns_traffic_count > TRAFFIC_LOW then
      writePinA NS_LOAD_LED_PIN GPIO_PinState.GPIO_PIN_SET s
    else
      writePinA NS_LOAD_LED_PIN GPIO_PinState.GPIO_PIN_RESET s
  let s :=
    if s.ew_traffic_count > TRAFFIC_LOW then
      writePinA EW_LOAD_LED_PIN GPIO_PinState.GPIO_PIN_SET s
    else
      writePinA EW_LOAD_LED_PIN GPIO_PinState.GPIO_PIN_RESET s
  if s.ns_traffic_count > TRAFFIC_LOW ∧ s.ew_traffic_count > TRAFFIC_LOW then
    writePinA BOTH_LOAD_LED_PIN GPIO_PinState.GPIO_PIN_SET s
  else
    writePinA BOTH_LOAD_LED_PIN GPIO_PinState.GPIO_PIN_RESET s

/-- The loop `for (uint32_t time = ...; time < limit; time += 500) body` from
the value `time` of the loop variable on.  The first argument bounds the number
of iterations still to run; `limit - time` is enough, since `time` grows at
every iteration (`forLoopFrom_eq_iterate`). -/
def forLoopFrom (limit : Nat) (body : State → State) : Nat → Nat → State → State
  | 0, _, s => s
  | fuel + 1, time, s =>
    if time < limit then forLoopFrom limit body fuel (time + 500) (body s) else s

/-- The loop `for (uint32_t time = 0; time < limit; time += 500) body`. -/
def forLoop (limit : Nat) (body : State → State) (s : State) : State :=
  forLoopFrom limit body limit 0 s

/-- The body of the two green loops and of the two extension loops of `main`
for the green direction `direction`; `line` is the line of its `ms_delay`. -/
def greenTick (rnd : Nat → Nat) (direction : Int) (line : Nat) (s : State) : State :=
  let s := generate_traffic rnd (record Event.call_generate_traffic s)
  let s := update_load_indicators (record Event.call_update_load_indicators s)
  let s := process_traffic_movement rnd direction
    (record (Event.call_process_traffic_movement direction) s)
  ms_delay line 500 s

/-- The body of the two yellow loops of `main`. -/
def yellowTick (rnd : Nat → Nat) (line : Nat) (s : State) : State :=
  let s := generate_traffic rnd (record Event.call_generate_traffic s)
  let s := update_load_indicators (record Event.call_update_load_indicators s)
  ms_delay line 500 s

/-- Lines 96-105 of `main`: north-south green, east-west red, and the base
green loop. -/
def nsGreen (rnd : Nat → Nat) (s : State) : State :=
  let s := set_traffic_light NORTH_SOUTH GREEN s
  let s := set_traffic_light EAST_WEST RED s
  forLoop GREEN_TIME (greenTick rnd NORTH_SOUTH 104) s

/-- Lines 108-115 of `main`: the extension of north-south green. -/
def nsExtension (rnd : Nat → Nat) (s : State) : State :=
  if is_traffic_low NORTH_SOUTH s = 0 then
    forLoop EXTENDED_TIME (greenTick rnd NORTH_SOUTH 113) s
  else s

/-- Lines 118-123 of `main`: north-south yellow. -/
def nsYellow (rnd : Nat → Nat) (s : State) : State :=
  let s := set_traffic_light NORTH_SOUTH YELLOW s
  forLoop YELLOW_TIME (yellowTick rnd 122) s

/-- Lines 126-135 of `main`: north-south red, east-west green, and the base
green loop. -/
def ewGreen (rnd : Nat → Nat) (s : State) : State :=
  let s := set_traffic_light NORTH_SOUTH RED s
  let s := set_traffic_light EAST_WEST GREEN s
  forLoop GREEN_TIME (greenTick rnd EAST_WEST 134) s

/-- Lines 138-145 of `main`: the extension of east-west green. -/
def ewExtension (rnd : Nat → Nat) (s : State) : State :=
  if is_traffic_low EAST_WEST s = 0 then
    forLoop EXTENDED_TIME (greenTick rnd EAST_WEST 143) s
  else s

/-- Lines 148-153 of `main`: east-west yellow. -/
def ewYellow (rnd : Nat → Nat) (s : State) : State :=
  let s := set_traffic_light EAST_WEST YELLOW s
  forLoop YELLOW_TIME (yellowTick rnd 152) s

/-- One iteration of the `while (1)` loop of `main`. -/
def loopBody (rnd : Nat → Nat) (s : State) : State :=
  ewYellow rnd (ewExtension rnd (ewGreen rnd (nsYellow rnd (nsExtension rnd (nsGreen rnd s)))))

/-- The first `n` iterations of the `while (1)` loop of `main`. -/
def mainLoop (rnd : Nat → Nat) (n : Nat) (s : State) : State :=
  (loopBody rnd)^[n] s

/-- The state in which `main` reaches `setup_gpio`: the counters are
zero-initialised, no `rand()` result is consumed, the trace is empty; the
registers hold whatever the hardware, `initClock` and `sysInit` (not part of
the repository) left there. -/
def initState (g : GPIO_TypeDef) (ahb1enr : Nat) : State :=
  { ns_traffic_count := 0, ew_traffic_count := 0, gpioa := g, ahb1enr := ahb1enr,
    k := 0, trace := [] }

/-- The program `main` up to the end of the `n`-th iteration of its loop,
started with registers `g`, `ahb1enr` and with `rnd` as the results of
`rand()` after `srand(getmsTick())`.  The loop never ends, so the states that
`main` reaches are those of `main rnd n` for all `n`, and its trace is the
limit of theirs. -/
def main (rnd : Nat → Nat) (n : Nat) (g : GPIO_TypeDef) (ahb1enr : Nat) : State :=
  mainLoop rnd n (setup_gpio (initState g ahb1enr))

/-! ## Vocabulary of the properties -/

/-- The count of a direction: `ns_traffic_count` for `NORTH_SOUTH`,
`ew_traffic_count` otherwise. -/
def count (direction : Int) (s : State) : Nat :=
  if direction = NORTH_SOUTH then s.ns_traffic_count else s.ew_traffic_count

/-- A call to one of the two functions that change the counts. -/
inductive Op where
  | generate
  | move (direction : Int)
deriving DecidableEq, Repr

/-- The effect of one call. -/
def applyOp (rnd : Nat → Nat) (s : State) : Op → State
  | Op.generate => generate_traffic rnd s
  | Op.move direction => process_traffic_movement rnd direction s

/-- The effect of a finite sequence of calls, first call first. -/
def runOps (rnd : Nat → Nat) (ops : List Op) (s : State) : State :=
  ops.foldl (applyOp rnd) s

/-- The output-pin states that a trace goes through: the output data register
after each `GPIO_WritePin`, in program order. -/
def pinStates (tr : List Event) : List Nat :=
  tr.filterMap fun e =>
    match e with
    | Event.write _ odr => some odr
    | _ => none

/-- Some pin of `mask` is high. -/
def anyHigh (odr mask : Nat) : Prop := odr &&& mask ≠ 0

/-- Every pin of `mask` is high. -/
def allHigh (odr mask : Nat) : Prop := odr &&& mask = mask

/-- Every pin of `mask` is low. -/
def allLow (odr mask : Nat) : Prop := odr &&& mask = 0

instance (odr mask : Nat) : Decidable (anyHigh odr mask) := by
  unfold anyHigh; infer_instance

instance (odr mask : Nat) : Decidable (allHigh odr mask) := by
  unfold allHigh; infer_instance

instance (odr mask : Nat) : Decidable (allLow odr mask) := by
  unfold allLow; infer_instance

/-- The red pins of a direction pair, selected as `set_traffic_light` does. -/
def redPins (direction : Int) : Nat :=
  if direction = NORTH_SOUTH then NS_RED_PINS else EW_RED_PINS

/-- The yellow pins of a direction pair. -/
def yellowPins (direction : Int) : Nat :=
  if direction = NORTH_SOUTH then NS_YELLOW_PINS else EW_YELLOW_PINS

/-- The green pins of a direction pair. -/
def greenPins (direction : Int) : Nat :=
  if direction = NORTH_SOUTH then NS_GREEN_PINS else EW_GREEN_PINS

/-- The pins of one colour of a direction pair; no pin for a value that is
not a colour. -/
def colourPins (direction color : Int) : Nat :=
  if color = RED then redPins direction
  else if color = YELLOW then yellowPins direction
  else if color = GREEN then greenPins direction
  else 0

/-- The six light pins of a direction pair. -/
def pairPins (direction : Int) : Nat :=
  redPins direction ||| yellowPins direction ||| greenPins direction

/-- The pair `direction` shows `color`: both pins of that colour are high and
the four pins of its other two colours are low. -/
def shows (odr : Nat) (direction color : Int) : Prop :=
  (color = RED ∨ color = YELLOW ∨ color = GREEN) ∧
  allHigh odr (colourPins direction color) ∧
  allLow odr (pairPins direction ^^^ colourPins direction color)

instance (odr : Nat) (direction color : Int) : Decidable (shows odr direction color) := by
  unfold shows; infer_instance

/-- The number of colours of a direction pair that have a pin high. -/
def litColours (odr : Nat) (direction : Int) : Nat :=
  (if anyHigh odr (redPins direction) then 1 else 0) +
  (if anyHigh odr (yellowPins direction) then 1 else 0) +
  (if anyHigh odr (greenPins direction) then 1 else 0)

/-- The levels of the twelve light pins PA0-PA11. -/
def lights (s : State) : Nat := s.gpioa.ODR % 4096

/-- The output data register that an event shows, if it shows one. -/
def eventOdr : Event → Option Nat
  | Event.write _ odr => some odr
  | Event.delay _ _ odr _ _ => some odr
  | _ => none

/-- The light pins that an event shows are in one of the listed states. -/
def LightsIn (S : List Nat) (e : Event) : Prop :=
  ∀ odr, eventOdr e = some odr → odr % 4096 ∈ S

/-- Started with the light pins in state `l`, the step `f` only adds events
to the trace, each showing the light pins in a state of `S`, and ends with the
light pins in state `l2`. -/
def Adds (f : State → State) (S : List Nat) (l l2 : Nat) : Prop :=
  ∀ s, lights s = l →
    lights (f s) = l2 ∧ ∃ new, (f s).trace = s.trace ++ new ∧ ∀ e ∈ new, LightsIn S e

/-- The states of the twelve light pins that `main` goes through. -/
def reachableLights : List Nat :=
  [0x000, 0x024, 0x264, 0x240, 0x252, 0x249, 0x009, 0x909, 0x489, 0x480, 0x4A4]

/-- What a `ms_delay` event records: the source line of the call, the time
asked for, the output data register and the two counts. -/
structure Tick where
  line : Nat
  ms : Nat
  odr : Nat
  ns : Nat
  ew : Nat
deriving DecidableEq, Repr

/-- The delay points of a trace, in program order. -/
def ticks (tr : List Event) : List Tick :=
  tr.filterMap fun e =>
    match e with
    | Event.delay line ms odr ns ew => some ⟨line, ms, odr, ns, ew⟩
    | _ => none

/-- The delay point that a loop body with its `ms_delay(500)` at `line` leaves
behind when it ends in state `s`. -/
def snap (line : Nat) (s : State) : Tick :=
  ⟨line, 500, s.gpioa.ODR, s.ns_traffic_count, s.ew_traffic_count⟩

/-- The delay points of `n` runs of the loop body `f` from state `s`. -/
def tickRun (f : State → State) (line : Nat) : Nat → State → List Tick
  | 0, _ => []
  | n + 1, s => snap line (f s) :: tickRun f line n (f s)

/-- The six phases of the specification's controller. -/
inductive Phase where
  | NS_GREEN
  | NS_GREEN_EXTENDED
  | NS_YELLOW
  | EW_GREEN
  | EW_GREEN_EXTENDED
  | EW_YELLOW
deriving DecidableEq, Repr

/-- The phase that each `ms_delay` call of `main` belongs to: the loops at
lines 100-105, 109-114, 119-123, 130-135, 139-144 and 149-153. -/
def phaseOfLine (line : Nat) : Option Phase :=
  if line = 104 then some Phase.NS_GREEN
  else if line = 113 then some Phase.NS_GREEN_EXTENDED
  else if line = 122 then some Phase.NS_YELLOW
  else if line = 134 then some Phase.EW_GREEN
  else if line = 143 then some Phase.EW_GREEN_EXTENDED
  else if line = 152 then some Phase.EW_YELLOW
  else none

namespace Spec

/-- The specification's `is_low(direction)`: the count is at most
`TRAFFIC_LOW (5)`. -/
def is_low (cnt : Nat) : Bool := decide (cnt ≤ 5)

/-- The column "Duration" of the transition table of the specification, in
milliseconds. -/
def duration : Phase → Nat
  | Phase.NS_GREEN => 5000
  | Phase.NS_GREEN_EXTENDED => 15000
  | Phase.NS_YELLOW => 2000
  | Phase.EW_GREEN => 5000
  | Phase.EW_GREEN_EXTENDED => 15000
  | Phase.EW_YELLOW => 2000

/-- The column "Next state / condition" of the transition table of the
specification; `ns` and `ew` are the counts at the instant the duration
expires. -/
def next (p : Phase) (ns ew : Nat) : Phase :=
  match p with
  | Phase.NS_GREEN => if is_low ns then Phase.NS_YELLOW else Phase.NS_GREEN_EXTENDED
  | Phase.NS_GREEN_EXTENDED => Phase.NS_YELLOW
  | Phase.NS_YELLOW => Phase.EW_GREEN
  | Phase.EW_GREEN => if is_low ew then Phase.EW_YELLOW else Phase.EW_GREEN_EXTENDED
  | Phase.EW_GREEN_EXTENDED => Phase.EW_YELLOW
  | Phase.EW_YELLOW => Phase.NS_GREEN

/-- The state of the specification's controller: the phase and the time spent
in it. -/
structure Ctl where
  phase : Phase
  elapsed : Nat
deriving DecidableEq, Repr

/-- The initial state of the specification's controller. -/
def init : Ctl := ⟨Phase.NS_GREEN, 0⟩

/-- One 500 ms step of the specification's controller; `ns` and `ew` are the
counts at the end of the step.  When the duration of the phase has elapsed the
controller moves on as the table says, otherwise it stays. -/
def step (c : Ctl) (ns ew : Nat) : Ctl :=
  if c.elapsed + 500 ≥ duration c.phase then ⟨next c.phase ns ew, 0⟩
  else ⟨c.phase, c.elapsed + 500⟩

/-- The controller after a sequence of steps, given the counts at the end of
each. -/
def run (c : Ctl) : List (Nat × Nat) → Ctl
  | [] => c
  | x :: rest => run (step c x.1 x.2) rest

/-- The phase in which each step of a sequence is spent. -/
def phases (c : Ctl) : List (Nat × Nat) → List Phase
  | [] => []
  | x :: rest => c.phase :: phases (step c x.1 x.2) rest

end Spec

/-- The counts that a delay point records. -/
def Tick.counts (t : Tick) : Nat × Nat := (t.ns, t.ew)

/-- The delay points `T` are what the specification's controller allows when
it starts in state `c`: each is a delay of 500 ms, each lies in the phase in
which the controller spends that step, and the controller ends in state
`c2`. -/
def Conforms (c : Spec.Ctl) (T : List Tick) (c2 : Spec.Ctl) : Prop :=
  T.map (fun t => phaseOfLine t.line) = (Spec.phases c (T.map Tick.counts)).map some ∧
  Spec.run c (T.map Tick.counts) = c2 ∧
  ∀ t ∈ T, t.ms = 500

/-- The phase of the first delay point that `after` has beyond `before`. -/
def phaseAfter (before after : List Tick) : Option Phase :=
  (after.drop before.length).head?.bind fun t => phaseOfLine t.line

/-- What the full-cycle scenario looks at in a delay point: the phase, the
time asked for and the two counts. -/
def Tick.view (t : Tick) : Option Phase × Nat × Nat × Nat :=
  (phaseOfLine t.line, t.ms, t.ns, t.ew)

/-- The three load-indicator pins PA12, PA13, PA14. -/
def INDICATOR_PINS : Nat := NS_LOAD_LED_PIN ||| EW_LOAD_LED_PIN ||| BOTH_LOAD_LED_PIN

/-- The indicator function: the load-indicator pins that are high for a pair
of counts, the pin of a direction when its count exceeds `TRAFFIC_LOW` and the
third pin when both do. -/
def indicators (ns ew : Nat) : Nat :=
  (if ns > TRAFFIC_LOW then NS_LOAD_LED_PIN else 0) |||
  (if ew > TRAFFIC_LOW then EW_LOAD_LED_PIN else 0) |||
  (if ns > TRAFFIC_LOW ∧ ew > TRAFFIC_LOW then BOTH_LOAD_LED_PIN else 0)

/-- The other direction pair. -/
def otherDirection (direction : Int) : Int :=
  if direction = NORTH_SOUTH then EAST_WEST else NORTH_SOUTH

/-- The fifteen pin masks of `main.c`. -/
def PIN_MASKS : List Nat :=
  [N_RED_PIN, N_YELLOW_PIN, N_GREEN_PIN, S_RED_PIN, S_YELLOW_PIN, S_GREEN_PIN,
   E_RED_PIN, E_YELLOW_PIN, E_GREEN_PIN, W_RED_PIN, W_YELLOW_PIN, W_GREEN_PIN,
   NS_LOAD_LED_PIN, EW_LOAD_LED_PIN, BOTH_LOAD_LED_PIN]

/-- The effect of a store to `BSRR` in the words of the claim on
`GPIO_WritePin`: the output or the low half, and not the high half. -/
def BSRR_or_then_clear (v : Nat) (odr : Nat) : Nat :=
  (odr ||| (v &&& 0xFFFF)) ^^^ ((odr ||| (v &&& 0xFFFF)) &&& (v >>> 16))

/-- The twelve traffic-light pins PA0-PA11. -/
def LIGHT_PINS : Nat :=
  NS_RED_PINS ||| NS_YELLOW_PINS ||| NS_GREEN_PINS |||
  EW_RED_PINS ||| EW_YELLOW_PINS ||| EW_GREEN_PINS

/-- The pin state that `update_load_indicators` writes for a condition. -/
def pinStateOf (c : Bool) : GPIO_PinState :=
  if c then GPIO_PinState.GPIO_PIN_SET else GPIO_PinState.GPIO_PIN_RESET

/-- The field of width `w` bits at position `p` of a register: the two mode
bits of pin `p` in `MODER` for `w = 2`, its output-type bit in `OTYPER` for
`w = 1`. -/
def field (w : Nat) (reg p : Nat) : Nat := (reg >>> (w * p)) &&& (2 ^ w - 1)

/-- What `GPIO_Init` does to a register for one pin: the field of width `w` at
bit `sh` is cleared and then set to the low `w` bits of `v`, in 32-bit
arithmetic. -/
def setField (w sh v x : Nat) : Nat :=
  (x &&& (0xFFFFFFFF ^^^ (((2 ^ w - 1) <<< sh) % 2 ^ 32))) |||
    (((v &&& (2 ^ w - 1)) <<< sh) % 2 ^ 32)

/-- The pin at `position` is selected by the init structure. -/
def selected (ini : GPIO_InitTypeDef) (position : Nat) : Prop :=
  ini.Pin &&& ((1 <<< position) % 2 ^ 32) ≠ 0

instance (ini : GPIO_InitTypeDef) (position : Nat) : Decidable (selected ini position) := by
  unfold selected; infer_instance

/-- The calls and the delays of a trace: every event but the pin writes, in
program order. -/
def calls (tr : List Event) : List Event :=
  tr.filter fun e =>
    match e with
    | Event.write _ _ => false
    | _ => true

/-- The direction that is green in a phase, if any. -/
def greenDirection : Phase → Option Int
  | Phase.NS_GREEN => some NORTH_SOUTH
  | Phase.NS_GREEN_EXTENDED => some NORTH_SOUTH
  | Phase.EW_GREEN => some EAST_WEST
  | Phase.EW_GREEN_EXTENDED => some EAST_WEST
  | Phase.NS_YELLOW => none
  | Phase.EW_YELLOW => none

/-- The calls to `process_traffic_movement` that belong to a tick of a phase:
one for the green direction in a green phase, none in a yellow phase. -/
def moveCalls (p : Option Phase) : List Event :=
  match p.bind greenDirection with
  | some d => [Event.call_process_traffic_movement d]
  | none => []

/-- The calls and the delay that make up the tick ending at the delay point
`t`, pin writes left out: `generate_traffic`, `update_load_indicators`, in a
green phase `process_traffic_movement` for the green direction, and the
delay. -/
def tickCalls (t : Tick) : List Event :=
  [Event.call_generate_traffic, Event.call_update_load_indicators] ++
    moveCalls (phaseOfLine t.line) ++ [Event.delay t.line t.ms t.odr t.ns t.ew]

/-- The calls and delays of a trace are those of its ticks, tick after tick. -/
def Ordered (tr : List Event) : Prop :=
  calls tr = (ticks tr).flatMap tickCalls

/-- Started in a state that satisfies `I`, the step `f` ends in a state that
satisfies `J` and only adds delay points that satisfy `Q`. -/
def TicksSat (f : State → State) (Q : Tick → Prop) (I J : State → Prop) : Prop :=
  ∀ s, I s → J (f s) ∧ ∃ T, ticks (f s).trace = ticks s.trace ++ T ∧ ∀ t ∈ T, Q t

/-- The colours that the two pairs show in a phase, north-south first. -/
def phaseColours : Phase → Int × Int
  | Phase.NS_GREEN => (GREEN, RED)
  | Phase.NS_GREEN_EXTENDED => (GREEN, RED)
  | Phase.NS_YELLOW => (YELLOW, RED)
  | Phase.EW_GREEN => (RED, GREEN)
  | Phase.EW_GREEN_EXTENDED => (RED, GREEN)
  | Phase.EW_YELLOW => (RED, YELLOW)

/-- The state of the twelve light pins in which a phase shows its colours. -/
def phaseLights (p : Phase) : Nat :=
  colourPins NORTH_SOUTH (phaseColours p).1 ||| colourPins EAST_WEST (phaseColours p).2

/-- At the delay point `t` the light pins are in the state of the phase of
`t`. -/
def TickLights (t : Tick) : Prop :=
  ∃ p, phaseOfLine t.line = some p ∧ t.odr % 4096 = phaseLights p

/-- The body of one tick of phase `p` whose `ms_delay(500)` is at `line`: with
the discharge of the green direction in a green phase, without a discharge in
a yellow phase. -/
def tickBody (rnd : Nat → Nat) (p : Phase) (line : Nat) (s : State) : State :=
  match greenDirection p with
  | some d => greenTick rnd d line s
  | none => yellowTick rnd line s

/-- The counts with which a tick of phase `p` ends when its `generate_traffic`
has left the state `s1`: those of `s1` after the discharge of the green
direction in a green phase, those of `s1` in a yellow phase. -/
def countsAtDelay (rnd : Nat → Nat) (p : Phase) (s1 : State) : Nat × Nat :=
  match greenDirection p with
  | some d => ((process_traffic_movement rnd d s1).ns_traffic_count,
      (process_traffic_movement rnd d s1).ew_traffic_count)
  | none => (s1.ns_traffic_count, s1.ew_traffic_count)

/-- The delay point `t` ends a tick that started in some state `s`: its pins
12 to 14 are the indicator function of the counts that `generate_traffic` left
in that tick, and its counts are those after the discharge of the tick. -/
def TickIndicators (rnd : Nat → Nat) (t : Tick) : Prop :=
  ∃ (p : Phase) (s : State), phaseOfLine t.line = some p ∧
    t = snap t.line (tickBody rnd p t.line s) ∧
    t.odr &&& INDICATOR_PINS =
      indicators (generate_traffic rnd s).ns_traffic_count
        (generate_traffic rnd s).ew_traffic_count ∧
    (t.ns, t.ew) = countsAtDelay rnd p (generate_traffic rnd s)

/-- A stream of `rand()` results that brings the north-south count to 6 after
the arrivals of the third tick (2 arrivals in each tick, no departure in the
first two) and then removes 3 vehicles. -/
def staleDraws (i : Nat) : Nat :=
  if i = 8 then 3 else if i % 3 = 0 then 2 else 0

/-! ## The traffic model -/

theorem generate_traffic_counts (rnd : Nat → Nat) (s : State)
    (hns : s.ns_traffic_count ≤ 30) (hew : s.ew_traffic_count ≤ 30) :
    (generate_traffic rnd s).ns_traffic_count = min (s.ns_traffic_count + rnd s.k % 3) 30 ∧
    (generate_traffic rnd s).ew_traffic_count =
      min (s.ew_traffic_count + rnd (s.k + 1) % 3) 30 := by
  have h1 : rnd s.k % 3 < 3 := Nat.mod_lt _ (by decide)
  have h2 : rnd (s.k + 1) % 3 < 3 := Nat.mod_lt _ (by decide)
  have e1 : (s.ns_traffic_count + rnd s.k % 3) % 256 = s.ns_traffic_count + rnd s.k % 3 :=
    Nat.mod_eq_of_lt (by omega)
  have e2 : (s.ew_traffic_count + rnd (s.k + 1) % 3) % 256 =
      s.ew_traffic_count + rnd (s.k + 1) % 3 := Nat.mod_eq_of_lt (by omega)
  simp only [generate_traffic, MAX_TRAFFIC, e1, e2]
  constructor
  · split <;> omega
  · split <;> omega

theorem process_traffic_movement_ns (rnd : Nat → Nat) (s : State)
    (h : s.ns_traffic_count < 256) :
    (process_traffic_movement rnd NORTH_SOUTH s).ns_traffic_count =
      s.ns_traffic_count - min (rnd s.k % 4) s.ns_traffic_count ∧
    (process_traffic_movement rnd NORTH_SOUTH s).ew_traffic_count = s.ew_traffic_count := by
  unfold process_traffic_movement
  by_cases h0 : s.ns_traffic_count > 0
  · rw [if_pos ⟨rfl, h0⟩]
    refine ⟨?_, rfl⟩
    show Int.toNat _ = _
    split <;> omega
  · have hz : s.ns_traffic_count = 0 := by omega
    have hne : ¬ (NORTH_SOUTH = EAST_WEST ∧ s.ew_traffic_count > 0) := by
      intro hh; exact absurd hh.1 (by decide)
    rw [if_neg (fun hh => h0 hh.2), if_neg hne]
    simp [hz]

theorem process_traffic_movement_ew (rnd : Nat → Nat) (s : State)
    (h : s.ew_traffic_count < 256) :
    (process_traffic_movement rnd EAST_WEST s).ew_traffic_count =
      s.ew_traffic_count - min (rnd s.k % 4) s.ew_traffic_count ∧
    (process_traffic_movement rnd EAST_WEST s).ns_traffic_count = s.ns_traffic_count := by
  unfold process_traffic_movement
  have hne : ¬ (EAST_WEST = NORTH_SOUTH ∧ s.ns_traffic_count > 0) := by
    intro hh; exact absurd hh.1 (by decide)
  rw [if_neg hne]
  by_cases h0 : s.ew_traffic_count > 0
  · rw [if_pos ⟨rfl, h0⟩]
    refine ⟨?_, rfl⟩
    show Int.toNat _ = _
    split <;> omega
  · have hz : s.ew_traffic_count = 0 := by omega
    rw [if_neg (fun hh => h0 hh.2)]
    simp [hz]

theorem generate_traffic_bounds (rnd : Nat → Nat) (s : State)
    (hns : s.ns_traffic_count ≤ 30) (hew : s.ew_traffic_count ≤ 30) :
    (generate_traffic rnd s).ns_traffic_count ≤ 30 ∧
    (generate_traffic rnd s).ew_traffic_count ≤ 30 := by
  obtain ⟨h1, h2⟩ := generate_traffic_counts rnd s hns hew
  rw [h1, h2]
  exact ⟨Nat.min_le_right _ _, Nat.min_le_right _ _⟩

theorem process_traffic_movement_other (rnd : Nat → Nat) (direction : Int) (s : State)
    (h1 : direction ≠ NORTH_SOUTH) (h2 : direction ≠ EAST_WEST) :
    process_traffic_movement rnd direction s = s := by
  unfold process_traffic_movement
  rw [if_neg (fun hh => h1 hh.1), if_neg (fun hh => h2 hh.1)]

theorem process_traffic_movement_bounds (rnd : Nat → Nat) (direction : Int) (s : State)
    (hns : s.ns_traffic_count ≤ 30) (hew : s.ew_traffic_count ≤ 30) :
    (process_traffic_movement rnd direction s).ns_traffic_count ≤ 30 ∧
    (process_traffic_movement rnd direction s).ew_traffic_count ≤ 30 := by
  by_cases h1 : direction = NORTH_SOUTH
  · subst h1
    obtain ⟨e1, e2⟩ := process_traffic_movement_ns rnd s (by omega)
    rw [e1, e2]; omega
  · by_cases h2 : direction = EAST_WEST
    · subst h2
      obtain ⟨e1, e2⟩ := process_traffic_movement_ew rnd s (by omega)
      rw [e1, e2]; omega
    · rw [process_traffic_movement_other rnd direction s h1 h2]
      exact ⟨hns, hew⟩

theorem runOps_bounds (rnd : Nat → Nat) (ops : List Op) :
    ∀ s : State, s.ns_traffic_count ≤ 30 → s.ew_traffic_count ≤ 30 →
      (runOps rnd ops s).ns_traffic_count ≤ 30 ∧ (runOps rnd ops s).ew_traffic_count ≤ 30 := by
  induction ops with
  | nil => intro s hns hew; exact ⟨hns, hew⟩
  | cons op rest ih =>
    intro s hns hew
    have step : (applyOp rnd s op).ns_traffic_count ≤ 30 ∧
        (applyOp rnd s op).ew_traffic_count ≤ 30 := by
      cases op with
      | generate => exact generate_traffic_bounds rnd s hns hew
      | move direction => exact process_traffic_movement_bounds rnd direction s hns hew
    exact ih (applyOp rnd s op) step.1 step.2

/-! ## Bit masks and the output data register -/

theorem or_mod_two_pow (a b n : Nat) : (a ||| b) % 2 ^ n = a % 2 ^ n ||| b % 2 ^ n := by
  apply Nat.eq_of_testBit_eq; intro i
  simp only [Nat.testBit_mod_two_pow, Nat.testBit_or]
  cases decide (i < n) <;> simp

theorem xor_mod_two_pow (a b n : Nat) : (a ^^^ b) % 2 ^ n = a % 2 ^ n ^^^ b % 2 ^ n := by
  apply Nat.eq_of_testBit_eq; intro i
  simp only [Nat.testBit_mod_two_pow, Nat.testBit_xor]
  cases decide (i < n) <;> simp

theorem and_mod_two_pow (a b n : Nat) : (a &&& b) % 2 ^ n = a % 2 ^ n &&& b % 2 ^ n := by
  apply Nat.eq_of_testBit_eq; intro i
  simp only [Nat.testBit_mod_two_pow, Nat.testBit_and]
  cases decide (i < n) <;> simp

/-- A mask of light pins only sees the light pins. -/
theorem and_light_mask (odr mask : Nat) (h : mask < 4096) :
    odr &&& mask = (odr % 4096) &&& mask := by
  apply Nat.eq_of_testBit_eq; intro i
  have e : (4096 : Nat) = 2 ^ 12 := by norm_num
  rw [e]
  simp only [Nat.testBit_mod_two_pow, Nat.testBit_and]
  by_cases hi : i < 12
  · simp [hi]
  · have hm : mask.testBit i = false := by
      apply Nat.testBit_lt_two_pow
      calc mask < 2 ^ 12 := by omega
        _ ≤ 2 ^ i := Nat.pow_le_pow_right (by decide) (by omega)
    simp [hm]

/-- Setting the pins of a 16-bit mask is a bitwise or. -/
theorem BSRR_store_set (m odr : Nat) (hm : m < 65536) :
    BSRR_store (GPIO_WritePin_value m GPIO_PinState.GPIO_PIN_SET) odr = odr ||| m := by
  have h1 : m >>> 16 = 0 := by
    rw [Nat.shiftRight_eq_div_pow]; exact Nat.div_eq_of_lt hm
  have h2 : m &&& 0xFFFF = m := Nat.and_pow_two_sub_one_of_lt_two_pow (n := 16) hm
  simp only [BSRR_store, GPIO_WritePin_value, h1, h2, Nat.and_zero, Nat.xor_zero]

/-- Resetting the pins of a 16-bit mask clears them and nothing else. -/
theorem BSRR_store_reset (m odr : Nat) (hm : m < 65536) :
    BSRR_store (GPIO_WritePin_value m GPIO_PinState.GPIO_PIN_RESET) odr =
      odr ^^^ (odr &&& m) := by
  have h0 : (m <<< 16) % 2 ^ 32 = m <<< 16 := by
    rw [Nat.shiftLeft_eq]; apply Nat.mod_eq_of_lt; omega
  have h2 : (m <<< 16) &&& 0xFFFF = 0 := by
    have : (m <<< 16) &&& (2 ^ 16 - 1) = 0 := by
      rw [Nat.and_pow_two_sub_one_eq_mod, Nat.shiftLeft_eq]; simp
    exact this
  simp only [BSRR_store, GPIO_WritePin_value, h0, h2, Nat.shiftLeft_shiftRight, Nat.or_zero]

theorem writePinA_trace (m : Nat) (st : GPIO_PinState) (s : State) :
    (writePinA m st s).trace =
      s.trace ++ [Event.write (GPIO_WritePin_value m st) (writePinA m st s).gpioa.ODR] := rfl

theorem writePinA_ODR_set (m : Nat) (s : State) (hm : m < 65536) :
    (writePinA m GPIO_PinState.GPIO_PIN_SET s).gpioa.ODR = s.gpioa.ODR ||| m :=
  BSRR_store_set m s.gpioa.ODR hm

theorem writePinA_ODR_reset (m : Nat) (s : State) (hm : m < 65536) :
    (writePinA m GPIO_PinState.GPIO_PIN_RESET s).gpioa.ODR =
      s.gpioa.ODR ^^^ (s.gpioa.ODR &&& m) :=
  BSRR_store_reset m s.gpioa.ODR hm

theorem lights_writePinA_set (m : Nat) (s : State) (hm : m < 65536) :
    lights (writePinA m GPIO_PinState.GPIO_PIN_SET s) = lights s ||| m % 4096 := by
  unfold lights
  rw [writePinA_ODR_set m s hm]
  exact or_mod_two_pow _ _ 12

theorem lights_writePinA_reset (m : Nat) (s : State) (hm : m < 65536) :
    lights (writePinA m GPIO_PinState.GPIO_PIN_RESET s) =
      lights s ^^^ (lights s &&& m % 4096) := by
  unfold lights
  rw [writePinA_ODR_reset m s hm]
  have h := xor_mod_two_pow s.gpioa.ODR (s.gpioa.ODR &&& m) 12
  rw [and_mod_two_pow] at h
  exact h

/-! ## Steps that only add events -/

theorem Adds_comp {f g : State → State} {S : List Nat} {l l1 l2 : Nat}
    (hf : Adds f S l l1) (hg : Adds g S l1 l2) : Adds (fun s => g (f s)) S l l2 := by
  intro s hs
  obtain ⟨h1, n1, t1, p1⟩ := hf s hs
  obtain ⟨h2, n2, t2, p2⟩ := hg (f s) h1
  refine ⟨h2, n1 ++ n2, ?_, ?_⟩
  · rw [t2, t1, List.append_assoc]
  · intro e he
    rcases List.mem_append.mp he with h | h
    · exact p1 e h
    · exact p2 e h

theorem Adds_mono {f : State → State} {S S2 : List Nat} {l l2 : Nat}
    (h : ∀ x ∈ S, x ∈ S2) (hf : Adds f S l l2) : Adds f S2 l l2 := by
  intro s hs
  obtain ⟨h1, n1, t1, p1⟩ := hf s hs
  exact ⟨h1, n1, t1, fun e he odr ho => h _ (p1 e he odr ho)⟩

theorem Adds_id (S : List Nat) (l : Nat) : Adds (fun s => s) S l l := by
  intro s hs
  exact ⟨hs, [], by simp, by simp⟩

theorem Adds_ite (c : State → Prop) [DecidablePred c] {f g : State → State}
    {S : List Nat} {l l2 : Nat} (hf : Adds f S l l2) (hg : Adds g S l l2) :
    Adds (fun s => if c s then f s else g s) S l l2 := by
  intro s hs
  by_cases h : c s
  · simp only [h, if_true]; exact hf s hs
  · simp only [h, if_false]; exact hg s hs

theorem Adds_record (e : Event) (he : eventOdr e = none) (S : List Nat) (l : Nat) :
    Adds (record e) S l l := by
  intro s hs
  refine ⟨hs, [e], rfl, ?_⟩
  intro x hx odr ho
  rw [List.mem_singleton.mp hx, he] at ho
  exact absurd ho (by simp)

theorem Adds_generate_traffic (rnd : Nat → Nat) (S : List Nat) (l : Nat) :
    Adds (generate_traffic rnd) S l l := by
  intro s hs
  exact ⟨hs, [], by simp [generate_traffic], by simp⟩

theorem process_traffic_movement_frame (rnd : Nat → Nat) (direction : Int) (s : State) :
    (process_traffic_movement rnd direction s).gpioa = s.gpioa ∧
    (process_traffic_movement rnd direction s).ahb1enr = s.ahb1enr ∧
    (process_traffic_movement rnd direction s).trace = s.trace := by
  unfold process_traffic_movement
  split_ifs <;> exact ⟨rfl, rfl, rfl⟩

theorem Adds_process_traffic_movement (rnd : Nat → Nat) (direction : Int) (S : List Nat)
    (l : Nat) : Adds (process_traffic_movement rnd direction) S l l := by
  intro s hs
  obtain ⟨h1, _, h3⟩ := process_traffic_movement_frame rnd direction s
  refine ⟨?_, [], by simp [h3], by simp⟩
  unfold lights; rw [h1]; exact hs

theorem Adds_writePinA_set (m : Nat) (hm : m < 65536) (S : List Nat) (l l2 : Nat)
    (h2 : l ||| m % 4096 = l2) (hS : l2 ∈ S) :
    Adds (writePinA m GPIO_PinState.GPIO_PIN_SET) S l l2 := by
  intro s hs
  have hl : lights (writePinA m GPIO_PinState.GPIO_PIN_SET s) = l2 := by
    rw [lights_writePinA_set m s hm, hs, h2]
  refine ⟨hl, _, writePinA_trace _ _ s, ?_⟩
  intro e he odr ho
  rw [List.mem_singleton.mp he] at ho
  simp only [eventOdr, Option.some.injEq] at ho
  rw [← ho]
  exact (show lights (writePinA m GPIO_PinState.GPIO_PIN_SET s) ∈ S from hl ▸ hS)

theorem Adds_writePinA_reset (m : Nat) (hm : m < 65536) (S : List Nat) (l l2 : Nat)
    (h2 : l ^^^ (l &&& m % 4096) = l2) (hS : l2 ∈ S) :
    Adds (writePinA m GPIO_PinState.GPIO_PIN_RESET) S l l2 := by
  intro s hs
  have hl : lights (writePinA m GPIO_PinState.GPIO_PIN_RESET s) = l2 := by
    rw [lights_writePinA_reset m s hm, hs, h2]
  refine ⟨hl, _, writePinA_trace _ _ s, ?_⟩
  intro e he odr ho
  rw [List.mem_singleton.mp he] at ho
  simp only [eventOdr, Option.some.injEq] at ho
  rw [← ho]
  exact (show lights (writePinA m GPIO_PinState.GPIO_PIN_RESET s) ∈ S from hl ▸ hS)

theorem Adds_ms_delay (line ms : Nat) (S : List Nat) (l : Nat) (hS : l ∈ S) :
    Adds (ms_delay line ms) S l l := by
  intro s hs
  refine ⟨hs, _, rfl, ?_⟩
  intro e he odr ho
  rw [List.mem_singleton.mp he] at ho
  simp only [eventOdr, Option.some.injEq] at ho
  rw [← ho]
  exact (show s.gpioa.ODR % 4096 = l from hs) ▸ hS

/-- A write to a load-indicator pin leaves the light pins as they are. -/
theorem Adds_indicator (m : Nat) (hm : m < 65536) (h0 : m % 4096 = 0) (st : GPIO_PinState)
    (S : List Nat) (l : Nat) (hS : l ∈ S) : Adds (writePinA m st) S l l := by
  cases st with
  | GPIO_PIN_RESET =>
    exact Adds_writePinA_reset m hm S l l (by rw [h0, Nat.and_zero, Nat.xor_zero]) hS
  | GPIO_PIN_SET =>
    exact Adds_writePinA_set m hm S l l (by rw [h0, Nat.or_zero]) hS

theorem Adds_update_load_indicators (S : List Nat) (l : Nat) (hS : l ∈ S) :
    Adds update_load_indicators S l l := by
  have h := Adds_comp
    (Adds_comp
      (Adds_ite (fun s => s.ns_traffic_count > TRAFFIC_LOW)
        (Adds_indicator NS_LOAD_LED_PIN (by decide) (by decide)
          GPIO_PinState.GPIO_PIN_SET S l hS)
        (Adds_indicator NS_LOAD_LED_PIN (by decide) (by decide)
          GPIO_PinState.GPIO_PIN_RESET S l hS))
      (Adds_ite (fun s => s.ew_traffic_count > TRAFFIC_LOW)
        (Adds_indicator EW_LOAD_LED_PIN (by decide) (by decide)
          GPIO_PinState.GPIO_PIN_SET S l hS)
        (Adds_indicator EW_LOAD_LED_PIN (by decide) (by decide)
          GPIO_PinState.GPIO_PIN_RESET S l hS)))
    (Adds_ite (fun s => s.ns_traffic_count > TRAFFIC_LOW ∧ s.ew_traffic_count > TRAFFIC_LOW)
      (Adds_indicator BOTH_LOAD_LED_PIN (by decide) (by decide)
        GPIO_PinState.GPIO_PIN_SET S l hS)
      (Adds_indicator BOTH_LOAD_LED_PIN (by decide) (by decide)
        GPIO_PinState.GPIO_PIN_RESET S l hS))
  exact h

theorem Adds_iterate {f : State → State} {S : List Nat} {l : Nat} (hf : Adds f S l l) :
    ∀ n : Nat, Adds (f^[n]) S l l := by
  intro n
  induction n with
  | zero => exact Adds_id S l
  | succ n ih =>
    intro s hs
    rw [Function.iterate_succ_apply]
    exact Adds_comp hf ih s hs

/-- The timed loops of `main` run their body a fixed number of times, whatever
the bound on the iterations, once it is at least `limit - time`. -/
theorem forLoopFrom_eq_iterate (limit : Nat) (body : State → State) :
    ∀ (fuel time : Nat) (s : State), limit - time ≤ fuel →
      forLoopFrom limit body fuel time s = body^[(limit - time + 499) / 500] s := by
  intro fuel
  induction fuel with
  | zero =>
    intro time s h
    have e : (limit - time + 499) / 500 = 0 := by omega
    rw [e]; rfl
  | succ fuel ih =>
    intro time s h
    by_cases hlt : time < limit
    · have e : (limit - time + 499) / 500 = (limit - (time + 500) + 499) / 500 + 1 := by omega
      rw [forLoopFrom, if_pos hlt, e, Function.iterate_succ_apply]
      exact ih (time + 500) (body s) (by omega)
    · have e : (limit - time + 499) / 500 = 0 := by omega
      rw [forLoopFrom, if_neg hlt, e]; rfl

theorem forLoop_eq_iterate (limit : Nat) (body : State → State) (s : State) :
    forLoop limit body s = body^[(limit + 499) / 500] s :=
  forLoopFrom_eq_iterate limit body limit 0 s (by omega)

theorem forLoop_GREEN_TIME (body : State → State) (s : State) :
    forLoop GREEN_TIME body s = body^[10] s :=
  forLoop_eq_iterate GREEN_TIME body s

theorem forLoop_EXTENDED_TIME (body : State → State) (s : State) :
    forLoop EXTENDED_TIME body s = body^[30] s :=
  forLoop_eq_iterate EXTENDED_TIME body s

theorem forLoop_YELLOW_TIME (body : State → State) (s : State) :
    forLoop YELLOW_TIME body s = body^[4] s :=
  forLoop_eq_iterate YELLOW_TIME body s

theorem Adds_forLoop {body : State → State} {S : List Nat} {l : Nat} (hf : Adds body S l l)
    (limit : Nat) : Adds (forLoop limit body) S l l := by
  intro s hs
  rw [forLoop_eq_iterate limit body s]
  exact Adds_iterate hf _ s hs

theorem Adds_greenTick (rnd : Nat → Nat) (direction : Int) (line : Nat) (S : List Nat)
    (l : Nat) (hS : l ∈ S) : Adds (greenTick rnd direction line) S l l := by
  have h := Adds_comp (Adds_comp (Adds_comp (Adds_comp (Adds_comp (Adds_comp
    (Adds_record Event.call_generate_traffic rfl S l)
    (Adds_generate_traffic rnd S l))
    (Adds_record Event.call_update_load_indicators rfl S l))
    (Adds_update_load_indicators S l hS))
    (Adds_record (Event.call_process_traffic_movement direction) rfl S l))
    (Adds_process_traffic_movement rnd direction S l))
    (Adds_ms_delay line 500 S l hS)
  exact h

theorem Adds_yellowTick (rnd : Nat → Nat) (line : Nat) (S : List Nat)
    (l : Nat) (hS : l ∈ S) : Adds (yellowTick rnd line) S l l := by
  have h := Adds_comp (Adds_comp (Adds_comp (Adds_comp
    (Adds_record Event.call_generate_traffic rfl S l)
    (Adds_generate_traffic rnd S l))
    (Adds_record Event.call_update_load_indicators rfl S l))
    (Adds_update_load_indicators S l hS))
    (Adds_ms_delay line 500 S l hS)
  exact h

/-! ## The light pins along `main` -/

theorem set_traffic_light_eq (direction color : Int)
    (hc : color = RED ∨ color = YELLOW ∨ color = GREEN) :
    set_traffic_light direction color =
      fun s => writePinA (colourPins direction color) GPIO_PinState.GPIO_PIN_SET
        (writePinA (pairPins direction) GPIO_PinState.GPIO_PIN_RESET s) := by
  funext s
  by_cases hd : direction = NORTH_SOUTH <;> rcases hc with rfl | rfl | rfl <;>
    simp [set_traffic_light, colourPins, pairPins, redPins, yellowPins, greenPins, hd,
      RED, YELLOW, GREEN]

theorem pairPins_lt (direction : Int) : pairPins direction < 65536 := by
  unfold pairPins redPins yellowPins greenPins
  split <;> decide

theorem colourPins_lt (direction color : Int) : colourPins direction color < 65536 := by
  unfold colourPins redPins yellowPins greenPins
  split_ifs <;> decide

theorem Adds_set_traffic_light (direction color : Int) (S : List Nat) (l l1 l2 : Nat)
    (hc : color = RED ∨ color = YELLOW ∨ color = GREEN)
    (h1 : l ^^^ (l &&& pairPins direction % 4096) = l1)
    (h2 : l1 ||| colourPins direction color % 4096 = l2)
    (hS1 : l1 ∈ S) (hS2 : l2 ∈ S) :
    Adds (set_traffic_light direction color) S l l2 := by
  rw [set_traffic_light_eq direction color hc]
  exact Adds_comp
    (Adds_writePinA_reset (pairPins direction) (pairPins_lt direction) S l l1 h1 hS1)
    (Adds_writePinA_set (colourPins direction color) (colourPins_lt direction color)
      S l1 l2 h2 hS2)

theorem Adds_nsGreen (rnd : Nat → Nat) (l : Nat) (hl : l = 0x000 ∨ l = 0x489) :
    Adds (nsGreen rnd) reachableLights l 0x264 := by
  rcases hl with rfl | rfl
  · have h := Adds_comp (Adds_comp
      (Adds_set_traffic_light NORTH_SOUTH GREEN reachableLights 0x000 0x000 0x024
        (by decide) (by decide) (by decide) (by decide) (by decide))
      (Adds_set_traffic_light EAST_WEST RED reachableLights 0x024 0x024 0x264
        (by decide) (by decide) (by decide) (by decide) (by decide)))
      (Adds_forLoop (Adds_greenTick rnd NORTH_SOUTH 104 reachableLights 0x264 (by decide))
        GREEN_TIME)
    exact h
  · have h := Adds_comp (Adds_comp
      (Adds_set_traffic_light NORTH_SOUTH GREEN reachableLights 0x489 0x480 0x4A4
        (by decide) (by decide) (by decide) (by decide) (by decide))
      (Adds_set_traffic_light EAST_WEST RED reachableLights 0x4A4 0x024 0x264
        (by decide) (by decide) (by decide) (by decide) (by decide)))
      (Adds_forLoop (Adds_greenTick rnd NORTH_SOUTH 104 reachableLights 0x264 (by decide))
        GREEN_TIME)
    exact h

theorem Adds_nsExtension (rnd : Nat → Nat) :
    Adds (nsExtension rnd) reachableLights 0x264 0x264 := by
  have h := Adds_ite (fun s => is_traffic_low NORTH_SOUTH s = 0)
    (Adds_forLoop (Adds_greenTick rnd NORTH_SOUTH 113 reachableLights 0x264 (by decide))
      EXTENDED_TIME)
    (Adds_id reachableLights 0x264)
  exact h

theorem Adds_nsYellow (rnd : Nat → Nat) :
    Adds (nsYellow rnd) reachableLights 0x264 0x252 := by
  have h := Adds_comp
    (Adds_set_traffic_light NORTH_SOUTH YELLOW reachableLights 0x264 0x240 0x252
      (by decide) (by decide) (by decide) (by decide) (by decide))
    (Adds_forLoop (Adds_yellowTick rnd 122 reachableLights 0x252 (by decide)) YELLOW_TIME)
  exact h

theorem Adds_ewGreen (rnd : Nat → Nat) :
    Adds (ewGreen rnd) reachableLights 0x252 0x909 := by
  have h := Adds_comp (Adds_comp
    (Adds_set_traffic_light NORTH_SOUTH RED reachableLights 0x252 0x240 0x249
      (by decide) (by decide) (by decide) (by decide) (by decide))
    (Adds_set_traffic_light EAST_WEST GREEN reachableLights 0x249 0x009 0x909
      (by decide) (by decide) (by decide) (by decide) (by decide)))
    (Adds_forLoop (Adds_greenTick rnd EAST_WEST 134 reachableLights 0x909 (by decide))
      GREEN_TIME)
  exact h

theorem Adds_ewExtension (rnd : Nat → Nat) :
    Adds (ewExtension rnd) reachableLights 0x909 0x909 := by
  have h := Adds_ite (fun s => is_traffic_low EAST_WEST s = 0)
    (Adds_forLoop (Adds_greenTick rnd EAST_WEST 143 reachableLights 0x909 (by decide))
      EXTENDED_TIME)
    (Adds_id reachableLights 0x909)
  exact h

theorem Adds_ewYellow (rnd : Nat → Nat) :
    Adds (ewYellow rnd) reachableLights 0x909 0x489 := by
  have h := Adds_comp
    (Adds_set_traffic_light EAST_WEST YELLOW reachableLights 0x909 0x009 0x489
      (by decide) (by decide) (by decide) (by decide) (by decide))
    (Adds_forLoop (Adds_yellowTick rnd 152 reachableLights 0x489 (by decide)) YELLOW_TIME)
  exact h

theorem Adds_loopBody (rnd : Nat → Nat) (l : Nat) (hl : l = 0x000 ∨ l = 0x489) :
    Adds (loopBody rnd) reachableLights l 0x489 := by
  have h := Adds_comp (Adds_comp (Adds_comp (Adds_comp (Adds_comp
    (Adds_nsGreen rnd l hl) (Adds_nsExtension rnd)) (Adds_nsYellow rnd))
    (Adds_ewGreen rnd)) (Adds_ewExtension rnd)) (Adds_ewYellow rnd)
  exact h

theorem GPIO_Init_position_ODR (ini : GPIO_InitTypeDef) (g : GPIO_TypeDef) (position : Nat) :
    (GPIO_Init_position ini g position).ODR = g.ODR := by
  simp only [GPIO_Init_position]
  split_ifs <;> rfl

theorem foldl_GPIO_Init_position_ODR (ini : GPIO_InitTypeDef) (ps : List Nat) :
    ∀ g : GPIO_TypeDef, (ps.foldl (GPIO_Init_position ini) g).ODR = g.ODR := by
  induction ps with
  | nil => intro g; rfl
  | cons p ps ih =>
    intro g
    rw [List.foldl_cons, ih, GPIO_Init_position_ODR]

/-- `GPIO_Init` does not touch the output data register. -/
theorem GPIO_Init_ODR (port : Port) (ini : GPIO_InitTypeDef) (ahb1enr : Nat)
    (g : GPIO_TypeDef) : (GPIO_Init port ini ahb1enr g).2.ODR = g.ODR :=
  foldl_GPIO_Init_position_ODR ini _ g

/-- After `setup_gpio` the twelve light pins are low, whatever they were, and
the trace has one more event, the write of `clear_all_lights`. -/
theorem setup_gpio_lights (s : State) :
    lights (setup_gpio s) = 0 ∧
    (setup_gpio s).trace = s.trace ++
      [Event.write (GPIO_WritePin_value ALL_PINS GPIO_PinState.GPIO_PIN_RESET)
        (setup_gpio s).gpioa.ODR] := by
  constructor
  · unfold setup_gpio clear_all_lights
    rw [lights_writePinA_reset ALL_PINS _ (by decide)]
    have hlt : ∀ t : State, lights t < 2 ^ 12 := fun t => Nat.mod_lt _ (by decide)
    have e : ALL_PINS % 4096 = 2 ^ 12 - 1 := by decide
    rw [e, Nat.and_pow_two_sub_one_of_lt_two_pow (hlt _), Nat.xor_self]
  · unfold setup_gpio clear_all_lights
    exact writePinA_trace _ _ _

theorem mainLoop_succ (rnd : Nat → Nat) (n : Nat) (s : State) :
    mainLoop rnd (n + 1) s = mainLoop rnd n (loopBody rnd s) :=
  Function.iterate_succ_apply (loopBody rnd) n s

theorem mainLoop_lights (rnd : Nat → Nat) :
    ∀ (n : Nat) (s : State), (lights s = 0x000 ∨ lights s = 0x489) →
      (∀ e ∈ s.trace, LightsIn reachableLights e) →
      (lights (mainLoop rnd n s) = 0x000 ∨ lights (mainLoop rnd n s) = 0x489) ∧
      (∀ e ∈ (mainLoop rnd n s).trace, LightsIn reachableLights e) := by
  intro n
  induction n with
  | zero => intro s h1 h2; exact ⟨h1, h2⟩
  | succ n ih =>
    intro s h1 h2
    obtain ⟨hl, new, ht, hp⟩ := Adds_loopBody rnd (lights s) h1 s rfl
    rw [mainLoop_succ]
    refine ih (loopBody rnd s) (Or.inr hl) ?_
    intro e he
    rw [ht] at he
    rcases List.mem_append.mp he with h | h
    · exact h2 e h
    · exact hp e h

/-- Every event in the trace of `main` shows the light pins in one of the
eleven states of `reachableLights`. -/
theorem main_lights (rnd : Nat → Nat) (n : Nat) (g : GPIO_TypeDef) (ahb1enr : Nat) :
    ∀ e ∈ (main rnd n g ahb1enr).trace, LightsIn reachableLights e := by
  obtain ⟨h0, ht⟩ := setup_gpio_lights (initState g ahb1enr)
  refine (mainLoop_lights rnd n _ (Or.inl h0) ?_).2
  intro e he
  rw [ht] at he
  simp only [initState, List.nil_append, List.mem_singleton] at he
  intro odr ho
  rw [he] at ho
  simp only [eventOdr, Option.some.injEq] at ho
  rw [← ho]
  show lights (setup_gpio (initState g ahb1enr)) ∈ reachableLights
  rw [h0]
  decide

theorem mem_pinStates {tr : List Event} {odr : Nat} (h : odr ∈ pinStates tr) :
    ∃ e ∈ tr, eventOdr e = some odr := by
  unfold pinStates at h
  obtain ⟨e, he, hm⟩ := List.mem_filterMap.mp h
  refine ⟨e, he, ?_⟩
  cases e <;> simp_all [eventOdr]

/-- Every output-pin state of `main` has its light pins in one of the eleven
states of `reachableLights`. -/
theorem main_pinStates (rnd : Nat → Nat) (n : Nat) (g : GPIO_TypeDef) (ahb1enr : Nat) :
    ∀ odr ∈ pinStates (main rnd n g ahb1enr).trace, odr % 4096 ∈ reachableLights := by
  intro odr h
  obtain ⟨e, he, ho⟩ := mem_pinStates h
  exact main_lights rnd n g ahb1enr e he odr ho

/-! ## Delay points -/

theorem ticks_append (a b : List Event) : ticks (a ++ b) = ticks a ++ ticks b := by
  unfold ticks; exact List.filterMap_append _ _ _

theorem ticks_writePinA (m : Nat) (st : GPIO_PinState) (s : State) :
    ticks (writePinA m st s).trace = ticks s.trace := by
  rw [writePinA_trace, ticks_append]
  simp [ticks]

theorem ticks_record_call (e : Event) (he : eventOdr e = none) (s : State) :
    ticks (record e s).trace = ticks s.trace := by
  show ticks (s.trace ++ [e]) = _
  rw [ticks_append]
  cases e <;> simp_all [ticks, eventOdr]

theorem ticks_ms_delay (line ms : Nat) (s : State) :
    ticks (ms_delay line ms s).trace =
      ticks s.trace ++ [⟨line, ms, s.gpioa.ODR, s.ns_traffic_count, s.ew_traffic_count⟩] := by
  show ticks (s.trace ++ [_]) = _
  rw [ticks_append]
  simp [ticks]

theorem writePinA_counts (m : Nat) (st : GPIO_PinState) (s : State) :
    (writePinA m st s).ns_traffic_count = s.ns_traffic_count ∧
    (writePinA m st s).ew_traffic_count = s.ew_traffic_count ∧
    (writePinA m st s).k = s.k := ⟨rfl, rfl, rfl⟩

theorem update_load_indicators_counts (s : State) :
    (update_load_indicators s).ns_traffic_count = s.ns_traffic_count ∧
    (update_load_indicators s).ew_traffic_count = s.ew_traffic_count ∧
    (update_load_indicators s).k = s.k := by
  dsimp only [update_load_indicators]
  split_ifs <;> exact ⟨rfl, rfl, rfl⟩

theorem ticks_update_load_indicators (s : State) :
    ticks (update_load_indicators s).trace = ticks s.trace := by
  dsimp only [update_load_indicators]
  split_ifs <;> simp only [ticks_writePinA]

theorem set_traffic_light_counts (direction color : Int) (s : State) :
    (set_traffic_light direction color s).ns_traffic_count = s.ns_traffic_count ∧
    (set_traffic_light direction color s).ew_traffic_count = s.ew_traffic_count ∧
    (set_traffic_light direction color s).k = s.k := by
  dsimp only [set_traffic_light]
  split_ifs <;> exact ⟨rfl, rfl, rfl⟩

theorem ticks_set_traffic_light (direction color : Int) (s : State) :
    ticks (set_traffic_light direction color s).trace = ticks s.trace := by
  dsimp only [set_traffic_light]
  split_ifs <;> simp only [ticks_writePinA]

theorem generate_traffic_trace (rnd : Nat → Nat) (s : State) :
    (generate_traffic rnd s).trace = s.trace := rfl

theorem ticks_greenTick (rnd : Nat → Nat) (direction : Int) (line : Nat) (s : State) :
    ticks (greenTick rnd direction line s).trace =
      ticks s.trace ++ [snap line (greenTick rnd direction line s)] := by
  unfold greenTick
  simp only [ticks_ms_delay, (process_traffic_movement_frame _ _ _).2.2, ticks_record_call,
    ticks_update_load_indicators, eventOdr, generate_traffic_trace]
  rfl

theorem ticks_yellowTick (rnd : Nat → Nat) (line : Nat) (s : State) :
    ticks (yellowTick rnd line s).trace =
      ticks s.trace ++ [snap line (yellowTick rnd line s)] := by
  unfold yellowTick
  simp only [ticks_ms_delay, ticks_record_call, ticks_update_load_indicators, eventOdr,
    generate_traffic_trace]
  rfl

theorem ticks_iterate (f : State → State) (line : Nat)
    (hf : ∀ s, ticks (f s).trace = ticks s.trace ++ [snap line (f s)]) :
    ∀ (n : Nat) (s : State), ticks (f^[n] s).trace = ticks s.trace ++ tickRun f line n s := by
  intro n
  induction n with
  | zero => intro s; simp [tickRun]
  | succ n ih =>
    intro s
    rw [Function.iterate_succ_apply, ih (f s), hf s, List.append_assoc]
    rfl

theorem tickRun_length (f : State → State) (line : Nat) :
    ∀ (n : Nat) (s : State), (tickRun f line n s).length = n := by
  intro n
  induction n with
  | zero => intro s; rfl
  | succ n ih => intro s; simp [tickRun, ih]

theorem tickRun_snoc (f : State → State) (line : Nat) :
    ∀ (n : Nat) (s : State),
      tickRun f line (n + 1) s = tickRun f line n s ++ [snap line (f^[n + 1] s)] := by
  intro n
  induction n with
  | zero => intro s; rfl
  | succ n ih =>
    intro s
    have e : tickRun f line (n + 1 + 1) s = snap line (f s) :: tickRun f line (n + 1) (f s) :=
      rfl
    rw [e, ih (f s)]
    rfl

theorem tickRun_mem (f : State → State) (line : Nat) :
    ∀ (n : Nat) (s : State), ∀ t ∈ tickRun f line n s, t.line = line ∧ t.ms = 500 := by
  intro n
  induction n with
  | zero => intro s t ht; simp [tickRun] at ht
  | succ n ih =>
    intro s t ht
    rcases List.mem_cons.mp ht with h | h
    · rw [h]; exact ⟨rfl, rfl⟩
    · exact ih (f s) t h

/-! ## The specification's controller -/

theorem Spec.run_append (L1 L2 : List (Nat × Nat)) :
    ∀ c : Spec.Ctl, Spec.run c (L1 ++ L2) = Spec.run (Spec.run c L1) L2 := by
  induction L1 with
  | nil => intro c; rfl
  | cons x rest ih => intro c; exact ih _

theorem Spec.phases_append (L1 L2 : List (Nat × Nat)) :
    ∀ c : Spec.Ctl,
      Spec.phases c (L1 ++ L2) = Spec.phases c L1 ++ Spec.phases (Spec.run c L1) L2 := by
  induction L1 with
  | nil => intro c; rfl
  | cons x rest ih =>
    intro c
    show c.phase :: Spec.phases _ (rest ++ L2) = c.phase :: _
    rw [ih]; rfl

/-- While the duration of the phase has not elapsed the controller stays in
the phase. -/
theorem Spec.run_stay (L : List (Nat × Nat)) :
    ∀ c : Spec.Ctl, c.elapsed + 500 * L.length < Spec.duration c.phase →
      Spec.run c L = ⟨c.phase, c.elapsed + 500 * L.length⟩ ∧
      Spec.phases c L = List.replicate L.length c.phase := by
  induction L with
  | nil => intro c _; exact ⟨rfl, rfl⟩
  | cons x rest ih =>
    intro c h
    have hl : (x :: rest).length = rest.length + 1 := rfl
    rw [hl] at h ⊢
    have hs : Spec.step c x.1 x.2 = ⟨c.phase, c.elapsed + 500⟩ := by
      unfold Spec.step
      rw [if_neg (by omega)]
    obtain ⟨h1, h2⟩ := ih ⟨c.phase, c.elapsed + 500⟩ (by simp only; omega)
    constructor
    · show Spec.run (Spec.step c x.1 x.2) rest = _
      rw [hs, h1]
      simp only [Spec.Ctl.mk.injEq, true_and]; omega
    · show c.phase :: Spec.phases (Spec.step c x.1 x.2) rest = _
      rw [hs, h2]; rfl

/-- A whole phase: after as many steps as its duration holds the controller
takes the transition of the table, decided by the counts at the last step. -/
theorem Spec.run_phase (p : Phase) (L : List (Nat × Nat)) (x : Nat × Nat)
    (h : 500 * (L.length + 1) = Spec.duration p) :
    Spec.run ⟨p, 0⟩ (L ++ [x]) = ⟨Spec.next p x.1 x.2, 0⟩ ∧
    Spec.phases ⟨p, 0⟩ (L ++ [x]) = List.replicate (L.length + 1) p := by
  obtain ⟨h1, h2⟩ := Spec.run_stay L ⟨p, 0⟩ (by simp only; omega)
  have hs : Spec.step ⟨p, 0 + 500 * L.length⟩ x.1 x.2 = ⟨Spec.next p x.1 x.2, 0⟩ := by
    unfold Spec.step
    rw [if_pos (by simp only; omega)]
  constructor
  · rw [Spec.run_append, h1]
    show Spec.run (Spec.step _ x.1 x.2) [] = _
    rw [hs]; rfl
  · rw [Spec.phases_append, h1, h2]
    show _ ++ [p] = _
    rw [List.replicate_succ']

theorem Conforms_nil (c : Spec.Ctl) : Conforms c [] c :=
  ⟨rfl, rfl, fun _ h => absurd h (List.not_mem_nil _)⟩

theorem Conforms_append {c c1 c2 : Spec.Ctl} {T1 T2 : List Tick}
    (h1 : Conforms c T1 c1) (h2 : Conforms c1 T2 c2) : Conforms c (T1 ++ T2) c2 := by
  obtain ⟨a1, b1, d1⟩ := h1
  obtain ⟨a2, b2, d2⟩ := h2
  refine ⟨?_, ?_, ?_⟩
  · rw [List.map_append, List.map_append, Spec.phases_append, List.map_append, a1, b1, a2]
  · rw [List.map_append, Spec.run_append, b1, b2]
  · intro t ht
    rcases List.mem_append.mp ht with h | h
    · exact d1 t h
    · exact d2 t h

/-- The delay points of a loop of `main` that runs its body as many times as
the duration of the phase holds steps. -/
theorem Conforms_tickRun (f : State → State) (line : Nat) (p : Phase)
    (hp : phaseOfLine line = some p) (n : Nat) (hn : 500 * (n + 1) = Spec.duration p)
    (s : State) :
    Conforms ⟨p, 0⟩ (tickRun f line (n + 1) s)
      ⟨Spec.next p (f^[n + 1] s).ns_traffic_count (f^[n + 1] s).ew_traffic_count, 0⟩ := by
  have hlen := tickRun_length f line n s
  have hm := tickRun_mem f line (n + 1) s
  have e : (tickRun f line (n + 1) s).map Tick.counts =
      (tickRun f line n s).map Tick.counts ++
        [((f^[n + 1] s).ns_traffic_count, (f^[n + 1] s).ew_traffic_count)] := by
    rw [tickRun_snoc, List.map_append]; rfl
  obtain ⟨h1, h2⟩ := Spec.run_phase p ((tickRun f line n s).map Tick.counts)
    ((f^[n + 1] s).ns_traffic_count, (f^[n + 1] s).ew_traffic_count)
    (by rw [List.length_map, hlen]; exact hn)
  refine ⟨?_, ?_, fun t ht => (hm t ht).2⟩
  · rw [e, h2, List.length_map, hlen, List.map_replicate]
    have : (tickRun f line (n + 1) s).map (fun t => phaseOfLine t.line) =
        (tickRun f line (n + 1) s).map (fun _ => some p) := by
      apply List.map_congr_left
      intro t ht
      rw [(hm t ht).1, hp]
    rw [this, List.map_const', tickRun_length]
  · rw [e, h1]

/-! ## The phases along `main` -/

/-- A timed loop of `main` whose length is the duration of the phase `p`. -/
theorem Conforms_forLoop (f : State → State) (line : Nat) (p : Phase)
    (hp : phaseOfLine line = some p) (limit n : Nat) (hlim : (limit + 499) / 500 = n + 1)
    (hn : 500 * (n + 1) = Spec.duration p)
    (hf : ∀ s, ticks (f s).trace = ticks s.trace ++ [snap line (f s)]) (s : State) :
    ∃ T, ticks (forLoop limit f s).trace = ticks s.trace ++ T ∧ T.length = n + 1 ∧
      T.getLast? = some (snap line (forLoop limit f s)) ∧
      (∀ t ∈ T, t.line = line) ∧
      Conforms ⟨p, 0⟩ T
        ⟨Spec.next p (forLoop limit f s).ns_traffic_count
          (forLoop limit f s).ew_traffic_count, 0⟩ := by
  rw [forLoop_eq_iterate, hlim]
  refine ⟨tickRun f line (n + 1) s, ticks_iterate f line hf (n + 1) s,
    tickRun_length f line (n + 1) s, ?_, fun t ht => (tickRun_mem f line (n + 1) s t ht).1,
    Conforms_tickRun f line p hp n hn s⟩
  rw [tickRun_snoc, List.getLast?_append]
  rfl

theorem is_traffic_low_ns (s : State) :
    is_traffic_low NORTH_SOUTH s = 0 ↔ 5 < s.ns_traffic_count := by
  unfold is_traffic_low TRAFFIC_LOW
  rw [if_pos rfl]
  split <;> omega

theorem is_traffic_low_ew (s : State) :
    is_traffic_low EAST_WEST s = 0 ↔ 5 < s.ew_traffic_count := by
  unfold is_traffic_low TRAFFIC_LOW
  rw [if_neg (by decide)]
  split <;> omega

theorem Conforms_nsGreen (rnd : Nat → Nat) (s : State) :
    ∃ T, ticks (nsGreen rnd s).trace = ticks s.trace ++ T ∧ T.length = 10 ∧
      T.getLast? = some (snap 104 (nsGreen rnd s)) ∧ (∀ t ∈ T, t.line = 104) ∧
      Conforms ⟨Phase.NS_GREEN, 0⟩ T
        ⟨Spec.next Phase.NS_GREEN (nsGreen rnd s).ns_traffic_count
          (nsGreen rnd s).ew_traffic_count, 0⟩ := by
  have h := Conforms_forLoop (greenTick rnd NORTH_SOUTH 104) 104 Phase.NS_GREEN rfl
    GREEN_TIME 9 (by decide) (by decide) (ticks_greenTick rnd NORTH_SOUTH 104)
    (set_traffic_light EAST_WEST RED (set_traffic_light NORTH_SOUTH GREEN s))
  rw [ticks_set_traffic_light, ticks_set_traffic_light] at h
  exact h

theorem Conforms_ewGreen (rnd : Nat → Nat) (s : State) :
    ∃ T, ticks (ewGreen rnd s).trace = ticks s.trace ++ T ∧ T.length = 10 ∧
      T.getLast? = some (snap 134 (ewGreen rnd s)) ∧ (∀ t ∈ T, t.line = 134) ∧
      Conforms ⟨Phase.EW_GREEN, 0⟩ T
        ⟨Spec.next Phase.EW_GREEN (ewGreen rnd s).ns_traffic_count
          (ewGreen rnd s).ew_traffic_count, 0⟩ := by
  have h := Conforms_forLoop (greenTick rnd EAST_WEST 134) 134 Phase.EW_GREEN rfl
    GREEN_TIME 9 (by decide) (by decide) (ticks_greenTick rnd EAST_WEST 134)
    (set_traffic_light EAST_WEST GREEN (set_traffic_light NORTH_SOUTH RED s))
  rw [ticks_set_traffic_light, ticks_set_traffic_light] at h
  exact h

theorem Conforms_nsYellow (rnd : Nat → Nat) (s : State) :
    ∃ T, ticks (nsYellow rnd s).trace = ticks s.trace ++ T ∧ T.length = 4 ∧
      (∀ t ∈ T, t.line = 122) ∧
      Conforms ⟨Phase.NS_YELLOW, 0⟩ T ⟨Phase.EW_GREEN, 0⟩ := by
  obtain ⟨T, h1, h2, _, h3, h4⟩ := Conforms_forLoop (yellowTick rnd 122) 122 Phase.NS_YELLOW
    rfl YELLOW_TIME 3 (by decide) (by decide) (ticks_yellowTick rnd 122)
    (set_traffic_light NORTH_SOUTH YELLOW s)
  rw [ticks_set_traffic_light] at h1
  exact ⟨T, h1, h2, h3, h4⟩

theorem Conforms_ewYellow (rnd : Nat → Nat) (s : State) :
    ∃ T, ticks (ewYellow rnd s).trace = ticks s.trace ++ T ∧ T.length = 4 ∧
      (∀ t ∈ T, t.line = 152) ∧
      Conforms ⟨Phase.EW_YELLOW, 0⟩ T ⟨Phase.NS_GREEN, 0⟩ := by
  obtain ⟨T, h1, h2, _, h3, h4⟩ := Conforms_forLoop (yellowTick rnd 152) 152 Phase.EW_YELLOW
    rfl YELLOW_TIME 3 (by decide) (by decide) (ticks_yellowTick rnd 152)
    (set_traffic_light EAST_WEST YELLOW s)
  rw [ticks_set_traffic_light] at h1
  exact ⟨T, h1, h2, h3, h4⟩

/-- The extension of north-south green: thirty delay points at line 113 when
the count exceeds 5, none otherwise; in both cases what the table allows after
`NS_GREEN`. -/
theorem Conforms_nsExtension (rnd : Nat → Nat) (s : State) :
    ∃ T, ticks (nsExtension rnd s).trace = ticks s.trace ++ T ∧
      (T.length = if 5 < s.ns_traffic_count then 30 else 0) ∧
      (∀ t ∈ T, t.line = 113) ∧
      Conforms ⟨Spec.next Phase.NS_GREEN s.ns_traffic_count s.ew_traffic_count, 0⟩ T
        ⟨Phase.NS_YELLOW, 0⟩ := by
  unfold nsExtension
  by_cases h : 5 < s.ns_traffic_count
  · rw [if_pos ((is_traffic_low_ns s).mpr h), if_pos h]
    obtain ⟨T, h1, h2, _, h3, h4⟩ := Conforms_forLoop (greenTick rnd NORTH_SOUTH 113) 113
      Phase.NS_GREEN_EXTENDED rfl EXTENDED_TIME 29 (by decide) (by decide)
      (ticks_greenTick rnd NORTH_SOUTH 113) s
    refine ⟨T, h1, h2, h3, ?_⟩
    have e : Spec.next Phase.NS_GREEN s.ns_traffic_count s.ew_traffic_count =
        Phase.NS_GREEN_EXTENDED := by
      simp [Spec.next, Spec.is_low]; omega
    rw [e]; exact h4
  · rw [if_neg (fun hh => h ((is_traffic_low_ns s).mp hh)), if_neg h]
    have e : Spec.next Phase.NS_GREEN s.ns_traffic_count s.ew_traffic_count =
        Phase.NS_YELLOW := by
      simp [Spec.next, Spec.is_low]; omega
    rw [e]
    exact ⟨[], by simp, rfl, by simp, Conforms_nil _⟩

theorem Conforms_ewExtension (rnd : Nat → Nat) (s : State) :
    ∃ T, ticks (ewExtension rnd s).trace = ticks s.trace ++ T ∧
      (T.length = if 5 < s.ew_traffic_count then 30 else 0) ∧
      (∀ t ∈ T, t.line = 143) ∧
      Conforms ⟨Spec.next Phase.EW_GREEN s.ns_traffic_count s.ew_traffic_count, 0⟩ T
        ⟨Phase.EW_YELLOW, 0⟩ := by
  unfold ewExtension
  by_cases h : 5 < s.ew_traffic_count
  · rw [if_pos ((is_traffic_low_ew s).mpr h), if_pos h]
    obtain ⟨T, h1, h2, _, h3, h4⟩ := Conforms_forLoop (greenTick rnd EAST_WEST 143) 143
      Phase.EW_GREEN_EXTENDED rfl EXTENDED_TIME 29 (by decide) (by decide)
      (ticks_greenTick rnd EAST_WEST 143) s
    refine ⟨T, h1, h2, h3, ?_⟩
    have e : Spec.next Phase.EW_GREEN s.ns_traffic_count s.ew_traffic_count =
        Phase.EW_GREEN_EXTENDED := by
      simp [Spec.next, Spec.is_low]; omega
    rw [e]; exact h4
  · rw [if_neg (fun hh => h ((is_traffic_low_ew s).mp hh)), if_neg h]
    have e : Spec.next Phase.EW_GREEN s.ns_traffic_count s.ew_traffic_count =
        Phase.EW_YELLOW := by
      simp [Spec.next, Spec.is_low]; omega
    rw [e]
    exact ⟨[], by simp, rfl, by simp, Conforms_nil _⟩

/-- One iteration of the loop of `main` is one cycle of the specification's
controller, of 28 to 88 delay points. -/
theorem Conforms_loopBody (rnd : Nat → Nat) (s : State) :
    ∃ T, ticks (loopBody rnd s).trace = ticks s.trace ++ T ∧
      28 ≤ T.length ∧ T.length ≤ 88 ∧ Conforms Spec.init T Spec.init := by
  obtain ⟨T1, a1, b1, _, _, c1⟩ := Conforms_nsGreen rnd s
  obtain ⟨T2, a2, b2, _, c2⟩ := Conforms_nsExtension rnd (nsGreen rnd s)
  obtain ⟨T3, a3, b3, _, c3⟩ := Conforms_nsYellow rnd (nsExtension rnd (nsGreen rnd s))
  obtain ⟨T4, a4, b4, _, _, c4⟩ :=
    Conforms_ewGreen rnd (nsYellow rnd (nsExtension rnd (nsGreen rnd s)))
  obtain ⟨T5, a5, b5, _, c5⟩ :=
    Conforms_ewExtension rnd (ewGreen rnd (nsYellow rnd (nsExtension rnd (nsGreen rnd s))))
  obtain ⟨T6, a6, b6, _, c6⟩ := Conforms_ewYellow rnd
    (ewExtension rnd (ewGreen rnd (nsYellow rnd (nsExtension rnd (nsGreen rnd s)))))
  refine ⟨T1 ++ (T2 ++ (T3 ++ (T4 ++ (T5 ++ T6)))), ?_, ?_, ?_, ?_⟩
  · unfold loopBody
    rw [a6, a5, a4, a3, a2, a1]
    simp only [List.append_assoc]
  · simp only [List.length_append]
    split at b2 <;> split at b5 <;> omega
  · simp only [List.length_append]
    split at b2 <;> split at b5 <;> omega
  · exact Conforms_append c1 (Conforms_append c2 (Conforms_append c3
      (Conforms_append c4 (Conforms_append c5 c6))))

theorem Conforms_mainLoop (rnd : Nat → Nat) :
    ∀ (n : Nat) (s : State),
      ∃ T, ticks (mainLoop rnd n s).trace = ticks s.trace ++ T ∧
        28 * n ≤ T.length ∧ T.length ≤ 88 * n ∧ Conforms Spec.init T Spec.init := by
  intro n
  induction n with
  | zero => intro s; exact ⟨[], by simp [mainLoop], by simp, by simp, Conforms_nil _⟩
  | succ n ih =>
    intro s
    obtain ⟨T1, a1, b1, b1', c1⟩ := Conforms_loopBody rnd s
    obtain ⟨T2, a2, b2, b2', c2⟩ := ih (loopBody rnd s)
    refine ⟨T1 ++ T2, ?_, ?_, ?_, Conforms_append c1 c2⟩
    · rw [mainLoop_succ, a2, a1, List.append_assoc]
    · rw [List.length_append]; omega
    · rw [List.length_append]; omega

theorem ticks_setup_gpio (s : State) : ticks (setup_gpio s).trace = ticks s.trace := by
  rw [(setup_gpio_lights s).2, ticks_append]
  simp [ticks]

theorem phaseOfLine_104 : phaseOfLine 104 = some Phase.NS_GREEN := by decide

theorem phaseOfLine_113 : phaseOfLine 113 = some Phase.NS_GREEN_EXTENDED := by decide

theorem phaseOfLine_122 : phaseOfLine 122 = some Phase.NS_YELLOW := by decide

theorem phaseOfLine_134 : phaseOfLine 134 = some Phase.EW_GREEN := by decide

theorem phaseOfLine_143 : phaseOfLine 143 = some Phase.EW_GREEN_EXTENDED := by decide

theorem phaseOfLine_152 : phaseOfLine 152 = some Phase.EW_YELLOW := by decide

theorem map_phaseOfLine_const (T : List Tick) (line : Nat) (h : ∀ t ∈ T, t.line = line) :
    T.map (fun t => phaseOfLine t.line) = List.replicate T.length (phaseOfLine line) := by
  induction T with
  | nil => rfl
  | cons t rest ih =>
    rw [List.map_cons, h t (List.mem_cons_self _ _),
      ih (fun u hu => h u (List.mem_cons_of_mem _ hu))]
    rfl

theorem phaseAfter_append (A T : List Tick) :
    phaseAfter A (A ++ T) = T.head?.bind fun t => phaseOfLine t.line := by
  unfold phaseAfter
  rw [List.drop_left]

theorem head_phase (T : List Tick) (line : Nat) (h : ∀ t ∈ T, t.line = line)
    (hlen : 0 < T.length) :
    (T.head?.bind fun t => phaseOfLine t.line) = phaseOfLine line := by
  cases T with
  | nil => simp at hlen
  | cons t rest =>
    show phaseOfLine t.line = _
    rw [h t (List.mem_cons_self _ _)]

/-- The phase that follows the decision at the end of north-south green. -/
theorem phaseAfter_nsExtension (rnd : Nat → Nat) (s : State) :
    phaseAfter (ticks s.trace) (ticks (nsYellow rnd (nsExtension rnd s)).trace) =
      some (if 5 < s.ns_traffic_count then Phase.NS_GREEN_EXTENDED else Phase.NS_YELLOW) := by
  obtain ⟨T2, a2, b2, l2, _⟩ := Conforms_nsExtension rnd s
  obtain ⟨T3, a3, b3, l3, _⟩ := Conforms_nsYellow rnd (nsExtension rnd s)
  rw [a3, a2, List.append_assoc, phaseAfter_append]
  by_cases h : 5 < s.ns_traffic_count
  · rw [if_pos h] at b2
    rw [if_pos h]
    cases T2 with
    | nil => simp at b2
    | cons t rest =>
      show phaseOfLine t.line = _
      rw [l2 t (List.mem_cons_self _ _)]; rfl
  · rw [if_neg h] at b2
    rw [if_neg h, List.length_eq_zero.mp b2, List.nil_append,
      head_phase T3 122 l3 (by omega)]
    rfl

/-- The phase that follows the decision at the end of east-west green. -/
theorem phaseAfter_ewExtension (rnd : Nat → Nat) (s : State) :
    phaseAfter (ticks s.trace) (ticks (ewYellow rnd (ewExtension rnd s)).trace) =
      some (if 5 < s.ew_traffic_count then Phase.EW_GREEN_EXTENDED else Phase.EW_YELLOW) := by
  obtain ⟨T2, a2, b2, l2, _⟩ := Conforms_ewExtension rnd s
  obtain ⟨T3, a3, b3, l3, _⟩ := Conforms_ewYellow rnd (ewExtension rnd s)
  rw [a3, a2, List.append_assoc, phaseAfter_append]
  by_cases h : 5 < s.ew_traffic_count
  · rw [if_pos h] at b2
    rw [if_pos h]
    cases T2 with
    | nil => simp at b2
    | cons t rest =>
      show phaseOfLine t.line = _
      rw [l2 t (List.mem_cons_self _ _)]; rfl
  · rw [if_neg h] at b2
    rw [if_neg h, List.length_eq_zero.mp b2, List.nil_append,
      head_phase T3 152 l3 (by omega)]
    rfl

/-- The phases of the delay points of one iteration of the loop of `main`. -/
theorem loopBody_phases (rnd : Nat → Nat) (s : State) :
    ∃ T, ticks (loopBody rnd s).trace = ticks s.trace ++ T ∧
      T.map (fun t => phaseOfLine t.line) =
        List.replicate 10 (some Phase.NS_GREEN) ++
        (List.replicate (if 5 < (nsGreen rnd s).ns_traffic_count then 30 else 0)
          (some Phase.NS_GREEN_EXTENDED) ++
        (List.replicate 4 (some Phase.NS_YELLOW) ++
        (List.replicate 10 (some Phase.EW_GREEN) ++
        (List.replicate
          (if 5 < (ewGreen rnd (nsYellow rnd (nsExtension rnd (nsGreen rnd s)))).ew_traffic_count
            then 30 else 0)
          (some Phase.EW_GREEN_EXTENDED) ++
        List.replicate 4 (some Phase.EW_YELLOW))))) := by
  obtain ⟨T1, a1, b1, _, l1, _⟩ := Conforms_nsGreen rnd s
  obtain ⟨T2, a2, b2, l2, _⟩ := Conforms_nsExtension rnd (nsGreen rnd s)
  obtain ⟨T3, a3, b3, l3, _⟩ := Conforms_nsYellow rnd (nsExtension rnd (nsGreen rnd s))
  obtain ⟨T4, a4, b4, _, l4, _⟩ :=
    Conforms_ewGreen rnd (nsYellow rnd (nsExtension rnd (nsGreen rnd s)))
  obtain ⟨T5, a5, b5, l5, _⟩ :=
    Conforms_ewExtension rnd (ewGreen rnd (nsYellow rnd (nsExtension rnd (nsGreen rnd s))))
  obtain ⟨T6, a6, b6, l6, _⟩ := Conforms_ewYellow rnd
    (ewExtension rnd (ewGreen rnd (nsYellow rnd (nsExtension rnd (nsGreen rnd s)))))
  refine ⟨T1 ++ (T2 ++ (T3 ++ (T4 ++ (T5 ++ T6)))), ?_, ?_⟩
  · unfold loopBody
    rw [a6, a5, a4, a3, a2, a1]
    simp only [List.append_assoc]
  · have p1 := map_phaseOfLine_const T1 104 l1
    have p2 := map_phaseOfLine_const T2 113 l2
    have p3 := map_phaseOfLine_const T3 122 l3
    have p4 := map_phaseOfLine_const T4 134 l4
    have p5 := map_phaseOfLine_const T5 143 l5
    have p6 := map_phaseOfLine_const T6 152 l6
    rw [b1] at p1; rw [b2] at p2; rw [b3] at p3; rw [b4] at p4; rw [b5] at p5; rw [b6] at p6
    simp only [List.map_append]
    rw [p1, p2, p3, p4, p5, p6]
    simp only [phaseOfLine_104, phaseOfLine_113, phaseOfLine_122, phaseOfLine_134,
      phaseOfLine_143, phaseOfLine_152]

theorem loopBody_first (rnd : Nat → Nat) (s : State) :
    phaseAfter (ticks s.trace) (ticks (loopBody rnd s).trace) = some Phase.NS_GREEN := by
  obtain ⟨T, a, b⟩ := loopBody_phases rnd s
  rw [a, phaseAfter_append]
  cases T with
  | nil =>
    have hl := congrArg List.length b
    simp only [List.map_nil, List.length_nil, List.length_append, List.length_replicate] at hl
    omega
  | cons t rest =>
    rw [List.map_cons, show (10 : Nat) = 9 + 1 from rfl, List.replicate_succ,
      List.cons_append] at b
    exact (List.cons.inj b).1

/-! ## No arrivals -/

theorem generate_traffic_zero (rnd : Nat → Nat) (hr : ∀ i, rnd i % 3 = 0) (s : State)
    (hns : s.ns_traffic_count = 0) (hew : s.ew_traffic_count = 0) :
    (generate_traffic rnd s).ns_traffic_count = 0 ∧
    (generate_traffic rnd s).ew_traffic_count = 0 := by
  simp [generate_traffic, hr, hns, hew, MAX_TRAFFIC]

theorem process_traffic_movement_zero_any (rnd : Nat → Nat) (direction : Int) (s : State)
    (hns : s.ns_traffic_count = 0) (hew : s.ew_traffic_count = 0) :
    process_traffic_movement rnd direction s = s := by
  unfold process_traffic_movement
  rw [if_neg (by omega), if_neg (by omega)]

theorem ms_delay_counts (line ms : Nat) (s : State) :
    (ms_delay line ms s).ns_traffic_count = s.ns_traffic_count ∧
    (ms_delay line ms s).ew_traffic_count = s.ew_traffic_count ∧
    (ms_delay line ms s).k = s.k := ⟨rfl, rfl, rfl⟩

theorem record_counts (e : Event) (s : State) :
    (record e s).ns_traffic_count = s.ns_traffic_count ∧
    (record e s).ew_traffic_count = s.ew_traffic_count ∧
    (record e s).k = s.k := ⟨rfl, rfl, rfl⟩

theorem greenTick_zero (rnd : Nat → Nat) (hr : ∀ i, rnd i % 3 = 0) (direction : Int)
    (line : Nat) (s : State)
    (h : s.ns_traffic_count = 0 ∧ s.ew_traffic_count = 0) :
    (greenTick rnd direction line s).ns_traffic_count = 0 ∧
    (greenTick rnd direction line s).ew_traffic_count = 0 := by
  obtain ⟨g1, g2⟩ := generate_traffic_zero rnd hr (record Event.call_generate_traffic s) h.1 h.2
  obtain ⟨u1, u2, _⟩ := update_load_indicators_counts (record Event.call_update_load_indicators
    (generate_traffic rnd (record Event.call_generate_traffic s)))
  rw [(record_counts _ _).1] at u1
  rw [(record_counts _ _).2.1] at u2
  have z1 := u1.trans g1
  have z2 := u2.trans g2
  have e := process_traffic_movement_zero_any rnd direction
    (record (Event.call_process_traffic_movement direction)
      (update_load_indicators (record Event.call_update_load_indicators
        (generate_traffic rnd (record Event.call_generate_traffic s)))))
    (((record_counts _ _).1).trans z1) (((record_counts _ _).2.1).trans z2)
  unfold greenTick
  simp only []
  rw [(ms_delay_counts _ _ _).1, (ms_delay_counts _ _ _).2.1, e, (record_counts _ _).1,
    (record_counts _ _).2.1]
  exact ⟨z1, z2⟩

theorem yellowTick_zero (rnd : Nat → Nat) (hr : ∀ i, rnd i % 3 = 0) (line : Nat) (s : State)
    (h : s.ns_traffic_count = 0 ∧ s.ew_traffic_count = 0) :
    (yellowTick rnd line s).ns_traffic_count = 0 ∧
    (yellowTick rnd line s).ew_traffic_count = 0 := by
  obtain ⟨g1, g2⟩ := generate_traffic_zero rnd hr (record Event.call_generate_traffic s) h.1 h.2
  obtain ⟨u1, u2, _⟩ := update_load_indicators_counts (record Event.call_update_load_indicators
    (generate_traffic rnd (record Event.call_generate_traffic s)))
  rw [(record_counts _ _).1] at u1
  rw [(record_counts _ _).2.1] at u2
  unfold yellowTick
  simp only []
  rw [(ms_delay_counts _ _ _).1, (ms_delay_counts _ _ _).2.1]
  exact ⟨u1.trans g1, u2.trans g2⟩

theorem tickRun_zero (f : State → State) (line : Nat)
    (hf : ∀ s : State, s.ns_traffic_count = 0 ∧ s.ew_traffic_count = 0 →
      (f s).ns_traffic_count = 0 ∧ (f s).ew_traffic_count = 0) :
    ∀ (n : Nat) (s : State), s.ns_traffic_count = 0 ∧ s.ew_traffic_count = 0 →
      (tickRun f line n s).map Tick.view = List.replicate n (phaseOfLine line, 500, 0, 0) ∧
      (f^[n] s).ns_traffic_count = 0 ∧ (f^[n] s).ew_traffic_count = 0 := by
  intro n
  induction n with
  | zero => intro s h; exact ⟨rfl, h.1, h.2⟩
  | succ n ih =>
    intro s h
    obtain ⟨i1, i2⟩ := ih (f s) (hf s h)
    refine ⟨?_, ?_⟩
    · show Tick.view (snap line (f s)) :: (tickRun f line n (f s)).map Tick.view = _
      rw [i1, List.replicate_succ]
      simp only [Tick.view, snap, (hf s h).1, (hf s h).2]
    · rw [Function.iterate_succ_apply]; exact i2

theorem forLoop_zero (f : State → State) (line : Nat)
    (ht : ∀ s, ticks (f s).trace = ticks s.trace ++ [snap line (f s)])
    (hf : ∀ s : State, s.ns_traffic_count = 0 ∧ s.ew_traffic_count = 0 →
      (f s).ns_traffic_count = 0 ∧ (f s).ew_traffic_count = 0)
    (limit : Nat) (s : State) (h : s.ns_traffic_count = 0 ∧ s.ew_traffic_count = 0) :
    ∃ T, ticks (forLoop limit f s).trace = ticks s.trace ++ T ∧
      T.map Tick.view = List.replicate ((limit + 499) / 500) (phaseOfLine line, 500, 0, 0) ∧
      (forLoop limit f s).ns_traffic_count = 0 ∧ (forLoop limit f s).ew_traffic_count = 0 := by
  rw [forLoop_eq_iterate]
  exact ⟨_, ticks_iterate f line ht _ s, tickRun_zero f line hf _ s h⟩

/-- One iteration of the loop of `main` without traffic and without arrivals. -/
theorem loopBody_zero (rnd : Nat → Nat) (hr : ∀ i, rnd i % 3 = 0) (s : State)
    (h : s.ns_traffic_count = 0 ∧ s.ew_traffic_count = 0) :
    ∃ T, ticks (loopBody rnd s).trace = ticks s.trace ++ T ∧
      T.map Tick.view =
        List.replicate 10 (some Phase.NS_GREEN, 500, 0, 0) ++
        (List.replicate 4 (some Phase.NS_YELLOW, 500, 0, 0) ++
        (List.replicate 10 (some Phase.EW_GREEN, 500, 0, 0) ++
        List.replicate 4 (some Phase.EW_YELLOW, 500, 0, 0))) ∧
      (loopBody rnd s).ns_traffic_count = 0 ∧ (loopBody rnd s).ew_traffic_count = 0 := by
  have stl : ∀ (d c : Int) (t : State), t.ns_traffic_count = 0 ∧ t.ew_traffic_count = 0 →
      (set_traffic_light d c t).ns_traffic_count = 0 ∧
      (set_traffic_light d c t).ew_traffic_count = 0 := by
    intro d c t ht
    obtain ⟨e1, e2, _⟩ := set_traffic_light_counts d c t
    exact ⟨e1.trans ht.1, e2.trans ht.2⟩
  -- north-south green
  obtain ⟨T1, a1, v1, z1⟩ := forLoop_zero (greenTick rnd NORTH_SOUTH 104) 104
    (ticks_greenTick rnd NORTH_SOUTH 104) (greenTick_zero rnd hr NORTH_SOUTH 104) GREEN_TIME
    (set_traffic_light EAST_WEST RED (set_traffic_light NORTH_SOUTH GREEN s))
    (stl _ _ _ (stl _ _ _ h))
  rw [ticks_set_traffic_light, ticks_set_traffic_light] at a1
  have e1 : nsGreen rnd s = forLoop GREEN_TIME (greenTick rnd NORTH_SOUTH 104)
    (set_traffic_light EAST_WEST RED (set_traffic_light NORTH_SOUTH GREEN s)) := rfl
  rw [← e1] at a1 z1
  -- no extension
  have e2 : nsExtension rnd (nsGreen rnd s) = nsGreen rnd s := by
    unfold nsExtension
    rw [if_neg (fun hh => by have := (is_traffic_low_ns _).mp hh; omega)]
  -- north-south yellow
  obtain ⟨T3, a3, v3, z3⟩ := forLoop_zero (yellowTick rnd 122) 122
    (ticks_yellowTick rnd 122) (yellowTick_zero rnd hr 122) YELLOW_TIME
    (set_traffic_light NORTH_SOUTH YELLOW (nsGreen rnd s)) (stl _ _ _ z1)
  rw [ticks_set_traffic_light] at a3
  have e3 : nsYellow rnd (nsGreen rnd s) = forLoop YELLOW_TIME (yellowTick rnd 122)
    (set_traffic_light NORTH_SOUTH YELLOW (nsGreen rnd s)) := rfl
  rw [← e3] at a3 z3
  -- east-west green
  obtain ⟨T4, a4, v4, z4⟩ := forLoop_zero (greenTick rnd EAST_WEST 134) 134
    (ticks_greenTick rnd EAST_WEST 134) (greenTick_zero rnd hr EAST_WEST 134) GREEN_TIME
    (set_traffic_light EAST_WEST GREEN
      (set_traffic_light NORTH_SOUTH RED (nsYellow rnd (nsGreen rnd s))))
    (stl _ _ _ (stl _ _ _ z3))
  rw [ticks_set_traffic_light, ticks_set_traffic_light] at a4
  have e4 : ewGreen rnd (nsYellow rnd (nsGreen rnd s)) =
    forLoop GREEN_TIME (greenTick rnd EAST_WEST 134)
      (set_traffic_light EAST_WEST GREEN
        (set_traffic_light NORTH_SOUTH RED (nsYellow rnd (nsGreen rnd s)))) := rfl
  rw [← e4] at a4 z4
  have e5 : ewExtension rnd (ewGreen rnd (nsYellow rnd (nsGreen rnd s))) =
      ewGreen rnd (nsYellow rnd (nsGreen rnd s)) := by
    unfold ewExtension
    rw [if_neg (fun hh => by have := (is_traffic_low_ew _).mp hh; omega)]
  -- east-west yellow
  obtain ⟨T6, a6, v6, z6⟩ := forLoop_zero (yellowTick rnd 152) 152
    (ticks_yellowTick rnd 152) (yellowTick_zero rnd hr 152) YELLOW_TIME
    (set_traffic_light EAST_WEST YELLOW (ewGreen rnd (nsYellow rnd (nsGreen rnd s))))
    (stl _ _ _ z4)
  rw [ticks_set_traffic_light] at a6
  have e6 : ewYellow rnd (ewGreen rnd (nsYellow rnd (nsGreen rnd s))) =
    forLoop YELLOW_TIME (yellowTick rnd 152)
      (set_traffic_light EAST_WEST YELLOW (ewGreen rnd (nsYellow rnd (nsGreen rnd s)))) := rfl
  rw [← e6] at a6 z6
  have e : loopBody rnd s = ewYellow rnd (ewGreen rnd (nsYellow rnd (nsGreen rnd s))) := by
    unfold loopBody
    rw [e2, e5]
  rw [e]
  refine ⟨T1 ++ (T3 ++ (T4 ++ T6)), ?_, ?_, z6⟩
  · rw [a6, a4, a3, a1]
    simp only [List.append_assoc]
  · simp only [List.map_append]
    rw [v1, v3, v4, v6]
    simp only [phaseOfLine_104, phaseOfLine_122, phaseOfLine_134, phaseOfLine_152]
    rfl

theorem ticks_main (rnd : Nat → Nat) (n : Nat) (g : GPIO_TypeDef) (ahb1enr : Nat) :
    ∃ T, ticks (main rnd n g ahb1enr).trace = T ∧
      28 * n ≤ T.length ∧ T.length ≤ 88 * n ∧ Conforms Spec.init T Spec.init := by
  obtain ⟨T, a, b1, b2, c⟩ := Conforms_mainLoop rnd n (setup_gpio (initState g ahb1enr))
  refine ⟨T, ?_, b1, b2, c⟩
  unfold main
  rw [a, ticks_setup_gpio]
  rfl

/-! ## The two writes of `set_traffic_light` -/

theorem clear_and_sub (x p r : Nat) (h : r &&& p = r) : (x ^^^ (x &&& p)) &&& r = 0 := by
  apply Nat.eq_of_testBit_eq; intro i
  have hi := congrArg (fun v => Nat.testBit v i) h
  simp only [Nat.testBit_and] at hi
  simp only [Nat.testBit_and, Nat.testBit_xor, Nat.zero_testBit]
  cases hx : x.testBit i <;> cases hp : p.testBit i <;> cases hr : r.testBit i <;>
    simp_all

theorem or_and_self (x c : Nat) : (x ||| c) &&& c = c := by
  apply Nat.eq_of_testBit_eq; intro i
  simp only [Nat.testBit_and, Nat.testBit_or]
  cases x.testBit i <;> cases c.testBit i <;> rfl

theorem or_and_disjoint (x c r : Nat) (h : c &&& r = 0) : (x ||| c) &&& r = x &&& r := by
  apply Nat.eq_of_testBit_eq; intro i
  have hi := congrArg (fun v => Nat.testBit v i) h
  simp only [Nat.testBit_and, Nat.zero_testBit] at hi
  simp only [Nat.testBit_and, Nat.testBit_or]
  cases hx : x.testBit i <;> cases hc : c.testBit i <;> cases hr : r.testBit i <;>
    simp_all

theorem xor_and_disjoint (x p r : Nat) (h : p &&& r = 0) :
    (x ^^^ (x &&& p)) &&& r = x &&& r := by
  apply Nat.eq_of_testBit_eq; intro i
  have hi := congrArg (fun v => Nat.testBit v i) h
  simp only [Nat.testBit_and, Nat.zero_testBit] at hi
  simp only [Nat.testBit_and, Nat.testBit_xor]
  cases hx : x.testBit i <;> cases hp : p.testBit i <;> cases hr : r.testBit i <;>
    simp_all

theorem pinStates_append (a b : List Event) :
    pinStates (a ++ b) = pinStates a ++ pinStates b := by
  unfold pinStates; exact List.filterMap_append _ _ _

theorem set_traffic_light_trace (direction color : Int)
    (hc : color = RED ∨ color = YELLOW ∨ color = GREEN) (s : State) :
    (set_traffic_light direction color s).trace = s.trace ++
      [Event.write (GPIO_WritePin_value (pairPins direction) GPIO_PinState.GPIO_PIN_RESET)
        (s.gpioa.ODR ^^^ (s.gpioa.ODR &&& pairPins direction)),
       Event.write (GPIO_WritePin_value (colourPins direction color) GPIO_PinState.GPIO_PIN_SET)
        ((s.gpioa.ODR ^^^ (s.gpioa.ODR &&& pairPins direction)) |||
          colourPins direction color)] ∧
    (set_traffic_light direction color s).gpioa.ODR =
      (s.gpioa.ODR ^^^ (s.gpioa.ODR &&& pairPins direction)) ||| colourPins direction color := by
  rw [set_traffic_light_eq direction color hc]
  simp only [writePinA_trace, writePinA_ODR_set _ _ (colourPins_lt direction color),
    writePinA_ODR_reset _ _ (pairPins_lt direction), List.append_assoc, List.singleton_append,
    and_self]

theorem and_of_sub (o p r : Nat) (h : r &&& p = r) : (o &&& p) &&& r = o &&& r := by
  rw [Nat.land_assoc, Nat.land_comm p r, h]

theorem redPins_sub (direction : Int) :
    redPins direction &&& pairPins direction = redPins direction := by
  unfold pairPins redPins yellowPins greenPins
  split <;> decide

theorem yellowPins_sub (direction : Int) :
    yellowPins direction &&& pairPins direction = yellowPins direction := by
  unfold pairPins redPins yellowPins greenPins
  split <;> decide

theorem greenPins_sub (direction : Int) :
    greenPins direction &&& pairPins direction = greenPins direction := by
  unfold pairPins redPins yellowPins greenPins
  split <;> decide

theorem colourPins_sub (direction color : Int) :
    colourPins direction color &&& pairPins direction = colourPins direction color := by
  unfold colourPins pairPins redPins yellowPins greenPins
  split_ifs <;> decide

theorem otherPins_sub (direction color : Int) :
    (pairPins direction ^^^ colourPins direction color) &&& pairPins direction =
      pairPins direction ^^^ colourPins direction color := by
  unfold colourPins pairPins redPins yellowPins greenPins
  split_ifs <;> decide

/-- The number of colours lit in a pair depends on the six pins of the pair
only. -/
theorem litColours_pair (odr : Nat) (direction : Int) :
    litColours (odr &&& pairPins direction) direction = litColours odr direction := by
  simp only [litColours, anyHigh, and_of_sub _ _ _ (redPins_sub direction),
    and_of_sub _ _ _ (yellowPins_sub direction), and_of_sub _ _ _ (greenPins_sub direction)]

/-- The colour that a pair shows depends on the six pins of the pair only. -/
theorem shows_pair (odr : Nat) (direction color : Int) :
    shows (odr &&& pairPins direction) direction color ↔ shows odr direction color := by
  unfold shows allHigh allLow
  rw [and_of_sub _ _ _ (colourPins_sub direction color),
    and_of_sub _ _ _ (otherPins_sub direction color)]

theorem litColours_none (direction : Int) : litColours 0 direction = 0 := by
  simp [litColours, anyHigh]

theorem litColours_colourPins (direction color : Int)
    (hc : color = RED ∨ color = YELLOW ∨ color = GREEN) :
    litColours (colourPins direction color) direction = 1 := by
  by_cases hd : direction = NORTH_SOUTH <;> rcases hc with rfl | rfl | rfl <;>
    simp only [litColours, anyHigh, colourPins, redPins, yellowPins, greenPins, hd, if_true,
      if_false] <;> decide

theorem shows_colourPins (direction color : Int)
    (hc : color = RED ∨ color = YELLOW ∨ color = GREEN) :
    shows (colourPins direction color) direction color := by
  refine ⟨hc, ?_, ?_⟩
  · exact Nat.and_self _
  · unfold allLow
    by_cases hd : direction = NORTH_SOUTH <;> rcases hc with rfl | rfl | rfl <;>
      simp only [colourPins, pairPins, redPins, yellowPins, greenPins, hd, if_true,
        if_false] <;> decide

/-- The six pins of the pair after the first write of `set_traffic_light`. -/
theorem reset_pair (x : Nat) (direction : Int) :
    (x ^^^ (x &&& pairPins direction)) &&& pairPins direction = 0 :=
  clear_and_sub x _ _ (Nat.and_self _)

/-- The six pins of the pair after the second write of `set_traffic_light`. -/
theorem set_pair (x : Nat) (direction color : Int) :
    ((x ^^^ (x &&& pairPins direction)) ||| colourPins direction color) &&&
      pairPins direction = colourPins direction color := by
  apply Nat.eq_of_testBit_eq; intro i
  have h1 := congrArg (fun v => Nat.testBit v i) (reset_pair x direction)
  have h2 := congrArg (fun v => Nat.testBit v i) (colourPins_sub direction color)
  simp only [Nat.testBit_and, Nat.testBit_xor, Nat.zero_testBit] at h1 h2
  simp only [Nat.testBit_and, Nat.testBit_or, Nat.testBit_xor]
  cases hx : x.testBit i <;> cases hp : (pairPins direction).testBit i <;>
    cases hq : (colourPins direction color).testBit i <;> simp_all

/-! ## The start of an iteration of the main loop -/

theorem shows_lights (odr : Nat) (direction color : Int) :
    shows odr direction color ↔ shows (odr % 4096) direction color := by
  have h1 : colourPins direction color < 4096 := by
    unfold colourPins redPins yellowPins greenPins
    split_ifs <;> decide
  have h2 : pairPins direction ^^^ colourPins direction color < 4096 := by
    unfold colourPins pairPins redPins yellowPins greenPins
    split_ifs <;> decide
  unfold shows allHigh allLow
  rw [and_light_mask odr _ h1, and_light_mask odr _ h2]

theorem Adds_nsGreen_rest (rnd : Nat → Nat) (l : Nat) (hl : l = 0x024 ∨ l = 0x4A4) :
    Adds (fun u => forLoop GREEN_TIME (greenTick rnd NORTH_SOUTH 104)
      (set_traffic_light EAST_WEST RED u)) reachableLights l 0x264 := by
  rcases hl with rfl | rfl
  · exact Adds_comp
      (Adds_set_traffic_light EAST_WEST RED reachableLights 0x024 0x024 0x264
        (by decide) (by decide) (by decide) (by decide) (by decide))
      (Adds_forLoop (Adds_greenTick rnd NORTH_SOUTH 104 reachableLights 0x264 (by decide))
        GREEN_TIME)
  · exact Adds_comp
      (Adds_set_traffic_light EAST_WEST RED reachableLights 0x4A4 0x024 0x264
        (by decide) (by decide) (by decide) (by decide) (by decide))
      (Adds_forLoop (Adds_greenTick rnd NORTH_SOUTH 104 reachableLights 0x264 (by decide))
        GREEN_TIME)

theorem Adds_after_nsGreen (rnd : Nat → Nat) :
    Adds (fun u => ewYellow rnd (ewExtension rnd (ewGreen rnd (nsYellow rnd
      (nsExtension rnd u))))) reachableLights 0x264 0x489 :=
  Adds_comp (Adds_comp (Adds_comp (Adds_comp
    (Adds_nsExtension rnd) (Adds_nsYellow rnd)) (Adds_ewGreen rnd)) (Adds_ewExtension rnd))
    (Adds_ewYellow rnd)

/-- The output-pin state right after the first call of an iteration,
`set_traffic_light(NORTH_SOUTH, GREEN)`, is one of the output-pin states of
the iteration. -/
theorem loopBody_green_first (rnd : Nat → Nat) (s : State)
    (hl : lights s = 0x000 ∨ lights s = 0x489) :
    ∃ odr ∈ pinStates (loopBody rnd s).trace,
      odr % 4096 = (lights s ^^^ (lights s &&& 0x03F)) ||| 0x024 ∧
      lights (loopBody rnd s) = 0x489 := by
  have hu : lights (set_traffic_light NORTH_SOUTH GREEN s) =
      (lights s ^^^ (lights s &&& 0x03F)) ||| 0x024 := by
    rw [set_traffic_light_eq NORTH_SOUTH GREEN (by decide),
      lights_writePinA_set _ _ (colourPins_lt _ _),
      lights_writePinA_reset _ _ (pairPins_lt _)]
    rfl
  have hu2 : lights (set_traffic_light NORTH_SOUTH GREEN s) = 0x024 ∨
      lights (set_traffic_light NORTH_SOUTH GREEN s) = 0x4A4 := by
    rw [hu]
    rcases hl with h | h <;> rw [h]
    · exact Or.inl (by decide)
    · exact Or.inr (by decide)
  obtain ⟨ht, _⟩ := set_traffic_light_trace NORTH_SOUTH GREEN (by decide) s
  obtain ⟨h1, n1, t1, _⟩ := Adds_nsGreen_rest rnd _ hu2
    (set_traffic_light NORTH_SOUTH GREEN s) rfl
  obtain ⟨h2, n2, t2, _⟩ := Adds_after_nsGreen rnd _ h1
  have e : (loopBody rnd s).trace =
      (set_traffic_light NORTH_SOUTH GREEN s).trace ++ (n1 ++ n2) := by
    rw [← List.append_assoc, ← t1, ← t2]
    rfl
  refine ⟨(set_traffic_light NORTH_SOUTH GREEN s).gpioa.ODR, ?_, hu, h2⟩
  rw [e, ht, pinStates_append, pinStates_append, (set_traffic_light_trace _ _ (by decide) s).2]
  apply List.mem_append_left
  apply List.mem_append_right
  simp [pinStates]

theorem mainLoop_one (rnd : Nat → Nat) (s : State) : mainLoop rnd 1 s = loopBody rnd s :=
  mainLoop_succ rnd 0 s

theorem mainLoop_two (rnd : Nat → Nat) (s : State) :
    mainLoop rnd 2 s = loopBody rnd (loopBody rnd s) := by
  rw [mainLoop_succ, mainLoop_one]

/-- In the first iteration north-south is green while east-west is dark, and
in the second north-south is green while east-west is still yellow. -/
theorem main_green_first (rnd : Nat → Nat) (g : GPIO_TypeDef) (ahb1enr : Nat) :
    (∃ odr ∈ pinStates (main rnd 1 g ahb1enr).trace, odr % 4096 = 0x024) ∧
    (∃ odr ∈ pinStates (main rnd 2 g ahb1enr).trace, odr % 4096 = 0x4A4) := by
  obtain ⟨h0, _⟩ := setup_gpio_lights (initState g ahb1enr)
  obtain ⟨o1, m1, e1, l1⟩ := loopBody_green_first rnd _ (Or.inl h0)
  obtain ⟨o2, m2, e2, _⟩ := loopBody_green_first rnd _ (Or.inr l1)
  unfold main
  rw [mainLoop_one, mainLoop_two]
  refine ⟨⟨o1, m1, ?_⟩, ⟨o2, m2, ?_⟩⟩
  · rw [e1, h0]; decide
  · rw [e2, l1]; decide

/-! ## One pin write -/

/-- A set write makes the pins of the mask high. -/
theorem write_set_mask (m odr : Nat) (hm : m < 65536) :
    BSRR_store (GPIO_WritePin_value m GPIO_PinState.GPIO_PIN_SET) odr &&& m = m := by
  rw [BSRR_store_set m odr hm]; exact or_and_self odr m

/-- A reset write makes the pins of the mask low. -/
theorem write_reset_mask (m odr : Nat) (hm : m < 65536) :
    BSRR_store (GPIO_WritePin_value m GPIO_PinState.GPIO_PIN_RESET) odr &&& m = 0 := by
  rw [BSRR_store_reset m odr hm]; exact clear_and_sub odr m m (Nat.and_self m)

/-- A write leaves the pins outside its mask as they are. -/
theorem write_frame (m odr r : Nat) (st : GPIO_PinState) (hm : m < 65536) (h : m &&& r = 0) :
    BSRR_store (GPIO_WritePin_value m st) odr &&& r = odr &&& r := by
  cases st with
  | GPIO_PIN_RESET => rw [BSRR_store_reset m odr hm]; exact xor_and_disjoint odr m r h
  | GPIO_PIN_SET => rw [BSRR_store_set m odr hm]; exact or_and_disjoint odr m r h

theorem writePinA_ODR (m : Nat) (st : GPIO_PinState) (s : State) :
    (writePinA m st s).gpioa.ODR = BSRR_store (GPIO_WritePin_value m st) s.gpioa.ODR := rfl

/-! ## The load indicators -/

theorem write_mask (m odr : Nat) (c : Bool) (hm : m < 65536) :
    BSRR_store (GPIO_WritePin_value m (pinStateOf c)) odr &&& m = if c then m else 0 := by
  cases c with
  | false => exact write_reset_mask m odr hm
  | true => exact write_set_mask m odr hm

/-- `update_load_indicators` is three pin writes, one per indicator. -/
theorem update_load_indicators_eq (s : State) :
    update_load_indicators s =
      writePinA BOTH_LOAD_LED_PIN
        (pinStateOf (decide (s.ns_traffic_count > TRAFFIC_LOW ∧ s.ew_traffic_count > TRAFFIC_LOW)))
        (writePinA EW_LOAD_LED_PIN (pinStateOf (decide (s.ew_traffic_count > TRAFFIC_LOW)))
          (writePinA NS_LOAD_LED_PIN (pinStateOf (decide (s.ns_traffic_count > TRAFFIC_LOW)))
            s)) := by
  dsimp only [update_load_indicators]
  by_cases h1 : s.ns_traffic_count > TRAFFIC_LOW <;>
    by_cases h2 : s.ew_traffic_count > TRAFFIC_LOW <;>
    simp [h1, h2, pinStateOf, writePinA_counts]

/-- The output data register after `update_load_indicators`. -/
theorem update_load_indicators_ODR (s : State) :
    (update_load_indicators s).gpioa.ODR =
      BSRR_store (GPIO_WritePin_value BOTH_LOAD_LED_PIN
        (pinStateOf (decide (s.ns_traffic_count > TRAFFIC_LOW ∧
          s.ew_traffic_count > TRAFFIC_LOW))))
      (BSRR_store (GPIO_WritePin_value EW_LOAD_LED_PIN
        (pinStateOf (decide (s.ew_traffic_count > TRAFFIC_LOW))))
      (BSRR_store (GPIO_WritePin_value NS_LOAD_LED_PIN
        (pinStateOf (decide (s.ns_traffic_count > TRAFFIC_LOW)))) s.gpioa.ODR)) := by
  rw [update_load_indicators_eq]
  rfl

theorem update_load_indicators_ns_pin (s : State) :
    (update_load_indicators s).gpioa.ODR &&& NS_LOAD_LED_PIN =
      if s.ns_traffic_count > TRAFFIC_LOW then NS_LOAD_LED_PIN else 0 := by
  rw [update_load_indicators_ODR, write_frame _ _ _ _ (by decide) (by decide),
    write_frame _ _ _ _ (by decide) (by decide), write_mask _ _ _ (by decide)]
  simp

theorem update_load_indicators_ew_pin (s : State) :
    (update_load_indicators s).gpioa.ODR &&& EW_LOAD_LED_PIN =
      if s.ew_traffic_count > TRAFFIC_LOW then EW_LOAD_LED_PIN else 0 := by
  rw [update_load_indicators_ODR, write_frame _ _ _ _ (by decide) (by decide),
    write_mask _ _ _ (by decide)]
  simp

theorem update_load_indicators_both_pin (s : State) :
    (update_load_indicators s).gpioa.ODR &&& BOTH_LOAD_LED_PIN =
      if s.ns_traffic_count > TRAFFIC_LOW ∧ s.ew_traffic_count > TRAFFIC_LOW
      then BOTH_LOAD_LED_PIN else 0 := by
  rw [update_load_indicators_ODR, write_mask _ _ _ (by decide)]
  simp

/-- The three indicator pins after `update_load_indicators` are the indicator
function of the counts. -/
theorem update_load_indicators_pins (s : State) :
    (update_load_indicators s).gpioa.ODR &&& INDICATOR_PINS =
      indicators s.ns_traffic_count s.ew_traffic_count := by
  unfold INDICATOR_PINS indicators
  rw [Nat.and_or_distrib_left, Nat.and_or_distrib_left, update_load_indicators_ns_pin,
    update_load_indicators_ew_pin, update_load_indicators_both_pin]

/-- `update_load_indicators` leaves every pin but the three indicator pins as
it is. -/
theorem update_load_indicators_frame (s : State) (r : Nat) (h : INDICATOR_PINS &&& r = 0) :
    (update_load_indicators s).gpioa.ODR &&& r = s.gpioa.ODR &&& r := by
  have h1 : NS_LOAD_LED_PIN &&& r = 0 := by
    have := and_of_sub r INDICATOR_PINS NS_LOAD_LED_PIN (by decide)
    rw [Nat.and_comm, ← this, Nat.and_comm r, h]; rfl
  have h2 : EW_LOAD_LED_PIN &&& r = 0 := by
    have := and_of_sub r INDICATOR_PINS EW_LOAD_LED_PIN (by decide)
    rw [Nat.and_comm, ← this, Nat.and_comm r, h]; rfl
  have h3 : BOTH_LOAD_LED_PIN &&& r = 0 := by
    have := and_of_sub r INDICATOR_PINS BOTH_LOAD_LED_PIN (by decide)
    rw [Nat.and_comm, ← this, Nat.and_comm r, h]; rfl
  rw [update_load_indicators_ODR, write_frame _ _ _ _ (by decide) h3,
    write_frame _ _ _ _ (by decide) h2, write_frame _ _ _ _ (by decide) h1]

/-! ## `GPIO_WritePin` and `set_traffic_light`, pin by pin -/

theorem BSRR_or_then_clear_eq (m odr : Nat) (st : GPIO_PinState) (hm : m < 65536) :
    BSRR_or_then_clear (GPIO_WritePin_value m st) odr =
      BSRR_store (GPIO_WritePin_value m st) odr := by
  cases st with
  | GPIO_PIN_RESET =>
    rw [BSRR_store_reset m odr hm]
    have h0 : (m <<< 16) % 2 ^ 32 = m <<< 16 := by
      rw [Nat.shiftLeft_eq]; apply Nat.mod_eq_of_lt; omega
    have h2 : (m <<< 16) &&& 0xFFFF = 0 := by
      have : (m <<< 16) &&& (2 ^ 16 - 1) = 0 := by
        rw [Nat.and_pow_two_sub_one_eq_mod, Nat.shiftLeft_eq]; simp
      exact this
    simp only [BSRR_or_then_clear, GPIO_WritePin_value, h0, h2, Nat.shiftLeft_shiftRight,
      Nat.or_zero]
  | GPIO_PIN_SET =>
    rw [BSRR_store_set m odr hm]
    have h1 : m >>> 16 = 0 := by
      rw [Nat.shiftRight_eq_div_pow]; exact Nat.div_eq_of_lt hm
    have h2 : m &&& 0xFFFF = m := Nat.and_pow_two_sub_one_of_lt_two_pow (n := 16) hm
    simp only [BSRR_or_then_clear, GPIO_WritePin_value, h1, h2, Nat.and_zero, Nat.xor_zero]

theorem testBit_write (m odr i : Nat) (st : GPIO_PinState) (hm : m < 65536) :
    (BSRR_store (GPIO_WritePin_value m st) odr).testBit i =
      if m.testBit i then decide (st = GPIO_PinState.GPIO_PIN_SET) else odr.testBit i := by
  cases st with
  | GPIO_PIN_RESET =>
    rw [BSRR_store_reset m odr hm]
    simp only [Nat.testBit_xor, Nat.testBit_and]
    cases odr.testBit i <;> cases m.testBit i <;> simp
  | GPIO_PIN_SET =>
    rw [BSRR_store_set m odr hm]
    simp only [Nat.testBit_or]
    cases odr.testBit i <;> cases m.testBit i <;> simp

theorem pairPins_other (direction : Int)
    (hd : direction = NORTH_SOUTH ∨ direction = EAST_WEST) :
    pairPins direction &&& pairPins (otherDirection direction) = 0 := by
  rcases hd with rfl | rfl <;> decide

theorem pairPins_indicators (direction : Int) :
    pairPins direction &&& INDICATOR_PINS = 0 := by
  unfold pairPins redPins yellowPins greenPins
  split <;> decide

/-- `set_traffic_light` leaves the pins outside the pair as they are. -/
theorem set_traffic_light_frame (direction color : Int) (s : State) (r : Nat)
    (hc : color = RED ∨ color = YELLOW ∨ color = GREEN)
    (h : pairPins direction &&& r = 0) :
    (set_traffic_light direction color s).gpioa.ODR &&& r = s.gpioa.ODR &&& r := by
  have hC : colourPins direction color &&& r = 0 := by
    rw [← colourPins_sub direction color, Nat.and_assoc, h, Nat.and_zero]
  rw [(set_traffic_light_trace direction color hc s).2, or_and_disjoint _ _ _ hC,
    xor_and_disjoint _ _ _ h]

/-! ## `GPIO_Init`, field by field -/

theorem GPIO_Init_position_eq (ini : GPIO_InitTypeDef) (g : GPIO_TypeDef) (q : Nat) :
    GPIO_Init_position ini g q =
      if selected ini q then
        { g with MODER := setField 2 (q * 2) ini.Mode g.MODER,
                 OTYPER := setField 1 q (ini.Mode >>> 4) g.OTYPER,
                 OSPEEDR := setField 2 (q * 2) ini.Speed g.OSPEEDR,
                 PUPDR := setField 2 (q * 2) ini.Pull g.PUPDR }
      else g := rfl

theorem testBit_setField (w sh v x j : Nat) (h : sh + w ≤ 32) :
    (setField w sh v x).testBit j =
      if sh ≤ j ∧ j < sh + w then v.testBit (j - sh) else (x.testBit j && decide (j < 32)) := by
  have e : (0xFFFFFFFF : Nat) = 2 ^ 32 - 1 := by norm_num
  unfold setField
  rw [e]
  simp only [Nat.testBit_or, Nat.testBit_and, Nat.testBit_xor, Nat.testBit_mod_two_pow,
    Nat.testBit_shiftLeft, Nat.testBit_two_pow_sub_one]
  by_cases h1 : sh ≤ j
  · by_cases h2 : j < sh + w
    · have h3 : j < 32 := by omega
      have h4 : j - sh < w := by omega
      simp [h1, h2, h3, h4]
    · have h4 : ¬ j - sh < w := by omega
      simp [h1, h2, h4]
  · simp [h1]


theorem setField_idem (w sh v x : Nat) (h : sh + w ≤ 32) :
    setField w sh v (setField w sh v x) = setField w sh v x := by
  apply Nat.eq_of_testBit_eq; intro j
  rw [testBit_setField _ _ _ _ _ h, testBit_setField _ _ _ _ _ h]
  split
  · rfl
  · cases x.testBit j <;> cases decide (j < 32) <;> rfl

theorem setField_comm (w sh1 sh2 v x : Nat) (h1 : sh1 + w ≤ 32) (h2 : sh2 + w ≤ 32)
    (hd : sh1 + w ≤ sh2 ∨ sh2 + w ≤ sh1) :
    setField w sh1 v (setField w sh2 v x) = setField w sh2 v (setField w sh1 v x) := by
  apply Nat.eq_of_testBit_eq; intro j
  rw [testBit_setField _ _ _ _ _ h1, testBit_setField _ _ _ _ _ h2,
    testBit_setField _ _ _ _ _ h2, testBit_setField _ _ _ _ _ h1]
  by_cases a : sh1 ≤ j ∧ j < sh1 + w
  · have b : ¬ (sh2 ≤ j ∧ j < sh2 + w) := by omega
    have c : j < 32 := by omega
    simp [a, b, c]
  · by_cases b : sh2 ≤ j ∧ j < sh2 + w
    · have c : j < 32 := by omega
      simp [a, b, c]
    · simp [a, b]

/-- The field at position `p` after the field at position `q` has been set. -/
theorem field_setField (w v x p q : Nat) (hp : w * p + w ≤ 32)
    (hq : w * q + w ≤ 32) :
    field w (setField w (w * q) v x) p = if p = q then v &&& (2 ^ w - 1) else field w x p := by
  have hpq : p ≠ q → (w * p + w ≤ w * q ∨ w * q + w ≤ w * p) := by
    intro hne
    rcases Nat.lt_or_gt_of_ne hne with h | h
    · left
      calc w * p + w = w * (p + 1) := by rw [Nat.mul_add, Nat.mul_one]
        _ ≤ w * q := Nat.mul_le_mul_left w h
    · right
      calc w * q + w = w * (q + 1) := by rw [Nat.mul_add, Nat.mul_one]
        _ ≤ w * p := Nat.mul_le_mul_left w h
  apply Nat.eq_of_testBit_eq; intro i
  unfold field
  by_cases hpe : p = q
  · subst hpe
    rw [if_pos rfl]
    simp only [Nat.testBit_and, Nat.testBit_shiftRight, Nat.testBit_two_pow_sub_one,
      testBit_setField _ _ _ _ _ hq]
    by_cases hi : i < w
    · have a : w * p ≤ w * p + i ∧ w * p + i < w * p + w := by omega
      simp [a, hi]
    · simp [hi]
  · rw [if_neg hpe]
    simp only [Nat.testBit_and, Nat.testBit_shiftRight, Nat.testBit_two_pow_sub_one,
      testBit_setField _ _ _ _ _ hq]
    by_cases hi : i < w
    · have a : ¬ (w * q ≤ w * p + i ∧ w * p + i < w * q + w) := by
        have := hpq hpe; omega
      have c : w * p + i < 32 := by omega
      simp [a, hi, c]
    · simp [hi]

theorem selected_iff (ini : GPIO_InitTypeDef) (p : Nat) (hp : p < 32) :
    selected ini p ↔ ini.Pin.testBit p = true := by
  unfold selected
  have e : (1 <<< p) % 2 ^ 32 = 2 ^ p := by
    rw [Nat.one_shiftLeft]
    exact Nat.mod_eq_of_lt (Nat.pow_lt_pow_right (by decide) hp)
  rw [e, Nat.and_two_pow]
  have h2 : 2 ^ p ≠ 0 := Nat.ne_of_gt (Nat.two_pow_pos p)
  cases ini.Pin.testBit p <;> simp [h2]

/-- The four fields of pin `p` after the step of `GPIO_Init` for pin `q`. -/
theorem GPIO_Init_position_fields (ini : GPIO_InitTypeDef) (g : GPIO_TypeDef) (p q : Nat)
    (hp : p < 16) (hq : q < 16) :
    field 2 (GPIO_Init_position ini g q).MODER p =
      (if p = q ∧ selected ini q then ini.Mode &&& 3 else field 2 g.MODER p) ∧
    field 1 (GPIO_Init_position ini g q).OTYPER p =
      (if p = q ∧ selected ini q then (ini.Mode >>> 4) &&& 1 else field 1 g.OTYPER p) ∧
    field 2 (GPIO_Init_position ini g q).OSPEEDR p =
      (if p = q ∧ selected ini q then ini.Speed &&& 3 else field 2 g.OSPEEDR p) ∧
    field 2 (GPIO_Init_position ini g q).PUPDR p =
      (if p = q ∧ selected ini q then ini.Pull &&& 3 else field 2 g.PUPDR p) := by
  rw [GPIO_Init_position_eq]
  by_cases hs : selected ini q
  · rw [if_pos hs]
    have e2 : q * 2 = 2 * q := Nat.mul_comm q 2
    have e1 : q = 1 * q := (Nat.one_mul q).symm
    have f2 := fun v x => field_setField 2 v x p q (by omega) (by omega)
    have f1 := fun v x => field_setField 1 v x p q (by omega) (by omega)
    simp only [e2, hs, and_true]
    refine ⟨f2 _ _, ?_, f2 _ _, f2 _ _⟩
    have := f1 (ini.Mode >>> 4) g.OTYPER
    rw [Nat.one_mul] at this
    exact this
  · rw [if_neg hs]
    simp [hs]

/-- The four fields of pin `p` after the steps of `GPIO_Init` for the pins of a
list. -/
theorem foldl_GPIO_Init_position_fields (ini : GPIO_InitTypeDef) (p : Nat) (hp : p < 16)
    (ps : List Nat) (hps : ∀ q ∈ ps, q < 16) :
    ∀ g : GPIO_TypeDef,
      field 2 (ps.foldl (GPIO_Init_position ini) g).MODER p =
        (if p ∈ ps ∧ selected ini p then ini.Mode &&& 3 else field 2 g.MODER p) ∧
      field 1 (ps.foldl (GPIO_Init_position ini) g).OTYPER p =
        (if p ∈ ps ∧ selected ini p then (ini.Mode >>> 4) &&& 1 else field 1 g.OTYPER p) ∧
      field 2 (ps.foldl (GPIO_Init_position ini) g).OSPEEDR p =
        (if p ∈ ps ∧ selected ini p then ini.Speed &&& 3 else field 2 g.OSPEEDR p) ∧
      field 2 (ps.foldl (GPIO_Init_position ini) g).PUPDR p =
        (if p ∈ ps ∧ selected ini p then ini.Pull &&& 3 else field 2 g.PUPDR p) := by
  induction ps with
  | nil => intro g; simp
  | cons q rest ih =>
    intro g
    have hq : q < 16 := hps q (List.mem_cons_self _ _)
    obtain ⟨a1, a2, a3, a4⟩ := ih (fun r hr => hps r (List.mem_cons_of_mem _ hr))
      (GPIO_Init_position ini g q)
    obtain ⟨b1, b2, b3, b4⟩ := GPIO_Init_position_fields ini g p q hp hq
    rw [List.foldl_cons, a1, a2, a3, a4, b1, b2, b3, b4]
    by_cases h1 : p ∈ rest <;> by_cases h2 : p = q <;> by_cases h3 : selected ini p <;>
      simp_all

/-- The four fields of pin `p` after `GPIO_Init`. -/
theorem GPIO_Init_fields (port : Port) (ini : GPIO_InitTypeDef) (ahb1enr : Nat)
    (g : GPIO_TypeDef) (p : Nat) (hp : p < 16) :
    field 2 (GPIO_Init port ini ahb1enr g).2.MODER p =
      (if selected ini p then ini.Mode &&& 3 else field 2 g.MODER p) ∧
    field 1 (GPIO_Init port ini ahb1enr g).2.OTYPER p =
      (if selected ini p then (ini.Mode >>> 4) &&& 1 else field 1 g.OTYPER p) ∧
    field 2 (GPIO_Init port ini ahb1enr g).2.OSPEEDR p =
      (if selected ini p then ini.Speed &&& 3 else field 2 g.OSPEEDR p) ∧
    field 2 (GPIO_Init port ini ahb1enr g).2.PUPDR p =
      (if selected ini p then ini.Pull &&& 3 else field 2 g.PUPDR p) := by
  have h := foldl_GPIO_Init_position_fields ini p hp (List.range GPIO_NUMBER)
    (fun q hq => List.mem_range.mp hq) g
  have hm : p ∈ List.range GPIO_NUMBER := List.mem_range.mpr hp
  simp only [hm, true_and] at h
  exact h

theorem GPIO_Init_position_idem (ini : GPIO_InitTypeDef) (g : GPIO_TypeDef) (q : Nat)
    (hq : q < 16) :
    GPIO_Init_position ini (GPIO_Init_position ini g q) q = GPIO_Init_position ini g q := by
  rw [GPIO_Init_position_eq, GPIO_Init_position_eq]
  by_cases hs : selected ini q
  · simp only [hs, if_true]
    rw [setField_idem 2 (q * 2) _ _ (by omega), setField_idem 1 q _ _ (by omega),
      setField_idem 2 (q * 2) _ _ (by omega), setField_idem 2 (q * 2) _ _ (by omega)]
  · simp only [hs, if_false]

theorem GPIO_Init_position_comm (ini : GPIO_InitTypeDef) (g : GPIO_TypeDef) (p q : Nat)
    (hp : p < 16) (hq : q < 16) :
    GPIO_Init_position ini (GPIO_Init_position ini g p) q =
      GPIO_Init_position ini (GPIO_Init_position ini g q) p := by
  by_cases hpq : p = q
  · rw [hpq]
  · simp only [GPIO_Init_position_eq]
    by_cases h1 : selected ini p <;> by_cases h2 : selected ini q
    · simp only [h1, h2, if_true]
      rw [setField_comm 2 (q * 2) (p * 2) ini.Mode g.MODER (by omega) (by omega) (by omega),
        setField_comm 1 q p (ini.Mode >>> 4) g.OTYPER (by omega) (by omega) (by omega),
        setField_comm 2 (q * 2) (p * 2) ini.Speed g.OSPEEDR (by omega) (by omega) (by omega),
        setField_comm 2 (q * 2) (p * 2) ini.Pull g.PUPDR (by omega) (by omega) (by omega)]
    · simp only [h1, h2, if_true, if_false]
    · simp only [h1, h2, if_true, if_false]
    · simp only [h1, h2, if_false]

theorem foldl_GPIO_Init_position_comm (ini : GPIO_InitTypeDef) (q : Nat) (hq : q < 16)
    (ps : List Nat) (hps : ∀ r ∈ ps, r < 16) :
    ∀ g : GPIO_TypeDef,
      GPIO_Init_position ini (ps.foldl (GPIO_Init_position ini) g) q =
        ps.foldl (GPIO_Init_position ini) (GPIO_Init_position ini g q) := by
  induction ps with
  | nil => intro g; rfl
  | cons p rest ih =>
    intro g
    have hp : p < 16 := hps p (List.mem_cons_self _ _)
    rw [List.foldl_cons, List.foldl_cons,
      ih (fun r hr => hps r (List.mem_cons_of_mem _ hr)),
      GPIO_Init_position_comm ini g p q hp hq]

theorem foldl_GPIO_Init_position_idem (ini : GPIO_InitTypeDef)
    (ps : List Nat) (hps : ∀ r ∈ ps, r < 16) :
    ∀ g : GPIO_TypeDef,
      ps.foldl (GPIO_Init_position ini) (ps.foldl (GPIO_Init_position ini) g) =
        ps.foldl (GPIO_Init_position ini) g := by
  induction ps with
  | nil => intro g; rfl
  | cons q rest ih =>
    intro g
    have hq : q < 16 := hps q (List.mem_cons_self _ _)
    have hr : ∀ r ∈ rest, r < 16 := fun r hr => hps r (List.mem_cons_of_mem _ hr)
    rw [List.foldl_cons, List.foldl_cons, foldl_GPIO_Init_position_comm ini q hq rest hr,
      GPIO_Init_position_idem ini g q hq, ih hr]

theorem GPIO_Init_loop_idem (ini : GPIO_InitTypeDef) (g : GPIO_TypeDef) :
    GPIO_Init_loop ini (GPIO_Init_loop ini g) = GPIO_Init_loop ini g :=
  foldl_GPIO_Init_position_idem ini _ (fun _ hr => List.mem_range.mp hr) g

/-- The bits of `Pin` at positions 16 and above do not count. -/
theorem selected_mod (ini : GPIO_InitTypeDef) (q : Nat) (hq : q < 16) :
    selected { ini with Pin := ini.Pin % 65536 } q ↔ selected ini q := by
  rw [selected_iff _ q (by omega), selected_iff _ q (by omega)]
  show (ini.Pin % 2 ^ 16).testBit q = true ↔ _
  rw [Nat.testBit_mod_two_pow]
  simp [hq]

theorem GPIO_Init_position_mod (ini : GPIO_InitTypeDef) (g : GPIO_TypeDef) (q : Nat)
    (hq : q < 16) :
    GPIO_Init_position { ini with Pin := ini.Pin % 65536 } g q = GPIO_Init_position ini g q := by
  rw [GPIO_Init_position_eq, GPIO_Init_position_eq]
  by_cases hs : selected ini q
  · rw [if_pos hs, if_pos ((selected_mod ini q hq).mpr hs)]
  · rw [if_neg hs, if_neg (fun h => hs ((selected_mod ini q hq).mp h))]

theorem foldl_GPIO_Init_position_mod (ini : GPIO_InitTypeDef)
    (ps : List Nat) (hps : ∀ r ∈ ps, r < 16) :
    ∀ g : GPIO_TypeDef,
      ps.foldl (GPIO_Init_position { ini with Pin := ini.Pin % 65536 }) g =
        ps.foldl (GPIO_Init_position ini) g := by
  induction ps with
  | nil => intro g; rfl
  | cons q rest ih =>
    intro g
    rw [List.foldl_cons, List.foldl_cons,
      GPIO_Init_position_mod ini g q (hps q (List.mem_cons_self _ _)),
      ih (fun r hr => hps r (List.mem_cons_of_mem _ hr))]

theorem selected_ALL_PINS (ini : GPIO_InitTypeDef) (h : ini.Pin = ALL_PINS) (p : Nat)
    (hp : p < 16) : selected ini p ↔ p < 15 := by
  rw [selected_iff ini p (by omega), h]
  have e : ALL_PINS = 2 ^ 15 - 1 := by decide
  rw [e, Nat.testBit_two_pow_sub_one]
  simp

theorem setup_gpio_registers (s : State) :
    (setup_gpio s).gpioa.MODER =
      (GPIO_Init Port.GPIOA ⟨ALL_PINS, GPIO_MODE_OUTPUT_PP, GPIO_NOPULL, GPIO_SPEED_FREQ_LOW, 0⟩
        s.ahb1enr s.gpioa).2.MODER ∧
    (setup_gpio s).gpioa.OTYPER =
      (GPIO_Init Port.GPIOA ⟨ALL_PINS, GPIO_MODE_OUTPUT_PP, GPIO_NOPULL, GPIO_SPEED_FREQ_LOW, 0⟩
        s.ahb1enr s.gpioa).2.OTYPER ∧
    (setup_gpio s).gpioa.OSPEEDR =
      (GPIO_Init Port.GPIOA ⟨ALL_PINS, GPIO_MODE_OUTPUT_PP, GPIO_NOPULL, GPIO_SPEED_FREQ_LOW, 0⟩
        s.ahb1enr s.gpioa).2.OSPEEDR ∧
    (setup_gpio s).gpioa.PUPDR =
      (GPIO_Init Port.GPIOA ⟨ALL_PINS, GPIO_MODE_OUTPUT_PP, GPIO_NOPULL, GPIO_SPEED_FREQ_LOW, 0⟩
        s.ahb1enr s.gpioa).2.PUPDR := by
  unfold setup_gpio clear_all_lights writePinA GPIO_WritePin
  exact ⟨rfl, rfl, rfl, rfl⟩

/-! ## The order of the calls in a tick -/

theorem calls_append (a b : List Event) : calls (a ++ b) = calls a ++ calls b := by
  unfold calls; exact List.filter_append _ _

theorem Ordered_append {tr : List Event} (h : Ordered tr) (new : List Event)
    (hn : calls new = (ticks new).flatMap tickCalls) : Ordered (tr ++ new) := by
  unfold Ordered at *
  rw [calls_append, ticks_append, List.flatMap_append, h, hn]

theorem Ordered_writePinA (m : Nat) (st : GPIO_PinState) (s : State)
    (h : Ordered s.trace) : Ordered (writePinA m st s).trace := by
  rw [writePinA_trace]
  exact Ordered_append h _ rfl

theorem Ordered_set_traffic_light (direction color : Int) (s : State)
    (h : Ordered s.trace) : Ordered (set_traffic_light direction color s).trace := by
  dsimp only [set_traffic_light]
  split_ifs <;> first
    | exact Ordered_writePinA _ _ _ (Ordered_writePinA _ _ _ h)
    | exact Ordered_writePinA _ _ _ h

theorem calls_update_load_indicators (s : State) :
    calls (update_load_indicators s).trace = calls s.trace := by
  rw [update_load_indicators_eq]
  simp only [writePinA_trace, calls_append]
  simp [calls]

theorem greenTick_trace (rnd : Nat → Nat) (direction : Int) (line : Nat) (s : State) :
    calls (greenTick rnd direction line s).trace = calls s.trace ++
      [Event.call_generate_traffic, Event.call_update_load_indicators,
       Event.call_process_traffic_movement direction,
       Event.delay line 500 (greenTick rnd direction line s).gpioa.ODR
         (greenTick rnd direction line s).ns_traffic_count
         (greenTick rnd direction line s).ew_traffic_count] := by
  have e : (greenTick rnd direction line s).trace =
      (update_load_indicators (record Event.call_update_load_indicators
        (generate_traffic rnd (record Event.call_generate_traffic s)))).trace ++
      [Event.call_process_traffic_movement direction,
       Event.delay line 500 (greenTick rnd direction line s).gpioa.ODR
         (greenTick rnd direction line s).ns_traffic_count
         (greenTick rnd direction line s).ew_traffic_count] := by
    unfold greenTick
    simp only [ms_delay, (process_traffic_movement_frame _ _ _).2.2, record,
      List.append_assoc, List.singleton_append]
  rw [e, calls_append, calls_update_load_indicators]
  show calls ((s.trace ++ [Event.call_generate_traffic]) ++
    [Event.call_update_load_indicators]) ++ _ = _
  rw [calls_append, calls_append, List.append_assoc, List.append_assoc]
  rfl

theorem yellowTick_trace (rnd : Nat → Nat) (line : Nat) (s : State) :
    calls (yellowTick rnd line s).trace = calls s.trace ++
      [Event.call_generate_traffic, Event.call_update_load_indicators,
       Event.delay line 500 (yellowTick rnd line s).gpioa.ODR
         (yellowTick rnd line s).ns_traffic_count
         (yellowTick rnd line s).ew_traffic_count] := by
  have e : (yellowTick rnd line s).trace =
      (update_load_indicators (record Event.call_update_load_indicators
        (generate_traffic rnd (record Event.call_generate_traffic s)))).trace ++
      [Event.delay line 500 (yellowTick rnd line s).gpioa.ODR
         (yellowTick rnd line s).ns_traffic_count
         (yellowTick rnd line s).ew_traffic_count] := rfl
  rw [e, calls_append, calls_update_load_indicators]
  show calls ((s.trace ++ [Event.call_generate_traffic]) ++
    [Event.call_update_load_indicators]) ++ _ = _
  rw [calls_append, calls_append, List.append_assoc, List.append_assoc]
  rfl

theorem Ordered_greenTick (rnd : Nat → Nat) (direction : Int) (line : Nat)
    (hl : moveCalls (phaseOfLine line) = [Event.call_process_traffic_movement direction])
    (s : State) (h : Ordered s.trace) : Ordered (greenTick rnd direction line s).trace := by
  unfold Ordered at *
  rw [greenTick_trace, ticks_greenTick, List.flatMap_append, h]
  simp only [List.flatMap_cons, List.flatMap_nil, List.append_nil, tickCalls, snap, hl]
  rfl

theorem Ordered_yellowTick (rnd : Nat → Nat) (line : Nat)
    (hl : moveCalls (phaseOfLine line) = [])
    (s : State) (h : Ordered s.trace) : Ordered (yellowTick rnd line s).trace := by
  unfold Ordered at *
  rw [yellowTick_trace, ticks_yellowTick, List.flatMap_append, h]
  simp only [List.flatMap_cons, List.flatMap_nil, List.append_nil, tickCalls, snap, hl]
  rfl

theorem Ordered_iterate (f : State → State)
    (hf : ∀ s, Ordered s.trace → Ordered (f s).trace) :
    ∀ (n : Nat) (s : State), Ordered s.trace → Ordered (f^[n] s).trace := by
  intro n
  induction n with
  | zero => intro s h; exact h
  | succ n ih =>
    intro s h
    rw [Function.iterate_succ_apply]
    exact ih (f s) (hf s h)

theorem Ordered_forLoop (f : State → State)
    (hf : ∀ s, Ordered s.trace → Ordered (f s).trace) (limit : Nat) (s : State)
    (h : Ordered s.trace) : Ordered (forLoop limit f s).trace := by
  rw [forLoop_eq_iterate]
  exact Ordered_iterate f hf _ s h

theorem Ordered_loopBody (rnd : Nat → Nat) (s : State) (h : Ordered s.trace) :
    Ordered (loopBody rnd s).trace := by
  have g1 : ∀ s, Ordered s.trace → Ordered (nsGreen rnd s).trace := fun s h =>
    Ordered_forLoop _ (Ordered_greenTick rnd NORTH_SOUTH 104 (by decide)) _ _
      (Ordered_set_traffic_light _ _ _ (Ordered_set_traffic_light _ _ _ h))
  have g2 : ∀ s, Ordered s.trace → Ordered (nsExtension rnd s).trace := fun s h => by
    unfold nsExtension
    split
    · exact Ordered_forLoop _ (Ordered_greenTick rnd NORTH_SOUTH 113 (by decide)) _ _ h
    · exact h
  have g3 : ∀ s, Ordered s.trace → Ordered (nsYellow rnd s).trace := fun s h =>
    Ordered_forLoop _ (Ordered_yellowTick rnd 122 (by decide)) _ _
      (Ordered_set_traffic_light _ _ _ h)
  have g4 : ∀ s, Ordered s.trace → Ordered (ewGreen rnd s).trace := fun s h =>
    Ordered_forLoop _ (Ordered_greenTick rnd EAST_WEST 134 (by decide)) _ _
      (Ordered_set_traffic_light _ _ _ (Ordered_set_traffic_light _ _ _ h))
  have g5 : ∀ s, Ordered s.trace → Ordered (ewExtension rnd s).trace := fun s h => by
    unfold ewExtension
    split
    · exact Ordered_forLoop _ (Ordered_greenTick rnd EAST_WEST 143 (by decide)) _ _ h
    · exact h
  have g6 : ∀ s, Ordered s.trace → Ordered (ewYellow rnd s).trace := fun s h =>
    Ordered_forLoop _ (Ordered_yellowTick rnd 152 (by decide)) _ _
      (Ordered_set_traffic_light _ _ _ h)
  exact g6 _ (g5 _ (g4 _ (g3 _ (g2 _ (g1 _ h)))))

theorem Ordered_main (rnd : Nat → Nat) (n : Nat) (g : GPIO_TypeDef) (ahb1enr : Nat) :
    Ordered (main rnd n g ahb1enr).trace := by
  unfold main mainLoop
  apply Ordered_iterate _ (Ordered_loopBody rnd)
  rw [(setup_gpio_lights _).2]
  exact Ordered_append (show Ordered (initState g ahb1enr).trace from rfl) _ rfl

/-! ## Properties of every delay point -/

theorem TicksSat_comp {f g : State → State} {Q : Tick → Prop} {I J K : State → Prop}
    (hf : TicksSat f Q I J) (hg : TicksSat g Q J K) : TicksSat (fun s => g (f s)) Q I K := by
  intro s hs
  obtain ⟨h1, T1, t1, p1⟩ := hf s hs
  obtain ⟨h2, T2, t2, p2⟩ := hg (f s) h1
  refine ⟨h2, T1 ++ T2, ?_, ?_⟩
  · rw [t2, t1, List.append_assoc]
  · intro t ht
    rcases List.mem_append.mp ht with h | h
    · exact p1 t h
    · exact p2 t h

theorem TicksSat_id (Q : Tick → Prop) (I : State → Prop) : TicksSat (fun s => s) Q I I :=
  fun s hs => ⟨hs, [], by simp, by simp⟩

theorem TicksSat_ite (c : State → Prop) [DecidablePred c] {f g : State → State}
    {Q : Tick → Prop} {I J : State → Prop} (hf : TicksSat f Q I J) (hg : TicksSat g Q I J) :
    TicksSat (fun s => if c s then f s else g s) Q I J := by
  intro s hs
  by_cases h : c s
  · simp only [h, if_true]; exact hf s hs
  · simp only [h, if_false]; exact hg s hs

/-- A step that adds no delay point. -/
theorem TicksSat_silent (f : State → State) (Q : Tick → Prop) (I J : State → Prop)
    (ht : ∀ s, ticks (f s).trace = ticks s.trace) (hj : ∀ s, I s → J (f s)) :
    TicksSat f Q I J :=
  fun s hs => ⟨hj s hs, [], by simp [ht s], by simp⟩

/-- A loop body that ends with its delay. -/
theorem TicksSat_tick (f : State → State) (line : Nat) (Q : Tick → Prop) (I : State → Prop)
    (ht : ∀ s, ticks (f s).trace = ticks s.trace ++ [snap line (f s)])
    (hq : ∀ s, I s → I (f s) ∧ Q (snap line (f s))) : TicksSat f Q I I := by
  intro s hs
  refine ⟨(hq s hs).1, _, ht s, ?_⟩
  intro t h
  rw [List.mem_singleton.mp h]
  exact (hq s hs).2

theorem TicksSat_iterate {f : State → State} {Q : Tick → Prop} {I : State → Prop}
    (hf : TicksSat f Q I I) : ∀ n : Nat, TicksSat (f^[n]) Q I I := by
  intro n
  induction n with
  | zero => exact TicksSat_id Q I
  | succ n ih =>
    intro s hs
    rw [Function.iterate_succ_apply]
    exact TicksSat_comp hf ih s hs

theorem TicksSat_forLoop {f : State → State} {Q : Tick → Prop} {I : State → Prop}
    (hf : TicksSat f Q I I) (limit : Nat) : TicksSat (forLoop limit f) Q I I := by
  intro s hs
  rw [forLoop_eq_iterate]
  exact TicksSat_iterate hf _ s hs

theorem TicksSat_mainLoop {rnd : Nat → Nat} {Q : Tick → Prop} {I J : State → Prop}
    (hb : TicksSat (loopBody rnd) Q I J) (hji : ∀ s, J s → I s) :
    ∀ (n : Nat) (s : State), I s →
      ∃ T, ticks (mainLoop rnd n s).trace = ticks s.trace ++ T ∧ ∀ t ∈ T, Q t := by
  intro n
  induction n with
  | zero => intro s _; exact ⟨[], by simp [mainLoop], by simp⟩
  | succ n ih =>
    intro s hs
    obtain ⟨h1, T1, t1, p1⟩ := hb s hs
    obtain ⟨T2, t2, p2⟩ := ih (loopBody rnd s) (hji _ h1)
    refine ⟨T1 ++ T2, ?_, ?_⟩
    · rw [mainLoop_succ, t2, t1, List.append_assoc]
    · intro t ht
      rcases List.mem_append.mp ht with h | h
      · exact p1 t h
      · exact p2 t h

/-- What holds at the delay points of every iteration from a state reached by
`setup_gpio` holds at every delay point of `main`. -/
theorem TicksSat_main {rnd : Nat → Nat} {Q : Tick → Prop} {I J : State → Prop}
    (hb : TicksSat (loopBody rnd) Q I J) (hji : ∀ s, J s → I s)
    (h0 : ∀ (g : GPIO_TypeDef) (ahb1enr : Nat), I (setup_gpio (initState g ahb1enr)))
    (n : Nat) (g : GPIO_TypeDef) (ahb1enr : Nat) :
    ∀ t ∈ ticks (main rnd n g ahb1enr).trace, Q t := by
  obtain ⟨T, e, p⟩ := TicksSat_mainLoop hb hji n _ (h0 g ahb1enr)
  unfold main
  rw [e, ticks_setup_gpio]
  intro t ht
  exact p t (by simpa [initState, ticks] using ht)

/-! ## The light pins at the delay points -/

theorem lights_greenTick (rnd : Nat → Nat) (direction : Int) (line : Nat) (s : State) :
    lights (greenTick rnd direction line s) = lights s :=
  (Adds_greenTick rnd direction line [lights s] (lights s) (List.mem_singleton.mpr rfl)
    s rfl).1

theorem lights_yellowTick (rnd : Nat → Nat) (line : Nat) (s : State) :
    lights (yellowTick rnd line s) = lights s :=
  (Adds_yellowTick rnd line [lights s] (lights s) (List.mem_singleton.mpr rfl) s rfl).1

theorem TickLights_greenTick (rnd : Nat → Nat) (direction : Int) (line : Nat) (p : Phase)
    (hp : phaseOfLine line = some p) :
    TicksSat (greenTick rnd direction line) TickLights
      (fun s => lights s = phaseLights p) (fun s => lights s = phaseLights p) :=
  TicksSat_tick _ line _ _ (ticks_greenTick rnd direction line) fun s hs =>
    ⟨(lights_greenTick rnd direction line s).trans hs,
     p, hp, (lights_greenTick rnd direction line s).trans hs⟩

theorem TickLights_yellowTick (rnd : Nat → Nat) (line : Nat) (p : Phase)
    (hp : phaseOfLine line = some p) :
    TicksSat (yellowTick rnd line) TickLights
      (fun s => lights s = phaseLights p) (fun s => lights s = phaseLights p) :=
  TicksSat_tick _ line _ _ (ticks_yellowTick rnd line) fun s hs =>
    ⟨(lights_yellowTick rnd line s).trans hs, p, hp, (lights_yellowTick rnd line s).trans hs⟩

theorem TickLights_set_traffic_light (direction color : Int) (l l1 l2 : Nat)
    (hc : color = RED ∨ color = YELLOW ∨ color = GREEN)
    (h1 : l ^^^ (l &&& pairPins direction % 4096) = l1)
    (h2 : l1 ||| colourPins direction color % 4096 = l2) :
    TicksSat (set_traffic_light direction color) TickLights
      (fun s => lights s = l) (fun s => lights s = l2) :=
  TicksSat_silent _ _ _ _ (ticks_set_traffic_light direction color) fun s hs =>
    (Adds_set_traffic_light direction color [l1, l2] l l1 l2 hc h1 h2 (by simp) (by simp)
      s hs).1

theorem TickLights_loopBody (rnd : Nat → Nat) :
    TicksSat (loopBody rnd) TickLights
      (fun s => lights s = 0x000 ∨ lights s = 0x489)
      (fun s => lights s = phaseLights Phase.EW_YELLOW) := by
  have a1 : TicksSat (fun s => set_traffic_light EAST_WEST RED
      (set_traffic_light NORTH_SOUTH GREEN s)) TickLights
      (fun s => lights s = 0x000 ∨ lights s = 0x489)
      (fun s => lights s = phaseLights Phase.NS_GREEN) := by
    intro s hs
    rcases hs with h | h
    · exact TicksSat_comp
        (TickLights_set_traffic_light NORTH_SOUTH GREEN 0x000 0x000 0x024 (by decide)
          (by decide) (by decide))
        (TickLights_set_traffic_light EAST_WEST RED 0x024 0x024 (phaseLights Phase.NS_GREEN)
          (by decide) (by decide) (by decide)) s h
    · exact TicksSat_comp
        (TickLights_set_traffic_light NORTH_SOUTH GREEN 0x489 0x480 0x4A4 (by decide)
          (by decide) (by decide))
        (TickLights_set_traffic_light EAST_WEST RED 0x4A4 0x024 (phaseLights Phase.NS_GREEN)
          (by decide) (by decide) (by decide)) s h
  have g1 := TicksSat_comp a1 (TicksSat_forLoop
    (TickLights_greenTick rnd NORTH_SOUTH 104 Phase.NS_GREEN (by decide)) GREEN_TIME)
  have x1 : TicksSat (nsExtension rnd) TickLights
      (fun s => lights s = phaseLights Phase.NS_GREEN)
      (fun s => lights s = phaseLights Phase.NS_GREEN) :=
    TicksSat_ite (fun s => is_traffic_low NORTH_SOUTH s = 0)
      (TicksSat_forLoop
        (TickLights_greenTick rnd NORTH_SOUTH 113 Phase.NS_GREEN_EXTENDED (by decide))
        EXTENDED_TIME)
      (TicksSat_id _ _)
  have y1 := TicksSat_comp
    (TickLights_set_traffic_light NORTH_SOUTH YELLOW (phaseLights Phase.NS_GREEN) 0x240
      (phaseLights Phase.NS_YELLOW) (by decide) (by decide) (by decide))
    (TicksSat_forLoop (TickLights_yellowTick rnd 122 Phase.NS_YELLOW (by decide)) YELLOW_TIME)
  have g2 := TicksSat_comp (TicksSat_comp
    (TickLights_set_traffic_light NORTH_SOUTH RED (phaseLights Phase.NS_YELLOW) 0x240 0x249
      (by decide) (by decide) (by decide))
    (TickLights_set_traffic_light EAST_WEST GREEN 0x249 0x009 (phaseLights Phase.EW_GREEN)
      (by decide) (by decide) (by decide)))
    (TicksSat_forLoop (TickLights_greenTick rnd EAST_WEST 134 Phase.EW_GREEN (by decide))
      GREEN_TIME)
  have x2 : TicksSat (ewExtension rnd) TickLights
      (fun s => lights s = phaseLights Phase.EW_GREEN)
      (fun s => lights s = phaseLights Phase.EW_GREEN) :=
    TicksSat_ite (fun s => is_traffic_low EAST_WEST s = 0)
      (TicksSat_forLoop
        (TickLights_greenTick rnd EAST_WEST 143 Phase.EW_GREEN_EXTENDED (by decide))
        EXTENDED_TIME)
      (TicksSat_id _ _)
  have y2 := TicksSat_comp
    (TickLights_set_traffic_light EAST_WEST YELLOW (phaseLights Phase.EW_GREEN) 0x009
      (phaseLights Phase.EW_YELLOW) (by decide) (by decide) (by decide))
    (TicksSat_forLoop (TickLights_yellowTick rnd 152 Phase.EW_YELLOW (by decide)) YELLOW_TIME)
  have h := TicksSat_comp (TicksSat_comp (TicksSat_comp (TicksSat_comp (TicksSat_comp
    g1 x1) y1) g2) x2) y2
  exact h

/-- At every delay point of `main` the light pins are in the state of the
phase of the delay point. -/
theorem TickLights_main (rnd : Nat → Nat) (n : Nat) (g : GPIO_TypeDef) (ahb1enr : Nat) :
    ∀ t ∈ ticks (main rnd n g ahb1enr).trace, TickLights t :=
  TicksSat_main (TickLights_loopBody rnd)
    (fun s hs => Or.inr (hs.trans (by decide)))
    (fun g a => Or.inl (setup_gpio_lights (initState g a)).1) n g ahb1enr

theorem litColours_lights (odr : Nat) (direction : Int) :
    litColours odr direction = litColours (odr % 4096) direction := by
  have h1 : redPins direction < 4096 := by unfold redPins; split <;> decide
  have h2 : yellowPins direction < 4096 := by unfold yellowPins; split <;> decide
  have h3 : greenPins direction < 4096 := by unfold greenPins; split <;> decide
  simp only [litColours, anyHigh, and_light_mask odr _ h1, and_light_mask odr _ h2,
    and_light_mask odr _ h3, Nat.mod_mod]

/-- In the state of the light pins of a phase each pair shows the colour of
the phase and has one colour lit. -/
theorem phaseLights_shows (p : Phase) :
    shows (phaseLights p) NORTH_SOUTH (phaseColours p).1 ∧
    shows (phaseLights p) EAST_WEST (phaseColours p).2 ∧
    litColours (phaseLights p) NORTH_SOUTH = 1 ∧
    litColours (phaseLights p) EAST_WEST = 1 ∧
    phaseColours p ∈ [(GREEN, RED), (YELLOW, RED), (RED, GREEN), (RED, YELLOW)] := by
  cases p <;> decide

theorem main_has_tick (rnd : Nat → Nat) (n : Nat) (g : GPIO_TypeDef) (ahb1enr : Nat) :
    ∃ t, t ∈ ticks (main rnd (n + 1) g ahb1enr).trace := by
  obtain ⟨T, e, h1, _⟩ := ticks_main rnd (n + 1) g ahb1enr
  rw [e]
  cases T with
  | nil => simp at h1
  | cons t rest => exact ⟨t, List.mem_cons_self _ _⟩

theorem ticks_main_phase (rnd : Nat → Nat) (n : Nat) (g : GPIO_TypeDef) (ahb1enr : Nat) :
    ∀ t ∈ ticks (main rnd n g ahb1enr).trace, t.ms = 500 := by
  obtain ⟨T, e, _, _, _, _, c3⟩ := ticks_main rnd n g ahb1enr
  rw [e]; exact c3

/-- A call to `process_traffic_movement` in the tick of a phase is for the
green direction of the phase. -/
theorem mem_moveCalls (p : Phase) (d : Int)
    (h : Event.call_process_traffic_movement d ∈ moveCalls (some p)) :
    greenDirection p = some d ∧ phaseColours p =
      (if d = NORTH_SOUTH then (GREEN, RED) else (RED, GREEN)) ∧
    (d = NORTH_SOUTH ∨ d = EAST_WEST) := by
  cases p <;> simp [moveCalls, greenDirection] at h <;> subst h <;> decide

/-! ## The load indicators at the delay points -/

theorem generate_traffic_record (rnd : Nat → Nat) (e : Event) (s : State) :
    (generate_traffic rnd (record e s)).ns_traffic_count =
      (generate_traffic rnd s).ns_traffic_count ∧
    (generate_traffic rnd (record e s)).ew_traffic_count =
      (generate_traffic rnd s).ew_traffic_count ∧
    (generate_traffic rnd (record e s)).k = (generate_traffic rnd s).k ∧
    (generate_traffic rnd (record e s)).gpioa = s.gpioa := ⟨rfl, rfl, rfl, rfl⟩

/-- The counts after `process_traffic_movement` depend on the counts and on
the number of consumed draws only. -/
theorem process_traffic_movement_congr (rnd : Nat → Nat) (direction : Int) (s t : State)
    (h1 : s.ns_traffic_count = t.ns_traffic_count)
    (h2 : s.ew_traffic_count = t.ew_traffic_count) (h3 : s.k = t.k) :
    (process_traffic_movement rnd direction s).ns_traffic_count =
      (process_traffic_movement rnd direction t).ns_traffic_count ∧
    (process_traffic_movement rnd direction s).ew_traffic_count =
      (process_traffic_movement rnd direction t).ew_traffic_count := by
  unfold process_traffic_movement
  rw [h1, h2, h3]
  split_ifs <;> exact ⟨by first | rfl | exact h1, by first | rfl | exact h2⟩

theorem ms_delay_gpioa (line ms : Nat) (s : State) : (ms_delay line ms s).gpioa = s.gpioa :=
  rfl

theorem record_gpioa (e : Event) (s : State) : (record e s).gpioa = s.gpioa := rfl

/-- The state in which a green tick ends: the pins are those that
`update_load_indicators` left, from the counts after the arrivals; the counts
are those after the discharge. -/
theorem greenTick_state (rnd : Nat → Nat) (direction : Int) (line : Nat) (s : State) :
    (greenTick rnd direction line s).gpioa.ODR &&& INDICATOR_PINS =
      indicators (generate_traffic rnd s).ns_traffic_count
        (generate_traffic rnd s).ew_traffic_count ∧
    (greenTick rnd direction line s).ns_traffic_count =
      (process_traffic_movement rnd direction (generate_traffic rnd s)).ns_traffic_count ∧
    (greenTick rnd direction line s).ew_traffic_count =
      (process_traffic_movement rnd direction (generate_traffic rnd s)).ew_traffic_count := by
  obtain ⟨r1, r2, r3, _⟩ := generate_traffic_record rnd Event.call_generate_traffic s
  obtain ⟨u1, u2, u3⟩ := update_load_indicators_counts
    (record Event.call_update_load_indicators
      (generate_traffic rnd (record Event.call_generate_traffic s)))
  have hp := update_load_indicators_pins
    (record Event.call_update_load_indicators
      (generate_traffic rnd (record Event.call_generate_traffic s)))
  rw [(record_counts _ _).1, (record_counts _ _).2.1, r1, r2] at hp
  rw [(record_counts _ _).1, r1] at u1
  rw [(record_counts _ _).2.1, r2] at u2
  rw [(record_counts _ _).2.2, r3] at u3
  obtain ⟨f1, _, _⟩ := process_traffic_movement_frame rnd direction
    (record (Event.call_process_traffic_movement direction)
      (update_load_indicators (record Event.call_update_load_indicators
        (generate_traffic rnd (record Event.call_generate_traffic s)))))
  obtain ⟨c1, c2⟩ := process_traffic_movement_congr rnd direction
    (record (Event.call_process_traffic_movement direction)
      (update_load_indicators (record Event.call_update_load_indicators
        (generate_traffic rnd (record Event.call_generate_traffic s)))))
    (generate_traffic rnd s) (((record_counts _ _).1).trans u1)
    (((record_counts _ _).2.1).trans u2) (((record_counts _ _).2.2).trans u3)
  unfold greenTick
  simp only []
  rw [ms_delay_gpioa, (ms_delay_counts _ _ _).1, (ms_delay_counts _ _ _).2.1, f1, record_gpioa]
  exact ⟨hp, c1, c2⟩

/-- The state in which a yellow tick ends: the pins are those that
`update_load_indicators` left, from the counts after the arrivals, which are
the counts at the delay. -/
theorem yellowTick_state (rnd : Nat → Nat) (line : Nat) (s : State) :
    (yellowTick rnd line s).gpioa.ODR &&& INDICATOR_PINS =
      indicators (generate_traffic rnd s).ns_traffic_count
        (generate_traffic rnd s).ew_traffic_count ∧
    (yellowTick rnd line s).ns_traffic_count = (generate_traffic rnd s).ns_traffic_count ∧
    (yellowTick rnd line s).ew_traffic_count = (generate_traffic rnd s).ew_traffic_count := by
  obtain ⟨r1, r2, _, _⟩ := generate_traffic_record rnd Event.call_generate_traffic s
  obtain ⟨u1, u2, _⟩ := update_load_indicators_counts
    (record Event.call_update_load_indicators
      (generate_traffic rnd (record Event.call_generate_traffic s)))
  have hp := update_load_indicators_pins
    (record Event.call_update_load_indicators
      (generate_traffic rnd (record Event.call_generate_traffic s)))
  rw [(record_counts _ _).1, (record_counts _ _).2.1, r1, r2] at hp
  rw [(record_counts _ _).1, r1] at u1
  rw [(record_counts _ _).2.1, r2] at u2
  unfold yellowTick
  simp only []
  rw [ms_delay_gpioa, (ms_delay_counts _ _ _).1, (ms_delay_counts _ _ _).2.1]
  exact ⟨hp, u1, u2⟩


theorem TickIndicators_snap (rnd : Nat → Nat) (line : Nat) (p : Phase) (s0 s : State)
    (hp : phaseOfLine line = some p) (he : s = tickBody rnd p line s0)
    (ho : s.gpioa.ODR &&& INDICATOR_PINS =
      indicators (generate_traffic rnd s0).ns_traffic_count
        (generate_traffic rnd s0).ew_traffic_count)
    (hc : (s.ns_traffic_count, s.ew_traffic_count) =
      countsAtDelay rnd p (generate_traffic rnd s0)) :
    TickIndicators rnd (snap line s) := by
  refine ⟨p, s0, hp, ?_, ho, hc⟩
  subst he
  rfl

theorem TickIndicators_greenTick (rnd : Nat → Nat) (direction : Int) (line : Nat) (p : Phase)
    (hp : phaseOfLine line = some p) (hg : greenDirection p = some direction) :
    TicksSat (greenTick rnd direction line) (TickIndicators rnd)
      (fun _ => True) (fun _ => True) := by
  apply TicksSat_tick _ line _ _ (ticks_greenTick rnd direction line)
  intro s _
  refine ⟨trivial, ?_⟩
  obtain ⟨e0, e1, e2⟩ := greenTick_state rnd direction line s
  apply TickIndicators_snap rnd line p s _ hp
  · unfold tickBody
    rw [hg]
  · exact e0
  · unfold countsAtDelay
    rw [hg, e1, e2]

theorem TickIndicators_yellowTick (rnd : Nat → Nat) (line : Nat) (p : Phase)
    (hp : phaseOfLine line = some p) (hg : greenDirection p = none) :
    TicksSat (yellowTick rnd line) (TickIndicators rnd) (fun _ => True) (fun _ => True) := by
  apply TicksSat_tick _ line _ _ (ticks_yellowTick rnd line)
  intro s _
  refine ⟨trivial, ?_⟩
  obtain ⟨e0, e1, e2⟩ := yellowTick_state rnd line s
  apply TickIndicators_snap rnd line p s _ hp
  · unfold tickBody
    rw [hg]
  · exact e0
  · unfold countsAtDelay
    rw [hg, e1, e2]

theorem TickIndicators_set_traffic_light (rnd : Nat → Nat) (direction color : Int) :
    TicksSat (set_traffic_light direction color) (TickIndicators rnd)
      (fun _ => True) (fun _ => True) :=
  TicksSat_silent _ _ _ _ (ticks_set_traffic_light direction color) fun _ _ => trivial

theorem TickIndicators_loopBody (rnd : Nat → Nat) :
    TicksSat (loopBody rnd) (TickIndicators rnd) (fun _ => True) (fun _ => True) := by
  have g1 := TicksSat_comp (TicksSat_comp
    (TickIndicators_set_traffic_light rnd NORTH_SOUTH GREEN)
    (TickIndicators_set_traffic_light rnd EAST_WEST RED))
    (TicksSat_forLoop (TickIndicators_greenTick rnd NORTH_SOUTH 104 Phase.NS_GREEN
      (by decide) rfl) GREEN_TIME)
  have x1 := TicksSat_ite (fun s => is_traffic_low NORTH_SOUTH s = 0)
    (TicksSat_forLoop (TickIndicators_greenTick rnd NORTH_SOUTH 113 Phase.NS_GREEN_EXTENDED
      (by decide) rfl) EXTENDED_TIME)
    (TicksSat_id _ _)
  have y1 := TicksSat_comp (TickIndicators_set_traffic_light rnd NORTH_SOUTH YELLOW)
    (TicksSat_forLoop (TickIndicators_yellowTick rnd 122 Phase.NS_YELLOW (by decide) rfl)
      YELLOW_TIME)
  have g2 := TicksSat_comp (TicksSat_comp
    (TickIndicators_set_traffic_light rnd NORTH_SOUTH RED)
    (TickIndicators_set_traffic_light rnd EAST_WEST GREEN))
    (TicksSat_forLoop (TickIndicators_greenTick rnd EAST_WEST 134 Phase.EW_GREEN
      (by decide) rfl) GREEN_TIME)
  have x2 := TicksSat_ite (fun s => is_traffic_low EAST_WEST s = 0)
    (TicksSat_forLoop (TickIndicators_greenTick rnd EAST_WEST 143 Phase.EW_GREEN_EXTENDED
      (by decide) rfl) EXTENDED_TIME)
    (TicksSat_id _ _)
  have y2 := TicksSat_comp (TickIndicators_set_traffic_light rnd EAST_WEST YELLOW)
    (TicksSat_forLoop (TickIndicators_yellowTick rnd 152 Phase.EW_YELLOW (by decide) rfl)
      YELLOW_TIME)
  have h := TicksSat_comp (TicksSat_comp (TicksSat_comp (TicksSat_comp (TicksSat_comp
    g1 x1) y1) g2) x2) y2
  exact h

/-- Every delay point of the program ends a tick whose indicator pins are the
indicator function of the counts after the arrivals of that tick. -/
theorem TickIndicators_main (rnd : Nat → Nat) (n : Nat) (g : GPIO_TypeDef) (ahb1enr : Nat) :
    ∀ t ∈ ticks (main rnd n g ahb1enr).trace, TickIndicators rnd t :=
  TicksSat_main (TickIndicators_loopBody rnd) (fun _ hs => hs) (fun _ _ => trivial) n g ahb1enr

/-- In a yellow phase the indicator pins match the counts at the delay. -/
theorem TickIndicators_yellow (rnd : Nat → Nat) (t : Tick) (p : Phase)
    (h : TickIndicators rnd t) (hp : phaseOfLine t.line = some p)
    (hg : greenDirection p = none) : t.odr &&& INDICATOR_PINS = indicators t.ns t.ew := by
  obtain ⟨q, s, hq, _, ho, hc⟩ := h
  rw [hp] at hq
  cases Option.some.inj hq
  unfold countsAtDelay at hc
  rw [hg] at hc
  have h1 : t.ns = (generate_traffic rnd s).ns_traffic_count := congrArg Prod.fst hc
  have h2 : t.ew = (generate_traffic rnd s).ew_traffic_count := congrArg Prod.snd hc
  rw [h1, h2]
  exact ho

theorem ticks_nsGreen_tickRun (rnd : Nat → Nat) (s : State) :
    ticks (nsGreen rnd s).trace = ticks s.trace ++
      tickRun (greenTick rnd NORTH_SOUTH 104) 104 10
        (set_traffic_light EAST_WEST RED (set_traffic_light NORTH_SOUTH GREEN s)) := by
  unfold nsGreen
  simp only []
  rw [forLoop_GREEN_TIME, ticks_iterate _ 104 (ticks_greenTick rnd NORTH_SOUTH 104),
    ticks_set_traffic_light, ticks_set_traffic_light]

theorem ticks_loopBody_nsGreen (rnd : Nat → Nat) (s : State) :
    ∃ R, ticks (loopBody rnd s).trace = ticks (nsGreen rnd s).trace ++ R := by
  obtain ⟨T2, a2, _⟩ := Conforms_nsExtension rnd (nsGreen rnd s)
  obtain ⟨T3, a3, _⟩ := Conforms_nsYellow rnd (nsExtension rnd (nsGreen rnd s))
  obtain ⟨T4, a4, _⟩ := Conforms_ewGreen rnd (nsYellow rnd (nsExtension rnd (nsGreen rnd s)))
  obtain ⟨T5, a5, _⟩ :=
    Conforms_ewExtension rnd (ewGreen rnd (nsYellow rnd (nsExtension rnd (nsGreen rnd s))))
  obtain ⟨T6, a6, _⟩ := Conforms_ewYellow rnd
    (ewExtension rnd (ewGreen rnd (nsYellow rnd (nsExtension rnd (nsGreen rnd s)))))
  refine ⟨T2 ++ (T3 ++ (T4 ++ (T5 ++ T6))), ?_⟩
  unfold loopBody
  rw [a6, a5, a4, a3, a2]
  simp only [List.append_assoc]

/-- The third delay point of the first iteration of `main`. -/
theorem third_tick_of_main (rnd : Nat → Nat) (g : GPIO_TypeDef) (ahb1enr : Nat) :
    snap 104 ((greenTick rnd NORTH_SOUTH 104)^[3]
      (set_traffic_light EAST_WEST RED (set_traffic_light NORTH_SOUTH GREEN
        (setup_gpio (initState g ahb1enr))))) ∈ ticks (main rnd 1 g ahb1enr).trace := by
  obtain ⟨R, e⟩ := ticks_loopBody_nsGreen rnd (setup_gpio (initState g ahb1enr))
  unfold main
  rw [mainLoop_one, e, ticks_nsGreen_tickRun]
  apply List.mem_append_left
  apply List.mem_append_right
  exact List.mem_cons_of_mem _ (List.mem_cons_of_mem _ (List.mem_cons_self _ _))

set_option maxRecDepth 4000 in
/-- With the draws `staleDraws` the third tick of the first green phase has
six vehicles north-south after its arrivals and ends with the north-south load
pin high and three vehicles north-south. -/
theorem stale_third_tick :
    (generate_traffic staleDraws ((greenTick staleDraws NORTH_SOUTH 104)^[2]
      (set_traffic_light EAST_WEST RED (set_traffic_light NORTH_SOUTH GREEN
        (setup_gpio (initState ⟨0, 0, 0, 0, 0⟩ 0)))))).ns_traffic_count = 6 ∧
    allHigh (snap 104 ((greenTick staleDraws NORTH_SOUTH 104)^[3]
      (set_traffic_light EAST_WEST RED (set_traffic_light NORTH_SOUTH GREEN
        (setup_gpio (initState ⟨0, 0, 0, 0, 0⟩ 0)))))).odr NS_LOAD_LED_PIN ∧
    (snap 104 ((greenTick staleDraws NORTH_SOUTH 104)^[3]
      (set_traffic_light EAST_WEST RED (set_traffic_light NORTH_SOUTH GREEN
        (setup_gpio (initState ⟨0, 0, 0, 0, 0⟩ 0)))))).ns = 3 ∧
    (snap 104 ((greenTick staleDraws NORTH_SOUTH 104)^[3]
      (set_traffic_light EAST_WEST RED (set_traffic_light NORTH_SOUTH GREEN
        (setup_gpio (initState ⟨0, 0, 0, 0, 0⟩ 0)))))).ns ≤ TRAFFIC_LOW ∧
    (snap 104 ((greenTick staleDraws NORTH_SOUTH 104)^[3]
      (set_traffic_light EAST_WEST RED (set_traffic_light NORTH_SOUTH GREEN
        (setup_gpio (initState ⟨0, 0, 0, 0, 0⟩ 0)))))).odr &&& INDICATOR_PINS ≠
      indicators
        (snap 104 ((greenTick staleDraws NORTH_SOUTH 104)^[3]
          (set_traffic_light EAST_WEST RED (set_traffic_light NORTH_SOUTH GREEN
            (setup_gpio (initState ⟨0, 0, 0, 0, 0⟩ 0)))))).ns
        (snap 104 ((greenTick staleDraws NORTH_SOUTH 104)^[3]
          (set_traffic_light EAST_WEST RED (set_traffic_light NORTH_SOUTH GREEN
            (setup_gpio (initState ⟨0, 0, 0, 0, 0⟩ 0)))))).ew := by
  decide

/-! ## The claims -/

/-- C1. Bounds invariant: starting from both counts at zero, after every finite
sequence of `generate_traffic` and `process_traffic_movement` calls and for
every stream of `rand()` results, both counts are at most 30 (they are
unsigned, so at least 0); the sum that the next `generate_traffic` would store
to a `uint8_t` is below 256 for both directions, so no addition wraps, and the
difference that the next `process_traffic_movement` would store is not
negative, so no subtraction underflows. -/
theorem counts_bounded (rnd : Nat → Nat) (ops : List Op) (s : State)
    (hns : s.ns_traffic_count = 0) (hew : s.ew_traffic_count = 0) :
    (runOps rnd ops s).ns_traffic_count ≤ 30 ∧
    (runOps rnd ops s).ew_traffic_count ≤ 30 ∧
    (runOps rnd ops s).ns_traffic_count + rnd (runOps rnd ops s).k % 3 < 256 ∧
    (runOps rnd ops s).ew_traffic_count + rnd ((runOps rnd ops s).k + 1) % 3 < 256 ∧
    (∀ direction : Int,
      (0 : Int) ≤ (count direction (runOps rnd ops s) : Int) -
        (if ((rnd (runOps rnd ops s).k % 4 : Nat) : Int) >
            (count direction (runOps rnd ops s) : Int)
         then (count direction (runOps rnd ops s) : Int)
         else ((rnd (runOps rnd ops s).k % 4 : Nat) : Int))) := by
  obtain ⟨b1, b2⟩ := runOps_bounds rnd ops s (by omega) (by omega)
  have h1 : rnd (runOps rnd ops s).k % 3 < 3 := Nat.mod_lt _ (by decide)
  have h2 : rnd ((runOps rnd ops s).k + 1) % 3 < 3 := Nat.mod_lt _ (by decide)
  refine ⟨b1, b2, by omega, by omega, ?_⟩
  intro direction
  split <;> omega

/-- Witness of C1: two arrivals per draw, then a discharge. -/
theorem counts_bounded_witness :
    (runOps (fun _ => 2) [Op.generate, Op.generate, Op.move NORTH_SOUTH]
      (initState ⟨0, 0, 0, 0, 0⟩ 0)).ns_traffic_count ≤ 30 :=
  (counts_bounded (fun _ => 2) [Op.generate, Op.generate, Op.move NORTH_SOUTH]
    (initState ⟨0, 0, 0, 0, 0⟩ 0) rfl rfl).1

/-- C2. Mutual exclusion: in every output-pin state of `main` (the state after
`setup_gpio` and after each `GPIO_WritePin` of the main loop), for every
stream of `rand()` results, any number of iterations and any initial
registers, no north-south green pin is high together with an east-west green
pin, and no north-south yellow pin is high together with an east-west yellow
pin. -/
theorem mutual_exclusion (rnd : Nat → Nat) (n : Nat) (g : GPIO_TypeDef) (ahb1enr : Nat) :
    ∀ odr ∈ pinStates (main rnd n g ahb1enr).trace,
      ¬ (anyHigh odr NS_GREEN_PINS ∧ anyHigh odr EW_GREEN_PINS) ∧
      ¬ (anyHigh odr NS_YELLOW_PINS ∧ anyHigh odr EW_YELLOW_PINS) := by
  intro odr h
  have hl := main_pinStates rnd n g ahb1enr odr h
  have key : ∀ l ∈ reachableLights,
      ¬ (l &&& NS_GREEN_PINS ≠ 0 ∧ l &&& EW_GREEN_PINS ≠ 0) ∧
      ¬ (l &&& NS_YELLOW_PINS ≠ 0 ∧ l &&& EW_YELLOW_PINS ≠ 0) := by decide
  unfold anyHigh
  rw [and_light_mask odr NS_GREEN_PINS (by decide), and_light_mask odr EW_GREEN_PINS (by decide),
    and_light_mask odr NS_YELLOW_PINS (by decide), and_light_mask odr EW_YELLOW_PINS (by decide)]
  exact key _ hl

/-- Witness of C2: the output-pin state of the first iteration in which
north-south has just turned green. -/
theorem mutual_exclusion_witness :
    ∃ odr ∈ pinStates (main (fun _ => 0) 1 ⟨0, 0, 0, 0, 0⟩ 0).trace,
      odr % 4096 = 0x024 ∧
      ¬ (anyHigh odr NS_GREEN_PINS ∧ anyHigh odr EW_GREEN_PINS) ∧
      ¬ (anyHigh odr NS_YELLOW_PINS ∧ anyHigh odr EW_YELLOW_PINS) := by
  obtain ⟨odr, hm, he⟩ := (main_green_first (fun _ => 0) ⟨0, 0, 0, 0, 0⟩ 0).1
  exact ⟨odr, hm, he, mutual_exclusion (fun _ => 0) 1 ⟨0, 0, 0, 0, 0⟩ 0 odr hm⟩

/-- C3. The main loop refines the six-state transition table.  For every
stream of `rand()` results and every number of iterations, the delay points of
`main` are all delays of 500 ms, the phase of each (the loop its `ms_delay`
call stands in) is the phase in which the specification's controller, started
in `NS_GREEN` and fed the counts recorded at the delay points, spends that
step, and at the end of an iteration the controller is back at the start of
`NS_GREEN`; `n` iterations take between `28 n` and `88 n` delay points.  One
iteration, from any state, is 10 delay points of `NS_GREEN`, then 30 of
`NS_GREEN_EXTENDED` or none, 4 of `NS_YELLOW`, 10 of `EW_GREEN`, 30 of
`EW_GREEN_EXTENDED` or none, and 4 of `EW_YELLOW`. -/
theorem main_refines_table (rnd : Nat → Nat) (n : Nat) (g : GPIO_TypeDef) (ahb1enr : Nat) :
    (ticks (main rnd n g ahb1enr).trace).map (fun t => phaseOfLine t.line) =
      (Spec.phases Spec.init
        ((ticks (main rnd n g ahb1enr).trace).map Tick.counts)).map some ∧
    Spec.run Spec.init ((ticks (main rnd n g ahb1enr).trace).map Tick.counts) = Spec.init ∧
    (∀ t ∈ ticks (main rnd n g ahb1enr).trace, t.ms = 500) ∧
    28 * n ≤ (ticks (main rnd n g ahb1enr).trace).length ∧
    (ticks (main rnd n g ahb1enr).trace).length ≤ 88 * n ∧
    (∀ s : State, ∃ T, ticks (loopBody rnd s).trace = ticks s.trace ++ T ∧
      T.map (fun t => phaseOfLine t.line) =
        List.replicate 10 (some Phase.NS_GREEN) ++
        (List.replicate (if 5 < (nsGreen rnd s).ns_traffic_count then 30 else 0)
          (some Phase.NS_GREEN_EXTENDED) ++
        (List.replicate 4 (some Phase.NS_YELLOW) ++
        (List.replicate 10 (some Phase.EW_GREEN) ++
        (List.replicate
          (if 5 < (ewGreen rnd (nsYellow rnd (nsExtension rnd (nsGreen rnd s)))).ew_traffic_count
            then 30 else 0)
          (some Phase.EW_GREEN_EXTENDED) ++
        List.replicate 4 (some Phase.EW_YELLOW)))))) := by
  obtain ⟨T, a, b1, b2, c1, c2, c3⟩ := ticks_main rnd n g ahb1enr
  rw [a]
  exact ⟨c1, c2, c3, b1, b2, loopBody_phases rnd⟩

/-- C4. Extension decision.  The base green loop of a direction ends with its
tenth delay point, which records the counts of the state the loop ends in (the
counts after that tick's arrivals and discharge).  From any state `t` at that
point, the next delay point of `main` is in the extended green phase of the
direction when the count of the direction exceeds 5 and in its yellow phase
otherwise; so a count of 6 leads to the extension and a count of 5 directly to
yellow, for north-south and for east-west alike. -/
theorem extension_decision (rnd : Nat → Nat) (s : State) :
    (∃ T, ticks (nsGreen rnd s).trace = ticks s.trace ++ T ∧ T.length = 10 ∧
      T.getLast? = some (snap 104 (nsGreen rnd s))) ∧
    (∃ T, ticks (ewGreen rnd s).trace = ticks s.trace ++ T ∧ T.length = 10 ∧
      T.getLast? = some (snap 134 (ewGreen rnd s))) ∧
    (∀ t : State,
      phaseAfter (ticks t.trace) (ticks (nsYellow rnd (nsExtension rnd t)).trace) =
        some (if 5 < t.ns_traffic_count then Phase.NS_GREEN_EXTENDED else Phase.NS_YELLOW)) ∧
    (∀ t : State,
      phaseAfter (ticks t.trace) (ticks (ewYellow rnd (ewExtension rnd t)).trace) =
        some (if 5 < t.ew_traffic_count then Phase.EW_GREEN_EXTENDED else Phase.EW_YELLOW)) ∧
    (∀ t : State, t.ns_traffic_count = 6 →
      phaseAfter (ticks t.trace) (ticks (nsYellow rnd (nsExtension rnd t)).trace) =
        some Phase.NS_GREEN_EXTENDED) ∧
    (∀ t : State, t.ns_traffic_count = 5 →
      phaseAfter (ticks t.trace) (ticks (nsYellow rnd (nsExtension rnd t)).trace) =
        some Phase.NS_YELLOW) ∧
    (∀ t : State, t.ew_traffic_count = 6 →
      phaseAfter (ticks t.trace) (ticks (ewYellow rnd (ewExtension rnd t)).trace) =
        some Phase.EW_GREEN_EXTENDED) ∧
    (∀ t : State, t.ew_traffic_count = 5 →
      phaseAfter (ticks t.trace) (ticks (ewYellow rnd (ewExtension rnd t)).trace) =
        some Phase.EW_YELLOW) := by
  obtain ⟨T1, a1, b1, c1, _⟩ := Conforms_nsGreen rnd s
  obtain ⟨T2, a2, b2, c2, _⟩ := Conforms_ewGreen rnd s
  refine ⟨⟨T1, a1, b1, c1⟩, ⟨T2, a2, b2, c2⟩, phaseAfter_nsExtension rnd,
    phaseAfter_ewExtension rnd, ?_, ?_, ?_, ?_⟩
  · intro t ht
    rw [phaseAfter_nsExtension, ht]; rfl
  · intro t ht
    rw [phaseAfter_nsExtension, ht]; rfl
  · intro t ht
    rw [phaseAfter_ewExtension, ht]; rfl
  · intro t ht
    rw [phaseAfter_ewExtension, ht]; rfl

/-- C5. Full-cycle scenario.  When both counts are 0 and every `rand()` result
is a multiple of 3 (no arrivals), one iteration of the loop of `main` adds
exactly 28 delay points, each of 500 ms with both counts 0: ten in `NS_GREEN`,
four in `NS_YELLOW`, ten in `EW_GREEN`, four in `EW_YELLOW`, with no extended
phase; the delays add up to 14000 ms, both counts are still 0, and the next
iteration starts in `NS_GREEN` again. -/
theorem full_cycle_no_traffic (rnd : Nat → Nat) (s : State)
    (hr : ∀ i, rnd i % 3 = 0)
    (hns : s.ns_traffic_count = 0) (hew : s.ew_traffic_count = 0) :
    ∃ T, ticks (loopBody rnd s).trace = ticks s.trace ++ T ∧
      T.map Tick.view =
        List.replicate 10 (some Phase.NS_GREEN, 500, 0, 0) ++
        (List.replicate 4 (some Phase.NS_YELLOW, 500, 0, 0) ++
        (List.replicate 10 (some Phase.EW_GREEN, 500, 0, 0) ++
        List.replicate 4 (some Phase.EW_YELLOW, 500, 0, 0))) ∧
      T.length = 28 ∧
      ((T.map Tick.view).map (fun v => v.2.1)).sum = 14000 ∧
      (loopBody rnd s).ns_traffic_count = 0 ∧ (loopBody rnd s).ew_traffic_count = 0 ∧
      phaseAfter (ticks (loopBody rnd s).trace)
        (ticks (loopBody rnd (loopBody rnd s)).trace) = some Phase.NS_GREEN := by
  obtain ⟨T, a, v, z1, z2⟩ := loopBody_zero rnd hr s ⟨hns, hew⟩
  refine ⟨T, a, v, ?_, ?_, z1, z2, loopBody_first rnd _⟩
  · have hl := congrArg List.length v
    rw [List.length_map] at hl
    rw [hl]; rfl
  · rw [v]; rfl

/-- Witness of C5: every `rand()` result is 0 and `main` has just started. -/
theorem full_cycle_no_traffic_witness :
    ∃ T, ticks (loopBody (fun _ => 0) (initState ⟨0, 0, 0, 0, 0⟩ 0)).trace =
        ticks (initState ⟨0, 0, 0, 0, 0⟩ 0).trace ++ T ∧ T.length = 28 := by
  obtain ⟨T, a, _, l, _⟩ := full_cycle_no_traffic (fun _ => 0) (initState ⟨0, 0, 0, 0, 0⟩ 0)
    (fun _ => rfl) rfl rfl
  exact ⟨T, a, l⟩

/-- C6, counterexample.  When east-west shows yellow and north-south red (the
state at the end of an iteration of the main loop),
`set_traffic_light(NORTH_SOUTH, GREEN)` goes through two output-pin states, and
in the first of them no colour of the north-south pair is lit. -/
theorem atomic_write_counterexample :
    pinStates (set_traffic_light NORTH_SOUTH GREEN
      { ns_traffic_count := 0, ew_traffic_count := 0, gpioa := ⟨0, 0, 0, 0, 0x489⟩,
        ahb1enr := 0, k := 0, trace := [] }).trace = [0x480, 0x4A4] ∧
    litColours 0x480 NORTH_SOUTH = 0 := by
  decide

/-- C6, amended.  Every `set_traffic_light(d, c)` call with `c` one of `RED`,
`YELLOW`, `GREEN` issues two pin writes: the first resets the six light pins of
pair `d`, so the pair has no colour lit in the intermediate output-pin state;
the second sets the pins of colour `c`, after which the pair shows exactly
`c`; in neither state has the pair two colours lit. -/
theorem set_traffic_light_two_writes (direction color : Int) (s : State)
    (hc : color = RED ∨ color = YELLOW ∨ color = GREEN) :
    ∃ o1 o2, pinStates (set_traffic_light direction color s).trace =
        pinStates s.trace ++ [o1, o2] ∧
      (set_traffic_light direction color s).gpioa.ODR = o2 ∧
      litColours o1 direction = 0 ∧
      litColours o2 direction = 1 ∧
      shows o2 direction color := by
  obtain ⟨ht, ho⟩ := set_traffic_light_trace direction color hc s
  refine ⟨s.gpioa.ODR ^^^ (s.gpioa.ODR &&& pairPins direction),
    (s.gpioa.ODR ^^^ (s.gpioa.ODR &&& pairPins direction)) ||| colourPins direction color,
    ?_, ho, ?_, ?_, ?_⟩
  · rw [ht, pinStates_append]; rfl
  · rw [← litColours_pair, reset_pair]; exact litColours_none direction
  · rw [← litColours_pair, set_pair]; exact litColours_colourPins direction color hc
  · rw [← shows_pair, set_pair]; exact shows_colourPins direction color hc

/-- Witness of C6, amended: north-south goes from red to green. -/
theorem set_traffic_light_two_writes_witness :
    ∃ o1 o2, pinStates (set_traffic_light NORTH_SOUTH GREEN
        { ns_traffic_count := 0, ew_traffic_count := 0, gpioa := ⟨0, 0, 0, 0, 0x489⟩,
          ahb1enr := 0, k := 0, trace := [] }).trace =
        pinStates ([] : List Event) ++ [o1, o2] ∧
      litColours o1 NORTH_SOUTH = 0 ∧ litColours o2 NORTH_SOUTH = 1 := by
  obtain ⟨o1, o2, h1, _, h3, h4, _⟩ := set_traffic_light_two_writes NORTH_SOUTH GREEN
    { ns_traffic_count := 0, ew_traffic_count := 0, gpioa := ⟨0, 0, 0, 0, 0x489⟩,
      ahb1enr := 0, k := 0, trace := [] } (Or.inr (Or.inr rfl))
  exact ⟨o1, o2, h1, h3, h4⟩

/-- C7, the code at the failing input (every `rand()` result 0, all registers
0 at start).  Among the output-pin states of the first iteration of the main
loop there is one in which north-south shows green while east-west does not
show red (all its pins are low), and among those of the first two iterations
there is one in which north-south shows green while east-west shows yellow,
not red. -/
theorem nonactive_pair_not_red :
    (∃ odr ∈ pinStates (main (fun _ => 0) 1 ⟨0, 0, 0, 0, 0⟩ 0).trace,
      shows odr NORTH_SOUTH GREEN ∧ ¬ shows odr EAST_WEST RED ∧
      allLow odr (pairPins EAST_WEST)) ∧
    (∃ odr ∈ pinStates (main (fun _ => 0) 2 ⟨0, 0, 0, 0, 0⟩ 0).trace,
      shows odr NORTH_SOUTH GREEN ∧ ¬ shows odr EAST_WEST RED ∧
      shows odr EAST_WEST YELLOW) := by
  obtain ⟨⟨o1, m1, e1⟩, ⟨o2, m2, e2⟩⟩ := main_green_first (fun _ => 0) ⟨0, 0, 0, 0, 0⟩ 0
  refine ⟨⟨o1, m1, ?_, ?_, ?_⟩, ⟨o2, m2, ?_, ?_, ?_⟩⟩
  · rw [shows_lights, e1]; decide
  · rw [shows_lights, e1]; decide
  · unfold allLow
    rw [and_light_mask o1 _ (by decide), e1]; decide
  · rw [shows_lights, e2]; decide
  · rw [shows_lights, e2]; decide
  · rw [shows_lights, e2]; decide

/-- C8. `generate_traffic`: from counts in `[0, 30]` the call consumes exactly
two `rand()` results, the first for north-south and the second for east-west,
and leaves `count[NS] = min(count[NS] + r1 mod 3, 30)` and
`count[EW] = min(count[EW] + r2 mod 3, 30)`; each added amount is at most 2;
the new north-south count is the same in any other state with the same
north-south count and first result, and likewise for east-west; registers and
trace are unchanged. -/
theorem generate_traffic_spec (rnd : Nat → Nat) (s : State)
    (hns : s.ns_traffic_count ≤ 30) (hew : s.ew_traffic_count ≤ 30) :
    (generate_traffic rnd s).k = s.k + 2 ∧
    (generate_traffic rnd s).ns_traffic_count = min (s.ns_traffic_count + rnd s.k % 3) 30 ∧
    (generate_traffic rnd s).ew_traffic_count =
      min (s.ew_traffic_count + rnd (s.k + 1) % 3) 30 ∧
    rnd s.k % 3 ≤ 2 ∧ rnd (s.k + 1) % 3 ≤ 2 ∧
    (∀ (rnd2 : Nat → Nat) (t : State),
      t.ns_traffic_count = s.ns_traffic_count → rnd2 t.k % 3 = rnd s.k % 3 →
      (generate_traffic rnd2 t).ns_traffic_count = (generate_traffic rnd s).ns_traffic_count) ∧
    (∀ (rnd2 : Nat → Nat) (t : State),
      t.ew_traffic_count = s.ew_traffic_count → rnd2 (t.k + 1) % 3 = rnd (s.k + 1) % 3 →
      (generate_traffic rnd2 t).ew_traffic_count = (generate_traffic rnd s).ew_traffic_count) ∧
    (generate_traffic rnd s).gpioa = s.gpioa ∧
    (generate_traffic rnd s).ahb1enr = s.ahb1enr ∧
    (generate_traffic rnd s).trace = s.trace := by
  obtain ⟨e1, e2⟩ := generate_traffic_counts rnd s hns hew
  have h1 : rnd s.k % 3 < 3 := Nat.mod_lt _ (by decide)
  have h2 : rnd (s.k + 1) % 3 < 3 := Nat.mod_lt _ (by decide)
  refine ⟨rfl, e1, e2, by omega, by omega, ?_, ?_, rfl, rfl, rfl⟩
  · intro rnd2 t ht hr
    simp only [generate_traffic, ht, hr]
  · intro rnd2 t ht hr
    simp only [generate_traffic, ht, hr]

/-- Witness of C8: counts 29 and 30 with draws 5 and 4. -/
theorem generate_traffic_spec_witness :
    (generate_traffic (fun i => 5 - i)
      { ns_traffic_count := 29, ew_traffic_count := 30, gpioa := ⟨0, 0, 0, 0, 0⟩,
        ahb1enr := 0, k := 0, trace := [] }).ns_traffic_count = 30 :=
  (generate_traffic_spec (fun i => 5 - i)
      { ns_traffic_count := 29, ew_traffic_count := 30, gpioa := ⟨0, 0, 0, 0, 0⟩,
        ahb1enr := 0, k := 0, trace := [] } (by decide) (by decide)).2.1

/-- C9. `process_traffic_movement(d)` for `d` north-south or east-west: for
every state whose counts are `uint8_t` values and every next `rand()` result
`r`, the new `count[d]` is `count[d] - min(r mod 4, count[d])` as an integer
(the amount removed is at most 3 and at most the count, so the count stays
non-negative), and the count of the other direction is unchanged. -/
theorem process_traffic_movement_spec (rnd : Nat → Nat) (direction : Int) (s : State)
    (hd : direction = NORTH_SOUTH ∨ direction = EAST_WEST)
    (hns : s.ns_traffic_count < 256) (hew : s.ew_traffic_count < 256) :
    ((count direction (process_traffic_movement rnd direction s) : Nat) : Int) =
      (count direction s : Int) - ((min (rnd s.k % 4) (count direction s) : Nat) : Int) ∧
    min (rnd s.k % 4) (count direction s) ≤ 3 ∧
    min (rnd s.k % 4) (count direction s) ≤ count direction s ∧
    (direction = NORTH_SOUTH →
      (process_traffic_movement rnd direction s).ew_traffic_count = s.ew_traffic_count) ∧
    (direction = EAST_WEST →
      (process_traffic_movement rnd direction s).ns_traffic_count = s.ns_traffic_count) := by
  have h4 : rnd s.k % 4 < 4 := Nat.mod_lt _ (by decide)
  rcases hd with hd | hd
  · subst hd
    obtain ⟨e1, e2⟩ := process_traffic_movement_ns rnd s hns
    have c1 : ∀ t : State, count NORTH_SOUTH t = t.ns_traffic_count := fun t => by
      simp [count]
    rw [c1, c1, e1]
    refine ⟨by omega, by omega, by omega, fun _ => e2, fun hh => absurd hh (by decide)⟩
  · subst hd
    obtain ⟨e1, e2⟩ := process_traffic_movement_ew rnd s hew
    have c1 : ∀ t : State, count EAST_WEST t = t.ew_traffic_count := fun t => by
      simp [count, EAST_WEST, NORTH_SOUTH]
    rw [c1, c1, e1]
    refine ⟨by omega, by omega, by omega, fun hh => absurd hh (by decide), fun _ => e2⟩

/-- Witness of C9: seven vehicles north-south and a draw of 6, so two leave. -/
theorem process_traffic_movement_spec_witness :
    ((count NORTH_SOUTH (process_traffic_movement (fun _ => 6) NORTH_SOUTH
      { ns_traffic_count := 7, ew_traffic_count := 1, gpioa := ⟨0, 0, 0, 0, 0⟩,
        ahb1enr := 0, k := 0, trace := [] }) : Nat) : Int) =
      (count NORTH_SOUTH
        { ns_traffic_count := 7, ew_traffic_count := 1, gpioa := ⟨0, 0, 0, 0, 0⟩,
          ahb1enr := 0, k := 0, trace := [] } : Int) -
      ((min ((fun _ => 6) 0 % 4) (count NORTH_SOUTH
        { ns_traffic_count := 7, ew_traffic_count := 1, gpioa := ⟨0, 0, 0, 0, 0⟩,
          ahb1enr := 0, k := 0, trace := [] }) : Nat) : Int) :=
  (process_traffic_movement_spec (fun _ => 6) NORTH_SOUTH
      { ns_traffic_count := 7, ew_traffic_count := 1, gpioa := ⟨0, 0, 0, 0, 0⟩,
        ahb1enr := 0, k := 0, trace := [] } (Or.inl rfl) (by decide) (by decide)).1

/-- C10. Discharge at zero is a no-op: when `count[d] = 0`,
`process_traffic_movement(d)` returns the state it was given, that is the same
counts, registers (so every output pin) and trace, and the same number of
consumed `rand()` results, so the next draws are unaffected. -/
theorem process_traffic_movement_zero (rnd : Nat → Nat) (direction : Int) (s : State)
    (hd : direction = NORTH_SOUTH ∨ direction = EAST_WEST)
    (h0 : count direction s = 0) :
    process_traffic_movement rnd direction s = s ∧
    (process_traffic_movement rnd direction s).k = s.k ∧
    generate_traffic rnd (process_traffic_movement rnd direction s) =
      generate_traffic rnd s := by
  have key : process_traffic_movement rnd direction s = s := by
    rcases hd with hd | hd
    · subst hd
      have hz : s.ns_traffic_count = 0 := by simpa [count] using h0
      unfold process_traffic_movement
      rw [if_neg (by omega), if_neg (fun hh => absurd hh.1 (by decide))]
    · subst hd
      have hz : s.ew_traffic_count = 0 := by
        simpa [count, EAST_WEST, NORTH_SOUTH] using h0
      unfold process_traffic_movement
      rw [if_neg (fun hh => absurd hh.1 (by decide)), if_neg (by omega)]
  rw [key]
  exact ⟨rfl, rfl, rfl⟩

/-- Witness of C10: no vehicle east-west, four north-south. -/
theorem process_traffic_movement_zero_witness :
    process_traffic_movement (fun _ => 3) EAST_WEST
      { ns_traffic_count := 4, ew_traffic_count := 0, gpioa := ⟨0, 0, 0, 0, 7⟩,
        ahb1enr := 0, k := 9, trace := [] } =
      { ns_traffic_count := 4, ew_traffic_count := 0, gpioa := ⟨0, 0, 0, 0, 7⟩,
        ahb1enr := 0, k := 9, trace := [] } :=
  (process_traffic_movement_zero (fun _ => 3) EAST_WEST
      { ns_traffic_count := 4, ew_traffic_count := 0, gpioa := ⟨0, 0, 0, 0, 7⟩,
        ahb1enr := 0, k := 9, trace := [] } (Or.inr rfl) rfl).1

/-- C11. `is_traffic_low(d)` returns 1 when `count[d] <= 5` and 0 otherwise,
reading `ns_traffic_count` for `NORTH_SOUTH` and `ew_traffic_count` for
`EAST_WEST`, for every pair of counts: the result is the same in any two
states that agree on the count of the direction.  It is a function of the
state that returns a value only, so it changes no state. -/
theorem is_traffic_low_spec (s : State) :
    (is_traffic_low NORTH_SOUTH s = 1 ↔ s.ns_traffic_count ≤ 5) ∧
    (is_traffic_low NORTH_SOUTH s = 0 ↔ ¬ s.ns_traffic_count ≤ 5) ∧
    (is_traffic_low EAST_WEST s = 1 ↔ s.ew_traffic_count ≤ 5) ∧
    (is_traffic_low EAST_WEST s = 0 ↔ ¬ s.ew_traffic_count ≤ 5) ∧
    (∀ t : State, t.ns_traffic_count = s.ns_traffic_count →
      is_traffic_low NORTH_SOUTH t = is_traffic_low NORTH_SOUTH s) ∧
    (∀ t : State, t.ew_traffic_count = s.ew_traffic_count →
      is_traffic_low EAST_WEST t = is_traffic_low EAST_WEST s) := by
  have e1 : ∀ t : State, is_traffic_low NORTH_SOUTH t =
      if t.ns_traffic_count ≤ 5 then 1 else 0 := fun t => by
    unfold is_traffic_low TRAFFIC_LOW; rw [if_pos rfl]
  have e2 : ∀ t : State, is_traffic_low EAST_WEST t =
      if t.ew_traffic_count ≤ 5 then 1 else 0 := fun t => by
    unfold is_traffic_low TRAFFIC_LOW; rw [if_neg (by decide)]
  refine ⟨?_, ?_, ?_, ?_, ?_, ?_⟩
  · rw [e1]; split <;> simp_all
  · rw [e1]; split <;> simp_all
  · rw [e2]; split <;> simp_all
  · rw [e2]; split <;> simp_all
  · intro t ht; rw [e1, e1, ht]
  · intro t ht; rw [e2, e2, ht]

/-- C12. Indicator correctness: for every pair of counts and every prior pin
state, after `update_load_indicators` the NS-load pin PA12 is high iff
`count[NS] > 5` and low otherwise, the EW-load pin PA13 is high iff
`count[EW] > 5` and low otherwise, and the both-high pin PA14 is high iff both
of those pins are high and low otherwise; the three pins are the indicator
function of the counts, whatever the pins were before; the counts, the number
of consumed draws and the twelve traffic-light pins are unchanged.  With
`count[NS] = 6` and `count[EW] = 3` the NS pin is high, the EW pin low and the
third pin low. -/
theorem update_load_indicators_spec (s : State) :
    (allHigh (update_load_indicators s).gpioa.ODR NS_LOAD_LED_PIN ↔ 5 < s.ns_traffic_count) ∧
    (allLow (update_load_indicators s).gpioa.ODR NS_LOAD_LED_PIN ↔ ¬ 5 < s.ns_traffic_count) ∧
    (allHigh (update_load_indicators s).gpioa.ODR EW_LOAD_LED_PIN ↔ 5 < s.ew_traffic_count) ∧
    (allLow (update_load_indicators s).gpioa.ODR EW_LOAD_LED_PIN ↔ ¬ 5 < s.ew_traffic_count) ∧
    (allHigh (update_load_indicators s).gpioa.ODR BOTH_LOAD_LED_PIN ↔
      allHigh (update_load_indicators s).gpioa.ODR NS_LOAD_LED_PIN ∧
      allHigh (update_load_indicators s).gpioa.ODR EW_LOAD_LED_PIN) ∧
    (allLow (update_load_indicators s).gpioa.ODR BOTH_LOAD_LED_PIN ↔
      ¬ (allHigh (update_load_indicators s).gpioa.ODR NS_LOAD_LED_PIN ∧
        allHigh (update_load_indicators s).gpioa.ODR EW_LOAD_LED_PIN)) ∧
    (update_load_indicators s).gpioa.ODR &&& INDICATOR_PINS =
      indicators s.ns_traffic_count s.ew_traffic_count ∧
    (∀ t : State, t.ns_traffic_count = s.ns_traffic_count →
      t.ew_traffic_count = s.ew_traffic_count →
      (update_load_indicators t).gpioa.ODR &&& INDICATOR_PINS =
        (update_load_indicators s).gpioa.ODR &&& INDICATOR_PINS) ∧
    (update_load_indicators s).ns_traffic_count = s.ns_traffic_count ∧
    (update_load_indicators s).ew_traffic_count = s.ew_traffic_count ∧
    (update_load_indicators s).k = s.k ∧
    (update_load_indicators s).gpioa.ODR &&& LIGHT_PINS = s.gpioa.ODR &&& LIGHT_PINS ∧
    (s.ns_traffic_count = 6 → s.ew_traffic_count = 3 →
      allHigh (update_load_indicators s).gpioa.ODR NS_LOAD_LED_PIN ∧
      allLow (update_load_indicators s).gpioa.ODR EW_LOAD_LED_PIN ∧
      allLow (update_load_indicators s).gpioa.ODR BOTH_LOAD_LED_PIN) := by
  have hn := update_load_indicators_ns_pin s
  have he := update_load_indicators_ew_pin s
  have hb := update_load_indicators_both_pin s
  have hc := update_load_indicators_counts s
  have hp := update_load_indicators_pins s
  have hf := update_load_indicators_frame s LIGHT_PINS (by decide)
  have n0 : NS_LOAD_LED_PIN ≠ 0 := by decide
  have e0 : EW_LOAD_LED_PIN ≠ 0 := by decide
  have b0 : BOTH_LOAD_LED_PIN ≠ 0 := by decide
  have key : ∀ (c : Prop) [Decidable c] (p : Nat), p ≠ 0 →
      (((if c then p else 0) = p ↔ c) ∧ ((if c then p else 0) = 0 ↔ ¬ c)) := by
    intro c _ p hp0
    by_cases h : c
    · simp [h, hp0]
    · simp [h, hp0, Ne.symm hp0]
  unfold allHigh allLow
  rw [hn, he, hb]
  unfold TRAFFIC_LOW
  refine ⟨(key _ _ n0).1, (key _ _ n0).2, (key _ _ e0).1, (key _ _ e0).2, ?_, ?_, hp, ?_,
    hc.1, hc.2.1, hc.2.2, hf, ?_⟩
  · rw [(key _ _ n0).1, (key _ _ e0).1, (key _ _ b0).1]
  · rw [(key _ _ n0).1, (key _ _ e0).1, (key _ _ b0).2]
  · intro t h1 h2
    rw [update_load_indicators_pins, h1, h2, hp]
  · intro h1 h2
    rw [(key _ _ n0).1, (key _ _ e0).2, (key _ _ b0).2, h1, h2]
    decide

/-- C13. Tick ordering: for every stream of `rand()` results and every number
of iterations, the calls and delays of `main` are, tick after tick, a call to
`generate_traffic`, a call to `update_load_indicators`, in a green or extended
green phase a call to `process_traffic_movement` for the direction of the
phase, and the delay of 500 ms that ends the tick, in this order and with
nothing in between but pin writes.  There is no such call in a yellow phase,
and where there is one its direction shows green at the delay of the tick. -/
theorem tick_ordering (rnd : Nat → Nat) (n : Nat) (g : GPIO_TypeDef) (ahb1enr : Nat) :
    calls (main rnd n g ahb1enr).trace =
      (ticks (main rnd n g ahb1enr).trace).flatMap tickCalls ∧
    (∀ t : Tick, tickCalls t =
      [Event.call_generate_traffic, Event.call_update_load_indicators] ++
        moveCalls (phaseOfLine t.line) ++ [Event.delay t.line t.ms t.odr t.ns t.ew]) ∧
    moveCalls (some Phase.NS_GREEN) = [Event.call_process_traffic_movement NORTH_SOUTH] ∧
    moveCalls (some Phase.NS_GREEN_EXTENDED) =
      [Event.call_process_traffic_movement NORTH_SOUTH] ∧
    moveCalls (some Phase.NS_YELLOW) = [] ∧
    moveCalls (some Phase.EW_GREEN) = [Event.call_process_traffic_movement EAST_WEST] ∧
    moveCalls (some Phase.EW_GREEN_EXTENDED) =
      [Event.call_process_traffic_movement EAST_WEST] ∧
    moveCalls (some Phase.EW_YELLOW) = [] ∧
    (∀ t ∈ ticks (main rnd n g ahb1enr).trace, t.ms = 500 ∧
      ∃ p, phaseOfLine t.line = some p ∧
        ∀ d : Int, Event.call_process_traffic_movement d ∈ moveCalls (some p) →
          greenDirection p = some d ∧ shows t.odr d GREEN) := by
  refine ⟨Ordered_main rnd n g ahb1enr, fun _ => rfl, rfl, rfl, rfl, rfl, rfl, rfl, ?_⟩
  intro t ht
  obtain ⟨p, hp, hl⟩ := TickLights_main rnd n g ahb1enr t ht
  refine ⟨ticks_main_phase rnd n g ahb1enr t ht, p, hp, ?_⟩
  intro d hd
  obtain ⟨g1, g2, g3⟩ := mem_moveCalls p d hd
  obtain ⟨s1, s2, _⟩ := phaseLights_shows p
  refine ⟨g1, ?_⟩
  rw [shows_lights, hl]
  rw [g2] at s1 s2
  rcases g3 with rfl | rfl
  · exact s1
  · exact s2

/-- C14. `GPIO_WritePin(port, mask, state)` for a 16-bit mask changes the port
by one store to `BSRR` and nothing else: the value stored is the mask (bits
0-15, nothing in bits 16-31) for `GPIO_PIN_SET` and the mask shifted left by 16
(bits 16-31, nothing in bits 0-15) otherwise, a 32-bit value; the store acts on
the output as "output or low half, and not high half"; after it every pin of
the mask is high for `GPIO_PIN_SET` and low for `GPIO_PIN_RESET`, and every pin
outside the mask has the level it had, for every prior output state; the
program's trace gets exactly one write event. -/
theorem GPIO_WritePin_spec (g : GPIO_TypeDef) (m : Nat) (st : GPIO_PinState)
    (hm : m < 65536) :
    GPIO_WritePin g m st = { g with ODR := BSRR_store (GPIO_WritePin_value m st) g.ODR } ∧
    GPIO_WritePin_value m GPIO_PinState.GPIO_PIN_SET = m ∧
    GPIO_WritePin_value m GPIO_PinState.GPIO_PIN_SET >>> 16 = 0 ∧
    GPIO_WritePin_value m GPIO_PinState.GPIO_PIN_RESET = m * 65536 ∧
    GPIO_WritePin_value m GPIO_PinState.GPIO_PIN_RESET >>> 16 = m ∧
    GPIO_WritePin_value m GPIO_PinState.GPIO_PIN_RESET &&& 0xFFFF = 0 ∧
    GPIO_WritePin_value m st < 2 ^ 32 ∧
    BSRR_store (GPIO_WritePin_value m st) g.ODR =
      BSRR_or_then_clear (GPIO_WritePin_value m st) g.ODR ∧
    allHigh (GPIO_WritePin g m GPIO_PinState.GPIO_PIN_SET).ODR m ∧
    allLow (GPIO_WritePin g m GPIO_PinState.GPIO_PIN_RESET).ODR m ∧
    (∀ i, m.testBit i = true →
      (GPIO_WritePin g m st).ODR.testBit i = decide (st = GPIO_PinState.GPIO_PIN_SET)) ∧
    (∀ i, m.testBit i = false → (GPIO_WritePin g m st).ODR.testBit i = g.ODR.testBit i) ∧
    (∀ s : State, (writePinA m st s).trace =
      s.trace ++ [Event.write (GPIO_WritePin_value m st) (GPIO_WritePin s.gpioa m st).ODR]) := by
  have h0 : (m <<< 16) % 2 ^ 32 = m * 65536 := by
    rw [Nat.shiftLeft_eq]; apply Nat.mod_eq_of_lt; omega
  have hr : GPIO_WritePin_value m GPIO_PinState.GPIO_PIN_RESET = m * 65536 := h0
  refine ⟨rfl, rfl, ?_, hr, ?_, ?_, ?_, (BSRR_or_then_clear_eq m g.ODR st hm).symm,
    write_set_mask m g.ODR hm, write_reset_mask m g.ODR hm, ?_, ?_, fun s => rfl⟩
  · show m >>> 16 = 0
    rw [Nat.shiftRight_eq_div_pow]; exact Nat.div_eq_of_lt hm
  · rw [hr, Nat.shiftRight_eq_div_pow]; omega
  · rw [hr]
    have : (m * 65536) &&& (2 ^ 16 - 1) = 0 := by
      rw [Nat.and_pow_two_sub_one_eq_mod]; omega
    exact this
  · cases st with
    | GPIO_PIN_RESET => rw [hr]; omega
    | GPIO_PIN_SET => show m < 2 ^ 32; omega
  · intro i hi
    show (BSRR_store (GPIO_WritePin_value m st) g.ODR).testBit i = _
    rw [testBit_write m g.ODR i st hm, if_pos hi]
  · intro i hi
    show (BSRR_store (GPIO_WritePin_value m st) g.ODR).testBit i = _
    rw [testBit_write m g.ODR i st hm, if_neg (by simp [hi])]

/-- Witness of C14: resetting the north-south pins while all pins are high. -/
theorem GPIO_WritePin_spec_witness :
    allLow (GPIO_WritePin ⟨0, 0, 0, 0, 0xFFFF⟩ 0x003F GPIO_PinState.GPIO_PIN_RESET).ODR 0x003F :=
  (GPIO_WritePin_spec ⟨0, 0, 0, 0, 0xFFFF⟩ 0x003F GPIO_PinState.GPIO_PIN_RESET
    (by decide)).2.2.2.2.2.2.2.2.2.1

/-- C15. `GPIO_Init` postcondition: for every prior register state, port and
init structure and every pin position `p` in 0..15, a position whose bit is
set in `Pin` has its `MODER` field equal to `Mode & 3`, its `OTYPER` bit to
`(Mode >> 4) & 1`, its `OSPEEDR` field to `Speed & 3` and its `PUPDR` field to
`Pull & 3`, and a position whose bit is not set has all four fields as they
were; the output data register is untouched.  With `GPIO_MODE_OUTPUT_PP` a
selected pin is a general-purpose output (`MODER` field 1) of push-pull type
(`OTYPER` bit 0).  `setup_gpio` makes exactly the pins PA0-PA14 push-pull
outputs of low speed without pull and leaves the four fields of PA15 as they
were. -/
theorem GPIO_Init_spec (port : Port) (ini : GPIO_InitTypeDef) (ahb1enr : Nat)
    (g : GPIO_TypeDef) (p : Nat) (hp : p < 16) :
    (selected ini p ↔ ini.Pin.testBit p = true) ∧
    (selected ini p →
      field 2 (GPIO_Init port ini ahb1enr g).2.MODER p = ini.Mode &&& 3 ∧
      field 1 (GPIO_Init port ini ahb1enr g).2.OTYPER p = (ini.Mode >>> 4) &&& 1 ∧
      field 2 (GPIO_Init port ini ahb1enr g).2.OSPEEDR p = ini.Speed &&& 3 ∧
      field 2 (GPIO_Init port ini ahb1enr g).2.PUPDR p = ini.Pull &&& 3) ∧
    (¬ selected ini p →
      field 2 (GPIO_Init port ini ahb1enr g).2.MODER p = field 2 g.MODER p ∧
      field 1 (GPIO_Init port ini ahb1enr g).2.OTYPER p = field 1 g.OTYPER p ∧
      field 2 (GPIO_Init port ini ahb1enr g).2.OSPEEDR p = field 2 g.OSPEEDR p ∧
      field 2 (GPIO_Init port ini ahb1enr g).2.PUPDR p = field 2 g.PUPDR p) ∧
    (GPIO_Init port ini ahb1enr g).2.ODR = g.ODR ∧
    (ini.Mode = GPIO_MODE_OUTPUT_PP → selected ini p →
      field 2 (GPIO_Init port ini ahb1enr g).2.MODER p = 1 ∧
      field 1 (GPIO_Init port ini ahb1enr g).2.OTYPER p = 0) ∧
    (∀ s : State, p < 15 →
      field 2 (setup_gpio s).gpioa.MODER p = 1 ∧
      field 1 (setup_gpio s).gpioa.OTYPER p = 0 ∧
      field 2 (setup_gpio s).gpioa.OSPEEDR p = 0 ∧
      field 2 (setup_gpio s).gpioa.PUPDR p = 0) ∧
    (∀ s : State, p = 15 →
      field 2 (setup_gpio s).gpioa.MODER p = field 2 s.gpioa.MODER p ∧
      field 1 (setup_gpio s).gpioa.OTYPER p = field 1 s.gpioa.OTYPER p ∧
      field 2 (setup_gpio s).gpioa.OSPEEDR p = field 2 s.gpioa.OSPEEDR p ∧
      field 2 (setup_gpio s).gpioa.PUPDR p = field 2 s.gpioa.PUPDR p) := by
  obtain ⟨f1, f2, f3, f4⟩ := GPIO_Init_fields port ini ahb1enr g p hp
  refine ⟨selected_iff ini p (by omega), ?_, ?_, GPIO_Init_ODR port ini ahb1enr g, ?_, ?_, ?_⟩
  · intro hs
    rw [f1, f2, f3, f4]
    simp only [hs, if_true, and_self]
  · intro hs
    rw [f1, f2, f3, f4]
    simp only [hs, if_false, and_self]
  · intro hm hs
    rw [f1, f2, hm]
    simp only [hs, if_true]
    exact ⟨by decide, by decide⟩
  · intro s h15
    obtain ⟨r1, r2, r3, r4⟩ := setup_gpio_registers s
    obtain ⟨s1, s2, s3, s4⟩ := GPIO_Init_fields Port.GPIOA
      ⟨ALL_PINS, GPIO_MODE_OUTPUT_PP, GPIO_NOPULL, GPIO_SPEED_FREQ_LOW, 0⟩ s.ahb1enr s.gpioa p hp
    have hs := (selected_ALL_PINS
      ⟨ALL_PINS, GPIO_MODE_OUTPUT_PP, GPIO_NOPULL, GPIO_SPEED_FREQ_LOW, 0⟩ rfl p hp).mpr h15
    rw [r1, r2, r3, r4, s1, s2, s3, s4]
    simp only [hs, if_true]
    exact ⟨by decide, by decide, by decide, by decide⟩
  · intro s h15
    obtain ⟨r1, r2, r3, r4⟩ := setup_gpio_registers s
    obtain ⟨s1, s2, s3, s4⟩ := GPIO_Init_fields Port.GPIOA
      ⟨ALL_PINS, GPIO_MODE_OUTPUT_PP, GPIO_NOPULL, GPIO_SPEED_FREQ_LOW, 0⟩ s.ahb1enr s.gpioa p hp
    have hs : ¬ selected
        (⟨ALL_PINS, GPIO_MODE_OUTPUT_PP, GPIO_NOPULL, GPIO_SPEED_FREQ_LOW, 0⟩ :
          GPIO_InitTypeDef) p := fun h =>
      absurd ((selected_ALL_PINS _ rfl p hp).mp h) (by omega)
    rw [r1, r2, r3, r4, s1, s2, s3, s4]
    simp only [hs, if_false, and_self]

/-- Witness of C15: pin 3 is configured as an open-drain output of high speed
with pull-up over registers that are all ones. -/
theorem GPIO_Init_spec_witness :
    field 2 (GPIO_Init Port.GPIOB ⟨0x0008, 0x11, 1, 2, 0⟩ 0
      ⟨0xFFFFFFFF, 0xFFFF, 0xFFFFFFFF, 0xFFFFFFFF, 0⟩).2.MODER 3 = 0x11 &&& 3 ∧
    field 1 (GPIO_Init Port.GPIOB ⟨0x0008, 0x11, 1, 2, 0⟩ 0
      ⟨0xFFFFFFFF, 0xFFFF, 0xFFFFFFFF, 0xFFFFFFFF, 0⟩).2.OTYPER 3 = (0x11 >>> 4) &&& 1 ∧
    field 2 (GPIO_Init Port.GPIOB ⟨0x0008, 0x11, 1, 2, 0⟩ 0
      ⟨0xFFFFFFFF, 0xFFFF, 0xFFFFFFFF, 0xFFFFFFFF, 0⟩).2.OSPEEDR 3 = 2 &&& 3 ∧
    field 2 (GPIO_Init Port.GPIOB ⟨0x0008, 0x11, 1, 2, 0⟩ 0
      ⟨0xFFFFFFFF, 0xFFFF, 0xFFFFFFFF, 0xFFFFFFFF, 0⟩).2.PUPDR 3 = 1 &&& 3 :=
  (GPIO_Init_spec Port.GPIOB ⟨0x0008, 0x11, 1, 2, 0⟩ 0
    ⟨0xFFFFFFFF, 0xFFFF, 0xFFFFFFFF, 0xFFFFFFFF, 0⟩ 3 (by decide)).2.1 (by decide)

/-- C16. `GPIO_Init` is idempotent: for every prior state of `AHB1ENR`,
`MODER`, `OTYPER`, `OSPEEDR` and `PUPDR` (and of the output data register),
every port and every init structure, a second call with the same arguments
leaves the registers as the first call left them. -/
theorem GPIO_Init_idempotent (port : Port) (ini : GPIO_InitTypeDef) (ahb1enr : Nat)
    (g : GPIO_TypeDef) :
    GPIO_Init port ini (GPIO_Init port ini ahb1enr g).1 (GPIO_Init port ini ahb1enr g).2 =
      GPIO_Init port ini ahb1enr g := by
  have h : ∀ a c : Nat, (a ||| c) ||| c = a ||| c := fun a c => by
    rw [Nat.or_assoc, Nat.or_self]
  unfold GPIO_Init
  simp only [GPIO_Init_loop_idem]
  cases port <;> simp only [h]

/-- C17, counterexample.  With bit 16 set in `Pin` next to bit 0, `GPIO_Init`
returns as for bit 0 alone, and pin 0 has been configured: the call is not
aborted and the invalid pin is ignored.  For a port that is neither `GPIOA`
nor `GPIOB` the registers are configured all the same. -/
theorem GPIO_Init_no_error :
    GPIO_Init Port.GPIOA ⟨0x10001, 1, 0, 0, 0⟩ 0 ⟨0, 0, 0, 0, 0⟩ =
      GPIO_Init Port.GPIOA ⟨0x00001, 1, 0, 0, 0⟩ 0 ⟨0, 0, 0, 0, 0⟩ ∧
    GPIO_Init Port.GPIOA ⟨0x10001, 1, 0, 0, 0⟩ 0 ⟨0, 0, 0, 0, 0⟩ = (1, ⟨1, 0, 0, 0, 0⟩) ∧
    GPIO_Init (Port.other 7) ⟨0x00001, 1, 0, 0, 0⟩ 0 ⟨0, 0, 0, 0, 0⟩ = (0, ⟨1, 0, 0, 0, 0⟩) := by
  decide

/-- C17, amended.  `GPIO_Init` has no error result and always completes: the
bits of `Pin` at positions 16 and above are ignored, the call leaving the
registers as the call with `Pin & 0xFFFF` does; and for a port other than
`GPIOA` and `GPIOB` it leaves `AHB1ENR` as it is and configures the registers
of the port as for any other port. -/
theorem GPIO_Init_ignores_invalid (port : Port) (ini : GPIO_InitTypeDef) (ahb1enr : Nat)
    (g : GPIO_TypeDef) :
    GPIO_Init port { ini with Pin := ini.Pin % 65536 } ahb1enr g =
      GPIO_Init port ini ahb1enr g ∧
    (∀ n : Nat, GPIO_Init (Port.other n) ini ahb1enr g =
      (ahb1enr, (GPIO_Init Port.GPIOA ini ahb1enr g).2)) := by
  constructor
  · unfold GPIO_Init GPIO_Init_loop
    rw [foldl_GPIO_Init_position_mod ini (List.range GPIO_NUMBER)
      (fun _ hr => List.mem_range.mp hr)]
  · intro n; rfl

/-- C18. `set_traffic_light(d, c)` for `d` north-south or east-west and `c`
red, yellow or green, from every prior output-pin state: afterwards both pins
of colour `c` of pair `d` are high and the four other light pins of the pair
are low, so the pair shows `c` and exactly one of its colours is lit; the six
light pins of the other pair, the three load-indicator pins, the two counts
and the number of consumed draws are unchanged.  The fifteen pin masks are the
single bits 0 to 14, hence pairwise disjoint. -/
theorem set_traffic_light_spec (direction color : Int) (s : State)
    (hd : direction = NORTH_SOUTH ∨ direction = EAST_WEST)
    (hc : color = RED ∨ color = YELLOW ∨ color = GREEN) :
    allHigh (set_traffic_light direction color s).gpioa.ODR (colourPins direction color) ∧
    allLow (set_traffic_light direction color s).gpioa.ODR
      (pairPins direction ^^^ colourPins direction color) ∧
    shows (set_traffic_light direction color s).gpioa.ODR direction color ∧
    litColours (set_traffic_light direction color s).gpioa.ODR direction = 1 ∧
    (set_traffic_light direction color s).gpioa.ODR &&& pairPins (otherDirection direction) =
      s.gpioa.ODR &&& pairPins (otherDirection direction) ∧
    (set_traffic_light direction color s).gpioa.ODR &&& INDICATOR_PINS =
      s.gpioa.ODR &&& INDICATOR_PINS ∧
    (set_traffic_light direction color s).ns_traffic_count = s.ns_traffic_count ∧
    (set_traffic_light direction color s).ew_traffic_count = s.ew_traffic_count ∧
    (set_traffic_light direction color s).k = s.k ∧
    PIN_MASKS = (List.range 15).map (fun i => 2 ^ i) ∧
    PIN_MASKS.Pairwise (fun a b => a &&& b = 0) := by
  have ho := (set_traffic_light_trace direction color hc s).2
  have hs : shows (set_traffic_light direction color s).gpioa.ODR direction color := by
    rw [ho, ← shows_pair, set_pair]; exact shows_colourPins direction color hc
  have h1 : litColours (set_traffic_light direction color s).gpioa.ODR direction = 1 := by
    rw [ho, ← litColours_pair, set_pair]; exact litColours_colourPins direction color hc
  obtain ⟨c1, c2, c3⟩ := set_traffic_light_counts direction color s
  have f1 := set_traffic_light_frame direction color s _ hc (pairPins_other direction hd)
  have f2 := set_traffic_light_frame direction color s _ hc (pairPins_indicators direction)
  exact ⟨hs.2.1, hs.2.2, hs, h1, f1, f2, c1, c2, c3, by decide, by decide⟩

/-- Witness of C18: east-west goes to green while north-south shows red and
the NS-load indicator is on. -/
theorem set_traffic_light_spec_witness :
    shows (set_traffic_light EAST_WEST GREEN
      { ns_traffic_count := 7, ew_traffic_count := 2, gpioa := ⟨0, 0, 0, 0, 0x1249⟩,
        ahb1enr := 0, k := 0, trace := [] }).gpioa.ODR EAST_WEST GREEN :=
  (set_traffic_light_spec EAST_WEST GREEN
    { ns_traffic_count := 7, ew_traffic_count := 2, gpioa := ⟨0, 0, 0, 0, 0x1249⟩,
      ahb1enr := 0, k := 0, trace := [] } (Or.inr rfl) (Or.inr (Or.inr rfl))).2.2.1

/-- C19. Tick-level signal safety: at every delay point of `main`, for every
stream of `rand()` results, every number of iterations (the first included)
and every initial register state, each direction pair has exactly one colour
lit, and the two pairs show the colours of the phase of the delay point, which
are (GREEN, RED) in the north-south green phases, (YELLOW, RED) in north-south
yellow, (RED, GREEN) in the east-west green phases and (RED, YELLOW) in
east-west yellow. -/
theorem tick_signal_safety (rnd : Nat → Nat) (n : Nat) (g : GPIO_TypeDef) (ahb1enr : Nat) :
    ∀ t ∈ ticks (main rnd n g ahb1enr).trace,
      litColours t.odr NORTH_SOUTH = 1 ∧ litColours t.odr EAST_WEST = 1 ∧
      ∃ p, phaseOfLine t.line = some p ∧
        shows t.odr NORTH_SOUTH (phaseColours p).1 ∧
        shows t.odr EAST_WEST (phaseColours p).2 ∧
        phaseColours p ∈ [(GREEN, RED), (YELLOW, RED), (RED, GREEN), (RED, YELLOW)] := by
  intro t ht
  obtain ⟨p, hp, hl⟩ := TickLights_main rnd n g ahb1enr t ht
  obtain ⟨s1, s2, c1, c2, m⟩ := phaseLights_shows p
  refine ⟨?_, ?_, p, hp, ?_, ?_, m⟩
  · rw [litColours_lights, hl]; exact c1
  · rw [litColours_lights, hl]; exact c2
  · rw [shows_lights, hl]; exact s1
  · rw [shows_lights, hl]; exact s2

/-- Witness of C19: a delay point of the first iteration. -/
theorem tick_signal_safety_witness :
    ∃ t ∈ ticks (main (fun _ => 0) 1 ⟨0, 0, 0, 0, 0⟩ 0).trace,
      litColours t.odr NORTH_SOUTH = 1 ∧ litColours t.odr EAST_WEST = 1 := by
  obtain ⟨t, ht⟩ := main_has_tick (fun _ => 0) 0 ⟨0, 0, 0, 0, 0⟩ 0
  obtain ⟨h1, h2, _⟩ := tick_signal_safety (fun _ => 0) 1 ⟨0, 0, 0, 0, 0⟩ 0 t ht
  exact ⟨t, ht, h1, h2⟩

/-- C20. Indicator staleness. Every delay point `t` of the program ends a tick
that started in some state `s`, and pins 12 to 14 of the output register at
`t` are the indicator function (count > 5 per direction, and both) of the
counts that the tick's `generate_traffic` left, while the counts at `t` are
those after the tick's `process_traffic_movement`. Hence at the delay points
of the yellow phases the pins match the current counts. In a green phase they
can be stale: with the draws `staleDraws` the third delay point of the first
north-south green phase ends a tick whose count after the arrivals was 6; the
discharge took 3, and the north-south load pin is high at the delay although
the count is 3, which is not above 5. -/
theorem indicator_staleness :
    (∀ (rnd : Nat → Nat) (n : Nat) (g : GPIO_TypeDef) (ahb1enr : Nat),
      ∀ t ∈ ticks (main rnd n g ahb1enr).trace,
        (∃ (p : Phase) (s : State), phaseOfLine t.line = some p ∧
          t = snap t.line (tickBody rnd p t.line s) ∧
          t.odr &&& INDICATOR_PINS =
            indicators (generate_traffic rnd s).ns_traffic_count
              (generate_traffic rnd s).ew_traffic_count ∧
          (t.ns, t.ew) = countsAtDelay rnd p (generate_traffic rnd s)) ∧
        ∀ p, phaseOfLine t.line = some p → greenDirection p = none →
          t.odr &&& INDICATOR_PINS = indicators t.ns t.ew) ∧
    (∃ t ∈ ticks (main staleDraws 1 ⟨0, 0, 0, 0, 0⟩ 0).trace,
      ∃ s : State, phaseOfLine t.line = some Phase.NS_GREEN ∧
        t = snap t.line (greenTick staleDraws NORTH_SOUTH t.line s) ∧
        (generate_traffic staleDraws s).ns_traffic_count = 6 ∧
        allHigh t.odr NS_LOAD_LED_PIN ∧ t.ns = 3 ∧ t.ns ≤ TRAFFIC_LOW ∧
        t.odr &&& INDICATOR_PINS ≠ indicators t.ns t.ew) := by
  refine ⟨fun rnd n g ahb1enr t ht =>
    ⟨TickIndicators_main rnd n g ahb1enr t ht,
      fun p hp hg => TickIndicators_yellow rnd t p (TickIndicators_main rnd n g ahb1enr t ht)
        hp hg⟩, ?_⟩
  refine ⟨_, third_tick_of_main staleDraws ⟨0, 0, 0, 0, 0⟩ 0,
    (greenTick staleDraws NORTH_SOUTH 104)^[2]
      (set_traffic_light EAST_WEST RED (set_traffic_light NORTH_SOUTH GREEN
        (setup_gpio (initState ⟨0, 0, 0, 0, 0⟩ 0)))), rfl, rfl, ?_⟩
  exact stale_third_tick

end Traffic
